import Mathlib

/- Verification of TangentCNC (src/script.js) against its specification.

Modelling conventions:
* JavaScript numbers are modelled as exact rationals (ℚ).  Every finite IEEE
  double is a rational number, so quantifying over all rationals covers all
  finite JavaScript numbers.  Where the source computes generally irrational
  values (Math.atan2, Math.hypot) the model uses ℝ; the angle helpers are
  therefore written polymorphically over a linear ordered field with floor.
* Strings are modelled as lists of characters (List Char).
* Mutable loop state of the source is passed explicitly through recursive
  functions; the mutable globals (machineSettings, points, curveResolution)
  become explicit parameters.
-/

namespace TangentCNC

variable {α : Type} [LinearOrderedField α] [FloorRing α]

/-- Angle range mode, machineSettings.angleMode in the source: the string
values are the minus-180-to-180 mode and the 0-to-360 mode. -/
inductive AngleMode
  | neg180to180
  | zeroTo360
  deriving DecidableEq, Repr

/-- Unit setting, machineSettings.unit in the source (mm or inch). -/
inductive UnitKind
  | mm
  | inch
  deriving DecidableEq, Repr

/-- Model of the machineSettings object (src/script.js lines 14-26). -/
structure MachineConfig where
  unit : UnitKind
  scaleFactor : ℚ
  safeHeight : ℚ
  cutDepth : ℚ
  feedRate : ℚ
  rapidRate : ℚ
  angleMode : AngleMode
  angleOffset : ℚ
  shortestPath : Bool
  toolOffsetX : ℚ
  toolOffsetY : ℚ
  deriving DecidableEq, Repr

/-- Loop body shared by normalizeAngle (line 956) and getAngleDifference
(line 981): while (v > 180) v -= 360. -/
def foldDown {α : Type} [LinearOrderedField α] [FloorRing α] (x : α) : α :=
  if 180 < x then foldDown (x - 360) else x
termination_by (⌈x⌉ - 180).toNat
decreasing_by
  rename_i h
  have h1 : (180 : ℤ) < ⌈x⌉ := by
    rw [Int.lt_ceil]; exact_mod_cast h
  have h2 : ⌈x - 360⌉ = ⌈x⌉ - 360 := by
    have h3 : x - 360 = x - ((360 : ℤ) : α) := by norm_num
    rw [h3, Int.ceil_sub_int]
  rw [h2]; omega

/-- Loop body shared by normalizeAngle (line 957) and getAngleDifference
(line 982): while (v <= -180) v += 360. -/
def foldUp {α : Type} [LinearOrderedField α] [FloorRing α] (x : α) : α :=
  if x ≤ -180 then foldUp (x + 360) else x
termination_by (-⌊x⌋ - 179).toNat
decreasing_by
  rename_i h
  have h1 : ⌊x⌋ ≤ (-180 : ℤ) := by
    have h0 : ⌊x⌋ ≤ ⌊(((-180 : ℤ) : α))⌋ := Int.floor_le_floor (by exact_mod_cast h)
    rwa [Int.floor_intCast] at h0
  have h2 : ⌊x + 360⌋ = ⌊x⌋ + 360 := by
    have h3 : x + 360 = x + ((360 : ℤ) : α) := by norm_num
    rw [h3, Int.floor_add_int]
  rw [h2]; omega

/-- Truncation toward zero, as used by the JavaScript % operator. -/
def jsTrunc (x : α) : ℤ :=
  if 0 ≤ x then ⌊x⌋ else -⌊-x⌋

/-- The JavaScript remainder operator a % b (sign of the dividend):
a - b * trunc(a / b). -/
def jsRem (a b : α) : α :=
  a - b * (jsTrunc (a / b) : α)

/-- Model of normalizeAngle(angle, prevAngle) (src/script.js lines 947-976).
The machineSettings global read inside the function becomes the cfg
parameter. -/
def normalizeAngle (cfg : MachineConfig) (angle : α) (prevAngle : Option α) : α :=
  let n0 := angle + (cfg.angleOffset : α)
  let normalized :=
    match cfg.angleMode with
    | AngleMode.neg180to180 => foldUp (foldDown n0)
    | AngleMode.zeroTo360 => jsRem (jsRem n0 360 + 360) 360
  match prevAngle with
  | none => normalized
  | some prev =>
    if cfg.shortestPath then
      let diff := normalized - prev
      if 180 < diff then normalized - 360
      else if diff < -180 then normalized + 360
      else normalized
    else normalized

/-- Model of getAngleDifference(angle1, angle2) (src/script.js lines 978-984).
Its two while loops are the same loops as in normalizeAngle, so the shared
fold helpers are reused. -/
def getAngleDifference (angle1 angle2 : α) : α :=
  |foldUp (foldDown (angle2 - angle1))|

/-- Range required of a normalized angle by the configured mode. -/
def inAngleRange (m : AngleMode) (r : ℚ) : Prop :=
  match m with
  | AngleMode.neg180to180 => -180 < r ∧ r ≤ 180
  | AngleMode.zeroTo360 => 0 ≤ r ∧ r < 360

/-- Configuration used for the C5 counterexample: 0-to-360 mode with a
90-degree angle offset; all other fields are the source defaults. -/
def cfgOffset90 : MachineConfig :=
  ⟨UnitKind.mm, 1/10, 5, -1, 300, 1000, AngleMode.zeroTo360, 90, true, 0, 0⟩

/-- Configuration with zero angle offset used for the C5 witness. -/
def cfgOffset0 : MachineConfig :=
  ⟨UnitKind.mm, 1/10, 5, -1, 300, 1000, AngleMode.neg180to180, 0, true, 0, 0⟩

/-- A planar point: ControlPoint / PathSample {x, y} of the source. -/
@[ext] structure Pt where
  x : ℚ
  y : ℚ
  deriving DecidableEq, Repr

/-- Model of catmullRomSpline(p0, p1, p2, p3, t) (src/script.js
lines 195-215). -/
def catmullRomSpline (p0 p1 p2 p3 : Pt) (t : ℚ) : Pt :=
  let t2 := t * t
  let t3 := t2 * t
  { x := 0.5 * (2 * p1.x + (-p0.x + p2.x) * t +
      (2 * p0.x - 5 * p1.x + 4 * p2.x - p3.x) * t2 +
      (-p0.x + 3 * p1.x - 3 * p2.x + p3.x) * t3),
    y := 0.5 * (2 * p1.y + (-p0.y + p2.y) * t +
      (2 * p0.y - 5 * p1.y + 4 * p2.y - p3.y) * t2 +
      (-p0.y + 3 * p1.y - 3 * p2.y + p3.y) * t3) }

/-- The sampling for-loop of samplePolylinePoints:
for (let t = tStart; t <= 1 + 1e-9; t += step) poly.push(f(t)).
In exact rational arithmetic the accumulated loop variable takes the values
tStart + k * step.  A non-positive step yields no iterations, matching the
JavaScript behavior at curveResolution = 0 (step Infinity, zero
iterations). -/
def sampleSweep (f : ℚ → Pt) (step t : ℚ) : List Pt :=
  if h1 : step ≤ 0 then []
  else if h2 : t ≤ 1 + 1e-9 then f t :: sampleSweep f step (t + step)
  else []
termination_by (⌈(1 + 1e-9 - t) / step⌉ + 1).toNat
decreasing_by
  have hstep : 0 < step := lt_of_not_le h1
  have hne : step ≠ 0 := hstep.ne'
  have hdiv : (1 + 1e-9 - (t + step)) / step = (1 + 1e-9 - t) / step - 1 := by
    field_simp
    ring
  have hnn : (0 : ℤ) ≤ ⌈(1 + 1e-9 - t) / step⌉ :=
    Int.ceil_nonneg (div_nonneg (by linarith) hstep.le)
  rw [hdiv, Int.ceil_sub_one]
  omega

/-- Number of iterations performed by sampleSweep starting at t. -/
def nSteps (step t : ℚ) : ℕ :=
  (⌊(1 + 1e-9 - t) / step⌋ + 1).toNat

/-- Body of the Catmull-Rom segment loop of samplePolylinePoints
(src/script.js lines 492-504) for segment index i over control points l.
The source index Math.max(0, i - 1) is the truncated natural subtraction
i - 1. -/
def catmullChunk (l : List Pt) (r : ℕ) (i : ℕ) : List Pt :=
  let q0 := l.getD (i - 1) ⟨0, 0⟩
  let q1 := l.getD i ⟨0, 0⟩
  let q2 := l.getD (i + 1) ⟨0, 0⟩
  let q3 := l.getD (min (l.length - 1) (i + 2)) ⟨0, 0⟩
  sampleSweep (fun t => catmullRomSpline q0 q1 q2 q3 (min t 1))
    (1 / (r : ℚ)) (1 / (r : ℚ))

/-- Model of samplePolylinePoints (src/script.js lines 468-506).  The
globals points and curveResolution become the parameters pts and r; tStart
is 1 / r for every segment (the ternary at line 499 has identical
branches). -/
def samplePolylinePoints (pts : List Pt) (r : ℕ) : List Pt :=
  match pts with
  | [] => []
  | [p] => [⟨p.x, p.y⟩]
  | [p1, p2] =>
    ⟨p1.x, p1.y⟩ ::
      sampleSweep (fun t => ⟨p1.x + (p2.x - p1.x) * t, p1.y + (p2.y - p1.y) * t⟩)
        (1 / (r : ℚ)) (1 / (r : ℚ))
  | l@(p1 :: _ :: _ :: _) =>
    ⟨p1.x, p1.y⟩ ::
      (List.range (l.length - 1)).flatMap (catmullChunk l r)

/-- Character for a decimal digit d < 10. -/
def digitChar (d : ℕ) : Char := Char.ofNat (48 + d)

/-- Decimal digit characters of n, most significant first; fuel-based
structural recursion (fuel n + 1 always suffices). -/
def natDigitsAux : ℕ → ℕ → List Char → List Char
  | 0, _, acc => acc
  | fuel + 1, n, acc =>
    if n < 10 then digitChar n :: acc
    else natDigitsAux fuel (n / 10) (digitChar (n % 10) :: acc)

def natDigits (n : ℕ) : List Char := natDigitsAux (n + 1) n []

/-- Exactly three digit characters for f, zero-padded (used with f < 1000). -/
def pad3 (f : ℕ) : List Char :=
  [digitChar (f / 100 % 10), digitChar (f / 10 % 10), digitChar (f % 10)]

/-- The integer n for which n / 1000 is nearest to q, larger n on ties, as
the ECMAScript toFixed(3) specification rounds. -/
def round3 {α : Type} [LinearOrderedField α] [FloorRing α] (q : α) : ℤ :=
  ⌊1000 * q + 1 / 2⌋

/-- Model of formatNum (src/script.js lines 464-466):
Number.parseFloat(n).toFixed(3) — parseFloat of a number is the identity,
and toFixed(3) prints the sign of the input, the integer digits of the
rounded thousandths, a dot, and exactly three fractional digits. -/
def formatNum {α : Type} [LinearOrderedField α] [FloorRing α] (q : α) :
    List Char :=
  (if q < 0 then ['-'] else []) ++
    natDigits ((round3 q).natAbs / 1000) ++ '.' :: pad3 ((round3 q).natAbs % 1000)

/-- The regex replacement /;.*$/ with the empty string: keep everything
before the first semicolon. -/
def stripSemi (l : List Char) : List Char :=
  l.takeWhile (fun c => c ≠ ';')

/-- Drop characters through the first closing parenthesis, if any. -/
def afterClose (l : List Char) : Option (List Char) :=
  match l.dropWhile (fun c => c ≠ ')') with
  | [] => none
  | _ :: rest => some rest

/-- Global replacement of the non-greedy paren blocks /\(.*?\)/g with the
empty string; fuel-based structural recursion (fuel = list length always
suffices since every step consumes at least one character). -/
def removeParensAux : ℕ → List Char → List Char
  | 0, l => l
  | _ + 1, [] => []
  | fuel + 1, c :: rest =>
    if c = '(' then
      match afterClose rest with
      | some rest2 => removeParensAux fuel rest2
      | none => c :: removeParensAux fuel rest
    else c :: removeParensAux fuel rest

def removeParens (l : List Char) : List Char := removeParensAux l.length l

/-- JavaScript String.prototype.trim. -/
def jsTrim (l : List Char) : List Char :=
  ((l.dropWhile Char.isWhitespace).reverse.dropWhile Char.isWhitespace).reverse

def isXChar (c : Char) : Bool := c == 'x' || c == 'X'

def isYChar (c : Char) : Bool := c == 'y' || c == 'Y'

def isZChar (c : Char) : Bool := c == 'z' || c == 'Z'

def isCChar (c : Char) : Bool := c == 'c' || c == 'C'

def isFChar (c : Char) : Bool := c == 'f' || c == 'F'

def isGChar (c : Char) : Bool := c == 'g' || c == 'G'

/-- Test of /[gG][0-9]+/, the parseGCode motion-line filter (line 1275). -/
def testGNum : List Char → Bool
  | c1 :: c2 :: rest => (isGChar c1 && c2.isDigit) || testGNum (c2 :: rest)
  | _ => false

/-- Test of /[gG]0\s/ or /[gG]1\s/ (buildPreviewFromGCode line 532), which
is also the oriented-generator motion filter /[gG][01]\s/ (line 1028). -/
def testG01Space : List Char → Bool
  | c1 :: c2 :: c3 :: rest =>
    (isGChar c1 && (c2 == '0' || c2 == '1') && c3.isWhitespace) ||
      testG01Space (c2 :: c3 :: rest)
  | _ => false

/-- First captured digit of /[gG]([01])\s/ (line 1038). -/
def matchG01 : List Char → Option Char
  | c1 :: c2 :: c3 :: rest =>
    if isGChar c1 && (c2 == '0' || c2 == '1') && c3.isWhitespace then some c2
    else matchG01 (c2 :: c3 :: rest)
  | _ => none

/-- Greedy match with backtracking of the regex fragment \d*\.?\d+ at the
start of l: digits, then an optional dot followed by at least one digit;
a dot not followed by a digit is given back, and the leading digit run, if
non-empty, then satisfies the final \d+ by itself. -/
def matchUnsigned (l : List Char) : Option (List Char) :=
  let d1 := l.takeWhile Char.isDigit
  let r1 := l.drop d1.length
  match r1 with
  | '.' :: r2 =>
    let d2 := r2.takeWhile Char.isDigit
    if d2 ≠ [] then some (d1 ++ '.' :: d2)
    else if d1 ≠ [] then some d1
    else none
  | _ => if d1 ≠ [] then some d1 else none

/-- Match of the capture group (-?\d*\.?\d+) at the start of l. -/
def matchNum (l : List Char) : Option (List Char) :=
  match l with
  | '-' :: rest => (matchUnsigned rest).map (fun s => '-' :: s)
  | _ => matchUnsigned l

/-- First match of a field letter followed by a number, scanning left to
right as the regex engine does: a letter whose suffix fails the number
match is skipped and scanning resumes at the next character. -/
def findFieldNum (isLetter : Char → Bool) : List Char → Option (List Char)
  | [] => none
  | c :: rest =>
    if isLetter c then
      match matchNum rest with
      | some s => some s
      | none => findFieldNum isLetter rest
    else findFieldNum isLetter rest

def digitVal (c : Char) : ℕ := c.toNat - 48

def natOfDigits (l : List Char) : ℕ :=
  l.foldl (fun acc c => 10 * acc + digitVal c) 0

def parseUnsignedDec (l : List Char) : ℚ :=
  let d1 := l.takeWhile Char.isDigit
  let r1 := l.drop d1.length
  match r1 with
  | '.' :: r2 =>
    let d2 := r2.takeWhile Char.isDigit
    (natOfDigits d1 : ℚ) + (natOfDigits d2 : ℚ) / 10 ^ d2.length
  | _ => (natOfDigits d1 : ℚ)

/-- Exact rational value of a captured decimal literal, as parseFloat
computes it (the capture group is always a well-formed decimal, and the
rational model makes the value exact). -/
def parseDecimal (l : List Char) : ℚ :=
  match l with
  | '-' :: rest => -(parseUnsignedDec rest)
  | _ => parseUnsignedDec l

/-- Strip one trailing carriage return, as the split on /\r?\n/ does. -/
def stripCR (l : List Char) : List Char :=
  match l.getLast? with
  | some '\r' => l.dropLast
  | _ => l

def splitNLAux (acc : List Char) : List Char → List (List Char)
  | [] => [stripCR acc.reverse]
  | c :: rest =>
    if c = '\n' then stripCR acc.reverse :: splitNLAux [] rest
    else splitNLAux (c :: acc) rest

/-- Split on the regex /\r?\n/. -/
def splitNL (l : List Char) : List (List Char) := splitNLAux [] l

/-- Join with newlines, lines.join of the generators. -/
def joinNL (ls : List (List Char)) : List Char := List.intercalate ['\n'] ls

/-- Model of Number(machineSettings.scaleFactor) || 1 (src line 1283): a
none value stands for a NaN / non-numeric scaleFactor setting; NaN and 0
are both falsy, so they fall back to the divisor 1. -/
def scaleDivisor (v : Option ℚ) : ℚ :=
  match v with
  | none => 1
  | some s => if s = 0 then 1 else s

/-- The comment-stripped, trimmed form of a raw line, as computed at
src/script.js lines 528 and 1272. -/
def processedLine (raw : List Char) : List Char :=
  jsTrim (removeParens (stripSemi raw))

/-- Loop of parseGCode (src/script.js lines 1271-1286), with the modal
lastX / lastY state passed explicitly. -/
def parseGCodeAux (sf : ℚ) :
    List (List Char) → Option ℚ → Option ℚ → List Pt
  | [], _, _ => []
  | raw :: rest, lastX, lastY =>
    let line := processedLine raw
    if line = [] then parseGCodeAux sf rest lastX lastY
    else if testGNum line || line.any isXChar || line.any isYChar then
      let lastX2 := match findFieldNum isXChar line with
        | some s => some (parseDecimal s)
        | none => lastX
      let lastY2 := match findFieldNum isYChar line with
        | some s => some (parseDecimal s)
        | none => lastY
      match lastX2, lastY2 with
      | some x, some y => ⟨x / sf, -y / sf⟩ :: parseGCodeAux sf rest (some x) (some y)
      | some x, none => parseGCodeAux sf rest (some x) none
      | none, ly2 => parseGCodeAux sf rest none ly2
    else parseGCodeAux sf rest lastX lastY

/-- Model of parseGCode, first copy (src/script.js lines 1264-1288).  The
raw scaleFactor setting is an Option ℚ so that the Number(...) || 1 guard
can be modelled: none is a NaN / non-numeric setting.  (The second, later
copy at lines 2481-2501 differs: it pushes the raw coordinates with no
scaling and no Y flip.) -/
def parseGCode (sfRaw : Option ℚ) (text : List Char) : List Pt :=
  parseGCodeAux (scaleDivisor sfRaw) (splitNL text) none none

/-- Unit code G20 / G21 chosen at src line 886. -/
def unitCode (u : UnitKind) : List Char :=
  match u with
  | UnitKind.inch => "G20".data
  | UnitKind.mm => "G21".data

def unitName (u : UnitKind) : List Char :=
  match u with
  | UnitKind.inch => "inch".data
  | UnitKind.mm => "mm".data

/-- Decimal-style rendering of the raw scaleFactor for the Scale header
comment (template literal at src line 891).  Every parser strips that
comment whole, so only the absence of a newline in it matters. -/
def ratRepr (q : ℚ) : List Char :=
  (if q.num < 0 then ['-'] else []) ++ natDigits q.num.natAbs ++
    (if q.den = 1 then [] else '/' :: natDigits q.den)

/-- The lines array built by generateGCodeString (src/script.js
lines 881-920) for an already-sampled polyline; ts stands for the ISO
timestamp interpolated into the Generated header. -/
def genLines (cfg : MachineConfig) (ts : List Char) (poly : List Pt) :
    List (List Char) :=
  ["; TangentCNC G-code".data,
   "; Generated: ".data ++ ts,
   "; Units: ".data ++ unitName cfg.unit,
   "; Scale: ".data ++ ratRepr cfg.scaleFactor ++
     " (canvas pixels to ".data ++ unitName cfg.unit ++ ")".data,
   "G90    ; Absolute positioning".data,
   unitCode cfg.unit ++ "   ; Unit: ".data ++ unitName cfg.unit,
   "G17    ; XY plane".data,
   'F' :: (formatNum cfg.rapidRate ++ " ; Rapid feed rate".data)] ++
  (match poly with
   | [] => []
   | p0 :: tl =>
     ("G0 Z".data ++ formatNum cfg.safeHeight ++ " ; Safe height".data) ::
     ("G0 X".data ++ formatNum (p0.x * cfg.scaleFactor) ++ " Y".data ++
       formatNum (-p0.y * cfg.scaleFactor)) ::
     ("G1 Z".data ++ formatNum cfg.cutDepth ++ " F".data ++
       formatNum cfg.feedRate ++ " ; Plunge to cut depth".data) ::
     (tl.map (fun p =>
       "G1 X".data ++ formatNum (p.x * cfg.scaleFactor) ++ " Y".data ++
         formatNum (-p.y * cfg.scaleFactor) ++ " F".data ++
         formatNum cfg.feedRate)) ++
     ["G0 Z".data ++ formatNum cfg.safeHeight ++ " ; Retract".data]) ++
  ["M2     ; Program end".data]

/-- Model of generateGCodeString (src/script.js lines 881-920): sample the
global control points at the global curveResolution, build the lines array
and join it with newlines. -/
def generateGCodeString (cfg : MachineConfig) (ts : List Char)
    (pts : List Pt) (r : ℕ) : List Char :=
  joinNL (genLines cfg ts (samplePolylinePoints pts r))

/-- One parsed move of buildPreviewFromGCode: canvas coordinates and the
modal C value seen at that line. -/
structure Move where
  x : ℚ
  y : ℚ
  c : Option ℚ
  deriving DecidableEq, Repr

/-- First loop of buildPreviewFromGCode (src/script.js lines 527-550):
collect the moves with modal lastX / lastY / lastC state.  The division by
machineSettings.scaleFactor here has no Number(...) || 1 guard. -/
def collectPreviewMoves (sf : ℚ) :
    List (List Char) → Option ℚ → Option ℚ → Option ℚ → List Move
  | [], _, _, _ => []
  | raw :: rest, lastX, lastY, lastC =>
    let line := processedLine raw
    if line = [] then collectPreviewMoves sf rest lastX lastY lastC
    else if testG01Space line || line.any isXChar || line.any isYChar then
      let lastX2 := match findFieldNum isXChar line with
        | some s => some (parseDecimal s)
        | none => lastX
      let lastY2 := match findFieldNum isYChar line with
        | some s => some (parseDecimal s)
        | none => lastY
      let lastC2 := match findFieldNum isCChar line with
        | some s => some (parseDecimal s)
        | none => lastC
      match lastX2, lastY2 with
      | some x, some y =>
        ⟨x / sf, -y / sf, lastC2⟩ ::
          collectPreviewMoves sf rest (some x) (some y) lastC2
      | some x, none => collectPreviewMoves sf rest (some x) none lastC2
      | none, ly2 => collectPreviewMoves sf rest none ly2 lastC2
    else collectPreviewMoves sf rest lastX lastY lastC

/-- Model of Math.hypot on two arguments. -/
noncomputable def jsHypot (dx dy : ℚ) : ℝ :=
  Real.sqrt ((dx : ℝ) ^ 2 + (dy : ℝ) ^ 2)

/-- A playback segment (the seg object pushed at src lines 569-580). -/
structure Segment where
  x1 : ℚ
  y1 : ℚ
  x2 : ℚ
  y2 : ℚ
  len : ℝ
  cumStart : ℝ
  cumEnd : ℝ
  angle : Option ℚ
  angleDiff : ℚ

/-- Second loop of buildPreviewFromGCode (src lines 557-582): build the
segment list and the final cumulative length, dropping segments of length
at most 1e-6. -/
noncomputable def buildSegs : Move → List Move → ℝ → List Segment × ℝ
  | _, [], cum => ([], cum)
  | a, b :: tl, cum =>
    let dx := b.x - a.x
    let dy := b.y - a.y
    let len := jsHypot dx dy
    if len ≤ 1e-6 then buildSegs b tl cum
    else
      let angleDiff := match a.c, b.c with
        | some ca, some cb => getAngleDifference ca cb
        | _, _ => 0
      let seg : Segment := ⟨a.x, a.y, b.x, b.y, len, cum, cum + len, b.c, angleDiff⟩
      let res := buildSegs b tl (cum + len)
      (seg :: res.1, res.2)

/-- The preview path state written by buildPreviewFromGCode. -/
structure Preview where
  segments : List Segment
  totalLength : ℝ

/-- Model of buildPreviewFromGCode (src/script.js lines 522-588). -/
noncomputable def buildPreviewFromGCode (cfg : MachineConfig)
    (text : List Char) : Preview :=
  let moves := collectPreviewMoves cfg.scaleFactor (splitNL text) none none none
  match moves with
  | [] => ⟨[], 0⟩
  | m :: tl =>
    let res := buildSegs m tl 0
    ⟨res.1, res.2⟩

/-- The result record of distToPoint. -/
structure DistPt where
  x : ℝ
  y : ℝ
  nx : ℝ
  ny : ℝ
  angle : Option ℚ
  angleDiff : ℚ

/-- Math.hypot(tx, ty) || 1 as used at src lines 604 and 619. -/
noncomputable def jsOr1 (r : ℝ) : ℝ := if r = 0 then 1 else r

/-- The in-loop result of distToPoint for a containing segment (src
lines 599-612).  The stored angleDiff is a number, never null, so the
defensive seg.angleDiff || 0 is the identity on it. -/
noncomputable def segPointAt (seg : Segment) (d : ℝ) : DistPt :=
  let t := if 0 < seg.len then (d - seg.cumStart) / seg.len else 0
  let x := (seg.x1 : ℝ) + ((seg.x2 : ℝ) - (seg.x1 : ℝ)) * t
  let y := (seg.y1 : ℝ) + ((seg.y2 : ℝ) - (seg.y1 : ℝ)) * t
  let tl := jsOr1 (jsHypot (seg.x2 - seg.x1) (seg.y2 - seg.y1))
  ⟨x, y, ((seg.x2 : ℝ) - (seg.x1 : ℝ)) / tl, ((seg.y2 : ℝ) - (seg.y1 : ℝ)) / tl,
    seg.angle, seg.angleDiff⟩

/-- The end-of-path result of distToPoint (src lines 616-627). -/
noncomputable def segEndPoint (seg : Segment) : DistPt :=
  let tl := jsOr1 (jsHypot (seg.x2 - seg.x1) (seg.y2 - seg.y1))
  ⟨(seg.x2 : ℝ), (seg.y2 : ℝ),
    ((seg.x2 : ℝ) - (seg.x1 : ℝ)) / tl, ((seg.y2 : ℝ) - (seg.y1 : ℝ)) / tl,
    seg.angle, seg.angleDiff⟩

/-- The scan loop of distToPoint: the first segment whose cumulative end
reaches d. -/
noncomputable def distToPointLoop (d : ℝ) : List Segment → Option DistPt
  | [] => none
  | seg :: tl =>
    if d ≤ seg.cumEnd then some (segPointAt seg d)
    else distToPointLoop d tl

/-- Model of distToPoint (src/script.js lines 595-628); the mutable
preview.segments global becomes the segs parameter. -/
noncomputable def distToPoint (segs : List Segment) (d : ℝ) : Option DistPt :=
  match segs with
  | [] => none
  | s :: tl =>
    match distToPointLoop d (s :: tl) with
    | some r => some r
    | none => some (segEndPoint ((s :: tl).getLast (List.cons_ne_nil s tl)))

/-- Configuration with scaleFactor 1 for the C9 witness. -/
def cfgScale1 : MachineConfig :=
  ⟨UnitKind.mm, 1, 5, -1, 300, 1000, AngleMode.neg180to180, 0, true, 0, 0⟩

/-- Two-move program for the C9 witness. -/
def twoMoveText : List Char := "G0 X0 Y0\nG1 X3 Y-4".data

/-- The single segment built from the two-move program: canvas points
(0,0) to (3,4), length the hypotenuse 5. -/
noncomputable def segW : Segment :=
  ⟨0, 0, 3, 4, jsHypot 3 4, 0, 0 + jsHypot 3 4, none, 0⟩

/-- Characters that can appear in a formatNum rendering. -/
def numChar (c : Char) : Prop := c.isDigit = true ∨ c = '-' ∨ c = '.'

/-- Parsed-back image of a sampled point under the positional generator
followed by the first-copy parser: each canvas coordinate is scaled,
rounded to thousandths by toFixed(3), parsed back and unscaled, with the
Y sign flipped on the way out and flipped back on the way in. -/
def rtPt (cfg : MachineConfig) (p : Pt) : Pt :=
  ⟨((round3 (p.x * cfg.scaleFactor) : ℤ) : ℚ) / 1000 / cfg.scaleFactor,
   -(((round3 (-p.y * cfg.scaleFactor) : ℤ) : ℚ) / 1000) / cfg.scaleFactor⟩

/-- Modal X value stored by the parser after reading the G-code line of
point p. -/
def pdX (cfg : MachineConfig) (p : Pt) : ℚ :=
  parseDecimal (formatNum (p.x * cfg.scaleFactor))

/-- Modal Y value stored by the parser after reading the G-code line of
point p. -/
def pdY (cfg : MachineConfig) (p : Pt) : ℚ :=
  parseDecimal (formatNum (-p.y * cfg.scaleFactor))

/-- The cutting-move line emitted for a non-initial sampled point
(src/script.js lines 906-909). -/
def g1Line (cfg : MachineConfig) (p : Pt) : List Char :=
  "G1 X".data ++ formatNum (p.x * cfg.scaleFactor) ++ " Y".data ++
    formatNum (-p.y * cfg.scaleFactor) ++ " F".data ++ formatNum cfg.feedRate

/-- The default machine configuration of the app (scaleFactor 1/10,
machineSettings at src/script.js lines 14-26). -/
def cfgTenth : MachineConfig :=
  ⟨UnitKind.mm, 1/10, 5, -1, 300, 1000, AngleMode.neg180to180, 0, true, 0, 0⟩

/-- Model of Math.atan2(y, x) by the standard case analysis over arctan. -/
noncomputable def jsAtan2 (y x : ℝ) : ℝ :=
  if 0 < x then Real.arctan (y / x)
  else if x < 0 ∧ 0 ≤ y then Real.arctan (y / x) + Real.pi
  else if x < 0 ∧ y < 0 then Real.arctan (y / x) - Real.pi
  else if x = 0 ∧ 0 < y then Real.pi / 2
  else if x = 0 ∧ y < 0 then -(Real.pi / 2)
  else 0

/-- Model of angleDeg (src/script.js lines 940-945): flip the canvas dy,
take atan2 in degrees, and fold into [0, 360) with the JavaScript %
operator. -/
noncomputable def angleDeg (dx dyCanvas : ℚ) : ℝ :=
  jsRem (jsRem (jsAtan2 (-(dyCanvas : ℝ)) (dx : ℝ) * 180 / Real.pi) 360 + 360)
    360

/-- First pass of generateOrientedGCodeFromBase (src/script.js lines
994-1007): collect an (x, y) pair from every nonempty comment-stripped
line once both modal coordinates are set.  There is no motion filter in
this pass. -/
def collectBaseMoves : List (List Char) → Option ℚ → Option ℚ →
    List (ℚ × ℚ)
  | [], _, _ => []
  | raw :: rest, lastX, lastY =>
    let line := jsTrim (stripSemi raw)
    if line = [] then collectBaseMoves rest lastX lastY
    else
      let lastX2 := match findFieldNum isXChar line with
        | some s => some (parseDecimal s)
        | none => lastX
      let lastY2 := match findFieldNum isYChar line with
        | some s => some (parseDecimal s)
        | none => lastY
      match lastX2, lastY2 with
      | some x, some y => (x, y) :: collectBaseMoves rest (some x) (some y)
      | lx2, ly2 => collectBaseMoves rest lx2 ly2

/-- The tangent angle computed by the second pass of
generateOrientedGCodeFromBase at move index i (src/script.js lines
1045-1067): direction from the previous collected move to the current one
(for i = 0, from the first to the second), 0 for degenerate steps. -/
noncomputable def baseAngle (moves : List (ℚ × ℚ)) (i : ℕ) : ℝ :=
  if 0 < i then
    if 1e-6 < jsHypot ((moves.getD i (0, 0)).1 - (moves.getD (i - 1) (0, 0)).1)
        ((moves.getD i (0, 0)).2 - (moves.getD (i - 1) (0, 0)).2) then
      angleDeg ((moves.getD i (0, 0)).1 - (moves.getD (i - 1) (0, 0)).1)
        ((moves.getD i (0, 0)).2 - (moves.getD (i - 1) (0, 0)).2)
    else 0
  else if 1 < moves.length then
    if 1e-6 < jsHypot ((moves.getD 1 (0, 0)).1 - (moves.getD 0 (0, 0)).1)
        ((moves.getD 1 (0, 0)).2 - (moves.getD 0 (0, 0)).2) then
      angleDeg ((moves.getD 1 (0, 0)).1 - (moves.getD 0 (0, 0)).1)
        ((moves.getD 1 (0, 0)).2 - (moves.getD 0 (0, 0)).2)
    else 0
  else 0

/-- Second pass of generateOrientedGCodeFromBase (src/script.js lines
1016-1092), projected to the sequence of C values written into the
output: a C value is emitted exactly on the motion lines for which both
modal coordinates are set and moves remain. -/
noncomputable def fromBaseCAux (cfg : MachineConfig)
    (moves : List (ℚ × ℚ)) :
    List (List Char) → Option ℚ → Option ℚ → ℕ → Option ℝ → List ℝ
  | [], _, _, _, _ => []
  | raw :: rest, lastX, lastY, moveIndex, prevAngle =>
    let line := jsTrim (stripSemi raw)
    if line = [] then
      fromBaseCAux cfg moves rest lastX lastY moveIndex prevAngle
    else if (testG01Space line || line.any isXChar || line.any isYChar)
        = false then
      fromBaseCAux cfg moves rest lastX lastY moveIndex prevAngle
    else
      let lastX2 := match findFieldNum isXChar line with
        | some s => some (parseDecimal s)
        | none => lastX
      let lastY2 := match findFieldNum isYChar line with
        | some s => some (parseDecimal s)
        | none => lastY
      match lastX2, lastY2 with
      | some x, some y =>
        if moveIndex < moves.length then
          normalizeAngle cfg (baseAngle moves moveIndex) prevAngle ::
            fromBaseCAux cfg moves rest (some x) (some y) (moveIndex + 1)
              (some (normalizeAngle cfg (baseAngle moves moveIndex)
                prevAngle))
        else fromBaseCAux cfg moves rest (some x) (some y) moveIndex
          prevAngle
      | lx2, ly2 => fromBaseCAux cfg moves rest lx2 ly2 moveIndex prevAngle

/-- The C values of generateOrientedGCodeFromBase applied to a base
program text. -/
noncomputable def fromBaseCValues (cfg : MachineConfig)
    (text : List Char) : List ℝ :=
  fromBaseCAux cfg (collectBaseMoves (splitNL text) none none)
    (splitNL text) none none 0 none

/-- Loop of generateOrientedGCodeFromPoints (src/script.js lines
1156-1167) projected to the emitted C values. -/
noncomputable def fromPointsCLoop (cfg : MachineConfig) :
    List Pt → ℝ → List ℝ
  | pprev :: p :: rest, prevAngle =>
    normalizeAngle cfg (angleDeg (p.x - pprev.x) (p.y - pprev.y))
        (some prevAngle) ::
      fromPointsCLoop cfg (p :: rest)
        (normalizeAngle cfg (angleDeg (p.x - pprev.x) (p.y - pprev.y))
          (some prevAngle))
  | _, _ => []

/-- The C values of generateOrientedGCodeFromPoints (src/script.js lines
1117-1175): the initial heading on the positioning line, then one heading
per cutting move. -/
noncomputable def fromPointsCValues (cfg : MachineConfig) (pts : List Pt)
    (r : ℕ) : List ℝ :=
  match samplePolylinePoints pts r with
  | [] => []
  | p0 :: tl =>
    normalizeAngle cfg
        (match tl with
         | [] => (0 : ℝ)
         | p1 :: _ => angleDeg (p1.x - p0.x) (p1.y - p0.y)) none ::
      fromPointsCLoop cfg (p0 :: tl)
        (normalizeAngle cfg
          (match tl with
           | [] => (0 : ℝ)
           | p1 :: _ => angleDeg (p1.x - p0.x) (p1.y - p0.y)) none)

theorem foldDown_le (x : α) : foldDown x ≤ 180 := by
  induction x using foldDown.induct with
  | case1 x h ih => rw [foldDown.eq_def, if_pos h]; exact ih
  | case2 x h => rw [foldDown.eq_def, if_neg h]; exact le_of_not_lt h

theorem foldDown_gt (x : α) (hx : -180 < x) : -180 < foldDown x := by
  induction x using foldDown.induct with
  | case1 x h ih => rw [foldDown.eq_def, if_pos h]; exact ih (by linarith)
  | case2 x h => rw [foldDown.eq_def, if_neg h]; exact hx

theorem foldDown_eq_self (x : α) (hx : x ≤ 180) : foldDown x = x := by
  rw [foldDown.eq_def, if_neg (not_lt.mpr hx)]

theorem foldUp_gt (x : α) : -180 < foldUp x := by
  induction x using foldUp.induct with
  | case1 x h ih => rw [foldUp.eq_def, if_pos h]; exact ih
  | case2 x h => rw [foldUp.eq_def, if_neg h]; linarith [lt_of_not_le h]

theorem foldUp_le (x : α) (hx : x ≤ 180) : foldUp x ≤ 180 := by
  induction x using foldUp.induct with
  | case1 x h ih => rw [foldUp.eq_def, if_pos h]; exact ih (by linarith)
  | case2 x h => rw [foldUp.eq_def, if_neg h]; exact hx

theorem foldUp_eq_self (x : α) (hx : -180 < x) : foldUp x = x := by
  rw [foldUp.eq_def, if_neg (not_le.mpr hx)]

/-- Range of the two-fold combination used in the minus-180-to-180 mode. -/
theorem foldUp_foldDown_mem (x : α) :
    -180 < foldUp (foldDown x) ∧ foldUp (foldDown x) ≤ 180 :=
  ⟨foldUp_gt _, foldUp_le _ (foldDown_le x)⟩

theorem jsRem_nonneg_lt (a b : α) (ha : 0 ≤ a) (hb : 0 < b) :
    0 ≤ jsRem a b ∧ jsRem a b < b := by
  have hdiv : 0 ≤ a / b := div_nonneg ha hb.le
  rw [jsRem, jsTrunc, if_pos hdiv]
  constructor
  · have h1 : ((⌊a / b⌋ : α)) ≤ a / b := Int.floor_le _
    have h2 : b * ((⌊a / b⌋ : α)) ≤ b * (a / b) := by
      exact mul_le_mul_of_nonneg_left h1 hb.le
    rw [mul_div_cancel₀ _ hb.ne'] at h2
    linarith
  · have h1 : a / b < (⌊a / b⌋ : α) + 1 := Int.lt_floor_add_one _
    have h2 : b * (a / b) < b * ((⌊a / b⌋ : α) + 1) := by
      exact mul_lt_mul_of_pos_left h1 hb
    rw [mul_div_cancel₀ _ hb.ne'] at h2
    nlinarith

theorem jsRem_neg (a b : α) : jsRem (-a) b = -jsRem a b := by
  rcases eq_or_ne a 0 with rfl | ha
  · simp [jsRem, jsTrunc]
  rw [jsRem, jsRem, jsTrunc, jsTrunc, neg_div]
  rcases le_or_lt 0 (a / b) with h | h
  · rcases eq_or_lt_of_le h with h0 | h0
    · rw [if_pos (by rw [← h0]; simp), if_pos h, ← h0]
      simp [← h0]
    · rw [if_neg (by simpa using h0), if_pos h]
      push_cast
      ring
  · rw [if_pos (by linarith), if_neg (not_le.mpr h)]
    push_cast
    ring

/-- Absolute bound of the JavaScript remainder for a positive modulus. -/
theorem jsRem_abs_lt (a b : α) (hb : 0 < b) : -b < jsRem a b ∧ jsRem a b < b := by
  rcases le_or_lt 0 a with ha | ha
  · have h := jsRem_nonneg_lt a b ha hb
    exact ⟨by linarith [h.1], h.2⟩
  · have h := jsRem_nonneg_lt (-a) b (by linarith) hb
    rw [show a = -(-a) by ring, jsRem_neg]
    constructor <;> nlinarith [h.1, h.2]

/-- Folding an already-in-range value through the 0-to-360 branch is the
identity. -/
theorem jsRem360_fold_eq_self (r : α) (h0 : 0 ≤ r) (h1 : r < 360) :
    jsRem (jsRem r 360 + 360) 360 = r := by
  have hr : jsRem r 360 = r := by
    rw [jsRem, jsTrunc, if_pos (by positivity)]
    have hfloor : ⌊r / 360⌋ = 0 := by
      rw [Int.floor_eq_zero_iff]
      constructor
      · positivity
      · rw [div_lt_one (by norm_num : (0:α) < 360)]; exact h1
    rw [hfloor]
    simp
  rw [hr, jsRem, jsTrunc, if_pos (by positivity)]
  have hfloor : ⌊(r + 360) / 360⌋ = 1 := by
    have h360 : (0:α) < 360 := by norm_num
    rw [Int.floor_eq_iff]
    constructor
    · rw [le_div_iff₀ h360]; push_cast; linarith
    · rw [div_lt_iff₀ h360]; push_cast; linarith
  rw [hfloor]
  push_cast
  ring

theorem normAngle_none_mem (cfg : MachineConfig) (a : ℚ) :
    inAngleRange cfg.angleMode (normalizeAngle cfg a none) := by
  rw [normalizeAngle]
  cases hm : cfg.angleMode with
  | neg180to180 =>
    simpa [inAngleRange] using foldUp_foldDown_mem (a + (cfg.angleOffset : ℚ))
  | zeroTo360 =>
    have h1 := jsRem_abs_lt (a + (cfg.angleOffset : ℚ)) 360 (by norm_num)
    have h2 := jsRem_nonneg_lt (jsRem (a + (cfg.angleOffset : ℚ)) 360 + 360) 360
      (by linarith [h1.1]) (by norm_num)
    simpa [inAngleRange] using h2

/-- C4: with no previous angle, normalizeAngle lands in the half-open
interval (-180, 180] in the minus-180-to-180 mode and in [0, 360) in the
0-to-360 mode, after adding the configured offset to the angle. -/
theorem normalizeAngle_range (cfg : MachineConfig) (a : ℚ) :
    inAngleRange cfg.angleMode (normalizeAngle cfg a none) :=
  normAngle_none_mem cfg a

theorem normAngle_none_fix (cfg : MachineConfig) (hoff : cfg.angleOffset = 0)
    (r : ℚ) (hr : inAngleRange cfg.angleMode r) :
    normalizeAngle cfg r none = r := by
  rw [normalizeAngle, hoff]
  cases hm : cfg.angleMode with
  | neg180to180 =>
    rw [hm] at hr
    obtain ⟨h1, h2⟩ := hr
    simp only [Rat.cast_zero, add_zero]
    rw [foldDown_eq_self r h2, foldUp_eq_self r h1]
  | zeroTo360 =>
    rw [hm] at hr
    simp only [Rat.cast_zero, add_zero]
    exact jsRem360_fold_eq_self r hr.1 hr.2

/-- C5 counterexample: with angleOffset = 90 the offset is added again on the
second application, so normalizeAngle with no previous angle is not
idempotent: at angle 0 the first application yields 90 and the second
yields 180. -/
theorem normalizeAngle_not_idempotent :
    normalizeAngle cfgOffset90 (normalizeAngle cfgOffset90 (0 : ℚ) none) none ≠
      normalizeAngle cfgOffset90 (0 : ℚ) none := by
  have h1 : normalizeAngle cfgOffset90 (0 : ℚ) none = 90 := by
    rw [normalizeAngle]
    norm_num [cfgOffset90, jsRem, jsTrunc]
  have h2 : normalizeAngle cfgOffset90 (90 : ℚ) none = 180 := by
    rw [normalizeAngle]
    norm_num [cfgOffset90, jsRem, jsTrunc]
  rw [h1, h2]
  norm_num

/-- C5 amended: normalizeAngle with no previous angle is idempotent for every
configuration whose angleOffset is 0 (the source re-adds the offset on every
call, so idempotence holds exactly when the offset vanishes). -/
theorem normalizeAngle_idem_offset_zero (cfg : MachineConfig)
    (hoff : cfg.angleOffset = 0) (a : ℚ) :
    normalizeAngle cfg (normalizeAngle cfg a none) none =
      normalizeAngle cfg a none :=
  normAngle_none_fix cfg hoff _ (normAngle_none_mem cfg a)

/-- Witness for the amended C5 at the concrete angle 500. -/
theorem normalizeAngle_idem_offset_zero_witness :
    cfgOffset0.angleOffset = 0 ∧
      normalizeAngle cfgOffset0 (normalizeAngle cfgOffset0 (500 : ℚ) none) none =
        normalizeAngle cfgOffset0 (500 : ℚ) none :=
  ⟨rfl, normalizeAngle_idem_offset_zero cfgOffset0 rfl 500⟩

theorem gAD_mem (x y : ℚ) :
    0 ≤ getAngleDifference x y ∧ getAngleDifference x y ≤ 180 := by
  rw [getAngleDifference]
  have h := foldUp_foldDown_mem (y - x)
  exact ⟨abs_nonneg _, abs_le.mpr ⟨by linarith [h.1], h.2⟩⟩

/-- C6: with shortestPath enabled, the angular difference between the
normalized angle and the previous angle is non-negative and at most 180;
moreover getAngleDifference always returns a value in [0, 180]. -/
theorem getAngleDifference_shortest_path_bound (cfg : MachineConfig)
    (a prev x y : ℚ) :
    (0 ≤ getAngleDifference
        (normalizeAngle {cfg with shortestPath := true} a (some prev)) prev ∧
      getAngleDifference
        (normalizeAngle {cfg with shortestPath := true} a (some prev)) prev ≤ 180) ∧
    (0 ≤ getAngleDifference x y ∧ getAngleDifference x y ≤ 180) :=
  ⟨gAD_mem _ _, gAD_mem _ _⟩

theorem sampleSweep_eq_map (f : ℚ → Pt) (step : ℚ) (hstep : 0 < step) :
    ∀ t, sampleSweep f step t =
      (List.range (nSteps step t)).map (fun (k : ℕ) => f (t + (k : ℚ) * step)) := by
  have main : ∀ n t, nSteps step t = n →
      sampleSweep f step t =
        (List.range n).map (fun (k : ℕ) => f (t + (k : ℚ) * step)) := by
    intro n
    induction n with
    | zero =>
      intro t h0
      have hfl : ⌊(1 + 1e-9 - t) / step⌋ + 1 ≤ 0 := by
        by_contra hc
        rw [nSteps] at h0
        omega
      have hq : (1 + 1e-9 - t) / step < 0 := by
        by_contra hc
        have := Int.floor_nonneg.mpr (le_of_not_lt hc)
        omega
      have ht : ¬ t ≤ 1 + 1e-9 := by
        intro hle
        have : 0 ≤ (1 + 1e-9 - t) / step := div_nonneg (by linarith) hstep.le
        linarith
      rw [sampleSweep, dif_neg (not_le.mpr hstep), dif_neg ht]
      simp
    | succ m ih =>
      intro t h0
      rw [nSteps] at h0
      have hfl : ⌊(1 + 1e-9 - t) / step⌋ = m := by omega
      have hq : (0 : ℚ) ≤ (1 + 1e-9 - t) / step := by
        have h1 : ((0 : ℤ) : ℚ) ≤ (⌊(1 + 1e-9 - t) / step⌋ : ℚ) := by
          exact_mod_cast by omega
        calc (0 : ℚ) ≤ (⌊(1 + 1e-9 - t) / step⌋ : ℚ) := h1
        _ ≤ _ := Int.floor_le _
      have ht : t ≤ 1 + 1e-9 := by
        by_contra hc
        have hneg : (1 + 1e-9 - t) / step < 0 :=
          div_neg_of_neg_of_pos (by linarith [lt_of_not_le hc]) hstep
        linarith
      have hnext : nSteps step (t + step) = m := by
        rw [nSteps]
        have hne : step ≠ 0 := hstep.ne'
        have hdiv : (1 + 1e-9 - (t + step)) / step = (1 + 1e-9 - t) / step - 1 := by
          field_simp
          ring
        rw [hdiv, Int.floor_sub_one, hfl]
        omega
      rw [sampleSweep, dif_neg (not_le.mpr hstep), dif_pos ht, ih _ hnext,
        List.range_succ_eq_map]
      simp only [List.map_cons, List.map_map]
      congr 1
      · norm_num
      · apply List.map_congr_left
        intro k _
        simp only [Function.comp_apply]
        congr 1
        push_cast
        ring
  intro t
  exact main (nSteps step t) t rfl

/-- The Catmull-Rom blend at parameter 1 is exactly the third control
point. -/
theorem catmullRomSpline_one (q0 q1 q2 q3 : Pt) :
    catmullRomSpline q0 q1 q2 q3 1 = q2 := by
  ext
  · simp only [catmullRomSpline]; ring
  · simp only [catmullRomSpline]; ring

/-- Iteration count of the sampling loop for resolutions below one
billion: exactly r steps, ending at parameter value 1. -/
theorem nSteps_unit (r : ℕ) (hr1 : 1 ≤ r) (hr2 : r ≤ 999999999) :
    nSteps (1 / (r : ℚ)) (1 / (r : ℚ)) = r := by
  have hrq : (0 : ℚ) < (r : ℚ) := by exact_mod_cast hr1
  rw [nSteps]
  have hne : (r : ℚ) ≠ 0 := hrq.ne'
  have hdiv : (1 + 1e-9 - 1 / (r : ℚ)) / (1 / (r : ℚ)) =
      (r : ℚ) + (r : ℚ) / 1000000000 - 1 := by
    rw [show (1e-9 : ℚ) = 1 / 1000000000 by norm_num]
    field_simp
    ring
  rw [hdiv]
  have hfloor : ⌊(r : ℚ) + (r : ℚ) / 1000000000 - 1⌋ = (r : ℤ) - 1 := by
    rw [Int.floor_eq_iff]
    have hb1 : (0 : ℚ) ≤ (r : ℚ) / 1000000000 := by positivity
    have hb2 : (r : ℚ) / 1000000000 < 1 := by
      rw [div_lt_one (by norm_num : (0:ℚ) < 1000000000)]
      exact_mod_cast lt_of_le_of_lt hr2 (by norm_num)
    constructor
    · push_cast; linarith
    · push_cast; linarith
  rw [hfloor]
  omega

theorem mapRange_succ_getLast? {β : Type} (g : ℕ → β) (m : ℕ) :
    ((List.range (m + 1)).map g).getLast? = some (g m) := by
  rw [List.range_succ, List.map_append]
  simp

theorem getD_last_eq_getLast? (l : List Pt) (h : l ≠ []) :
    some (l.getD (l.length - 1) ⟨0, 0⟩) = l.getLast? := by
  rw [List.getLast?_eq_getElem?, List.getD_eq_getElem?_getD]
  have hlt : l.length - 1 < l.length := by
    cases l
    · simp at h
    · simp
  rw [List.getElem?_eq_getElem hlt]
  simp

theorem getLast?_cons_of_ne_nil {β : Type} (a : β) (l : List β) (h : l ≠ []) :
    (a :: l).getLast? = l.getLast? := by
  cases l
  · exact absurd rfl h
  · exact List.getLast?_cons_cons

/-- C3 counterexample: at resolution 10^9 the floating-tolerance loop bound
1 + 1e-9 admits one extra iteration past t = 1 in the two-point linear
branch, so the sampled polyline of [(0,0), (1,0)] ends at
x = 1 + 10^-9, not at the last control point. -/
theorem samplePolyline_end_counterexample :
    (samplePolylinePoints [⟨0, 0⟩, ⟨1, 0⟩] 1000000000).getLast? ≠
      some (⟨1, 0⟩ : Pt) := by
  have hstep : (0 : ℚ) < 1 / ((1000000000 : ℕ) : ℚ) := by norm_num
  have hn : nSteps (1 / ((1000000000 : ℕ) : ℚ)) (1 / ((1000000000 : ℕ) : ℚ)) =
      1000000000 + 1 := by
    rw [nSteps]
    norm_num
    rfl
  have hsamp : samplePolylinePoints [⟨0, 0⟩, ⟨1, 0⟩] 1000000000 =
      (⟨0, 0⟩ : Pt) ::
        sampleSweep
          (fun t => ⟨(0:ℚ) + ((1:ℚ) - 0) * t, (0:ℚ) + ((0:ℚ) - 0) * t⟩)
          (1 / ((1000000000 : ℕ) : ℚ)) (1 / ((1000000000 : ℕ) : ℚ)) := rfl
  rw [hsamp, sampleSweep_eq_map _ _ hstep, hn,
    getLast?_cons_of_ne_nil _ _ (by simp), mapRange_succ_getLast?]
  simp only [ne_eq, Option.some.injEq, Pt.mk.injEq, not_and]
  intro hx
  norm_num at hx

/-- C3 amended: the sampled polyline always starts exactly at the first
control point, and for every resolution r with 1 ≤ r ≤ 999999999 it also
ends exactly at the last control point.  (At r ≥ 10^9 the loop bound
1 + 1e-9 admits an extra sample past t = 1 in the two-point linear branch,
so the upper bound on r is necessary.) -/
theorem samplePolylinePoints_endpoints (pts : List Pt) (r : ℕ)
    (hr1 : 1 ≤ r) (hr2 : r ≤ 999999999) :
    (samplePolylinePoints pts r).head? = pts.head? ∧
      (samplePolylinePoints pts r).getLast? = pts.getLast? := by
  have hrq : (0 : ℚ) < (r : ℚ) := by exact_mod_cast hr1
  have hstep : (0 : ℚ) < 1 / (r : ℚ) := by positivity
  have hn := nSteps_unit r hr1 hr2
  have hne : (r : ℚ) ≠ 0 := hrq.ne'
  obtain ⟨m, rfl⟩ : ∃ m, r = m + 1 := ⟨r - 1, by omega⟩
  have harg : 1 / ((m + 1 : ℕ) : ℚ) + (m : ℚ) * (1 / ((m + 1 : ℕ) : ℚ)) = 1 := by
    field_simp
    ring
  match pts with
  | [] => exact ⟨rfl, rfl⟩
  | [p] => exact ⟨rfl, rfl⟩
  | [p1, p2] =>
    refine ⟨rfl, ?_⟩
    have hsamp : samplePolylinePoints [p1, p2] (m + 1) =
        (⟨p1.x, p1.y⟩ : Pt) ::
          sampleSweep
            (fun t => ⟨p1.x + (p2.x - p1.x) * t, p1.y + (p2.y - p1.y) * t⟩)
            (1 / ((m + 1 : ℕ) : ℚ)) (1 / ((m + 1 : ℕ) : ℚ)) := rfl
    rw [hsamp, sampleSweep_eq_map _ _ hstep, hn,
      getLast?_cons_of_ne_nil _ _ (by simp), mapRange_succ_getLast?]
    show some (⟨p1.x + (p2.x - p1.x) *
        (1 / ((m + 1 : ℕ) : ℚ) + (m : ℚ) * (1 / ((m + 1 : ℕ) : ℚ))),
      p1.y + (p2.y - p1.y) *
        (1 / ((m + 1 : ℕ) : ℚ) + (m : ℚ) * (1 / ((m + 1 : ℕ) : ℚ)))⟩ : Pt) =
      some p2
    rw [harg]
    congr 1
    ext
    · show p1.x + (p2.x - p1.x) * 1 = p2.x
      ring
    · show p1.y + (p2.y - p1.y) * 1 = p2.y
      ring
  | p1 :: p2 :: p3 :: rest =>
    refine ⟨rfl, ?_⟩
    have hsamp : samplePolylinePoints (p1 :: p2 :: p3 :: rest) (m + 1) =
        (⟨p1.x, p1.y⟩ : Pt) ::
          (List.range ((p1 :: p2 :: p3 :: rest).length - 1)).flatMap
            (catmullChunk (p1 :: p2 :: p3 :: rest) (m + 1)) := rfl
    have hlen : (p1 :: p2 :: p3 :: rest).length - 1 = (rest.length + 1) + 1 := by
      simp
    have hchunk : catmullChunk (p1 :: p2 :: p3 :: rest) (m + 1)
          (rest.length + 1) ≠ [] := by
      rw [catmullChunk]
      rw [sampleSweep_eq_map _ _ hstep, hn]
      simp
    rw [hsamp, hlen, List.range_succ, List.flatMap_append,
      List.flatMap_cons, List.flatMap_nil, List.append_nil,
      ← List.cons_append,
      List.getLast?_append_of_ne_nil _ hchunk]
    rw [catmullChunk, sampleSweep_eq_map _ _ hstep, hn, mapRange_succ_getLast?]
    show some (catmullRomSpline
        ((p1 :: p2 :: p3 :: rest).getD (rest.length + 1 - 1) ⟨0, 0⟩)
        ((p1 :: p2 :: p3 :: rest).getD (rest.length + 1) ⟨0, 0⟩)
        ((p1 :: p2 :: p3 :: rest).getD (rest.length + 1 + 1) ⟨0, 0⟩)
        ((p1 :: p2 :: p3 :: rest).getD
          (min ((p1 :: p2 :: p3 :: rest).length - 1) (rest.length + 1 + 2)) ⟨0, 0⟩)
        (min (1 / ((m + 1 : ℕ) : ℚ) + (m : ℚ) * (1 / ((m + 1 : ℕ) : ℚ))) 1)) =
      (p1 :: p2 :: p3 :: rest).getLast?
    rw [harg, min_self, catmullRomSpline_one]
    have hidx : rest.length + 1 + 1 = (p1 :: p2 :: p3 :: rest).length - 1 := by
      simp
    rw [hidx]
    exact getD_last_eq_getLast? _ (by simp)

/-- Witness for the amended C3 at three concrete control points and
resolution 2. -/
theorem samplePolylinePoints_endpoints_witness :
    (samplePolylinePoints [⟨0, 0⟩, ⟨2, 2⟩, ⟨4, 0⟩] 2).head? =
        some (⟨0, 0⟩ : Pt) ∧
      (samplePolylinePoints [⟨0, 0⟩, ⟨2, 2⟩, ⟨4, 0⟩] 2).getLast? =
        some (⟨4, 0⟩ : Pt) :=
  samplePolylinePoints_endpoints [⟨0, 0⟩, ⟨2, 2⟩, ⟨4, 0⟩] 2
    (by decide) (by decide)

/-- C10: the first-copy parseGCode computes its divisor as
Number(machineSettings.scaleFactor) || 1, so a NaN / non-numeric setting
(modelled as none) and a zero setting both fall back to the divisor 1: the
divisor is never zero and parsing behaves exactly as with scaleFactor 1,
keeping every emitted coordinate a well-defined (finite) rational. -/
theorem parseGCode_scale_guard (v : Option ℚ) (text : List Char) :
    scaleDivisor v ≠ 0 ∧
      parseGCode none text = parseGCode (some 1) text ∧
      parseGCode (some 0) text = parseGCode (some 1) text := by
  refine ⟨?_, ?_, ?_⟩
  · match v with
    | none => norm_num [scaleDivisor]
    | some s =>
      rw [scaleDivisor]
      split_ifs with h
      · norm_num
      · exact h
  · rw [parseGCode, parseGCode]
    norm_num [scaleDivisor]
  · rw [parseGCode, parseGCode]
    norm_num [scaleDivisor]

theorem parseGCodeAux_no_x (sf : ℚ) (lines : List (List Char))
    (hx : lines.Forall (fun l => findFieldNum isXChar (processedLine l) = none)) :
    ∀ ly, parseGCodeAux sf lines none ly = [] := by
  induction lines with
  | nil => intro ly; rfl
  | cons raw rest ih =>
    intro ly
    rw [List.forall_cons] at hx
    rw [parseGCodeAux]
    split_ifs with h1 h2
    · exact ih hx.2 ly
    · rw [hx.1]
      cases hy : findFieldNum isYChar (processedLine raw) <;>
        simp only [hy] <;> exact ih hx.2 _
    · exact ih hx.2 ly

theorem parseGCodeAux_no_y (sf : ℚ) (lines : List (List Char))
    (hy : lines.Forall (fun l => findFieldNum isYChar (processedLine l) = none)) :
    ∀ lx, parseGCodeAux sf lines lx none = [] := by
  induction lines with
  | nil => intro lx; rfl
  | cons raw rest ih =>
    intro lx
    rw [List.forall_cons] at hy
    rw [parseGCodeAux]
    split_ifs with h1 h2
    · exact ih hy.2 lx
    · rw [hy.1]
      cases hx : findFieldNum isXChar (processedLine raw) with
      | some s => simp only [hx]; exact ih hy.2 _
      | none =>
        simp only [hx]
        cases lx <;> exact ih hy.2 _
    · exact ih hy.2 lx

/-- C7: modal last-value-wins parsing.  Conjuncts: (1) a document in which
no processed line carries an X field parses to the empty list, (2) the same
for Y (so text in which X and Y are never both seen yields no samples),
(3) a motion line carrying a Y field but no X field emits a sample exactly
when the modal X state is already set, reusing that modal X and updating
the modal Y, and (4) in the preview parser a motion line with X and Y
fields but no C field emits a move carrying the unchanged modal C value. -/
theorem parseGCode_modal_semantics (sfRaw : Option ℚ) (text : List Char)
    (sf : ℚ) (raw : List Char) (rest : List (List Char))
    (ly lc : Option ℚ) (x : ℚ) (ys xs2 ys2 : List Char) :
    ((splitNL text).Forall
        (fun l => findFieldNum isXChar (processedLine l) = none) →
      parseGCode sfRaw text = []) ∧
    ((splitNL text).Forall
        (fun l => findFieldNum isYChar (processedLine l) = none) →
      parseGCode sfRaw text = []) ∧
    (processedLine raw ≠ [] →
      (testGNum (processedLine raw) || (processedLine raw).any isXChar ||
        (processedLine raw).any isYChar) = true →
      findFieldNum isXChar (processedLine raw) = none →
      findFieldNum isYChar (processedLine raw) = some ys →
      parseGCodeAux sf (raw :: rest) (some x) ly =
        ⟨x / sf, -(parseDecimal ys) / sf⟩ ::
          parseGCodeAux sf rest (some x) (some (parseDecimal ys)) ∧
      parseGCodeAux sf (raw :: rest) none ly =
        parseGCodeAux sf rest none (some (parseDecimal ys))) ∧
    (processedLine raw ≠ [] →
      (testG01Space (processedLine raw) || (processedLine raw).any isXChar ||
        (processedLine raw).any isYChar) = true →
      findFieldNum isCChar (processedLine raw) = none →
      findFieldNum isXChar (processedLine raw) = some xs2 →
      findFieldNum isYChar (processedLine raw) = some ys2 →
      collectPreviewMoves sf (raw :: rest) none ly lc =
        ⟨parseDecimal xs2 / sf, -(parseDecimal ys2) / sf, lc⟩ ::
          collectPreviewMoves sf rest (some (parseDecimal xs2))
            (some (parseDecimal ys2)) lc) := by
  refine ⟨?_, ?_, ?_, ?_⟩
  · intro hx
    exact parseGCodeAux_no_x _ _ hx none
  · intro hy
    exact parseGCodeAux_no_y _ _ hy none
  · intro hne htest hx hy
    constructor
    · rw [parseGCodeAux]
      simp only [hne, if_false, htest, if_true, hx, hy]
    · rw [parseGCodeAux]
      simp only [hne, if_false, htest, if_true, hx, hy]
  · intro hne htest hc hx hy
    rw [collectPreviewMoves]
    simp only [hne, if_false, htest, if_true, hx, hy, hc]

/-- Witness for C7: a motion line with only a Y field inherits the modal X
value 5. -/
theorem parseGCode_modal_semantics_witness :
    parseGCodeAux 1 ["G1 Y7.5".data] (some 5) none =
      [⟨5 / 1, -(parseDecimal ['7', '.', '5']) / 1⟩] := by
  have h := (parseGCode_modal_semantics (some 1) [] 1 "G1 Y7.5".data [] none
      none 5 ['7', '.', '5'] [] []).2.2.1
  exact (h (by decide) (by decide) (by decide) (by decide)).1

theorem buildSegs_invariants (tl : List Move) :
    ∀ (a : Move) (cum : ℝ),
      (∀ s ∈ (buildSegs a tl cum).1,
        s.cumEnd = s.cumStart + s.len ∧ (1e-6 : ℝ) < s.len) ∧
      List.Chain' (fun s t => t.cumStart = s.cumEnd) (buildSegs a tl cum).1 ∧
      ((buildSegs a tl cum).1.head?.elim True (fun s => s.cumStart = cum)) ∧
      (buildSegs a tl cum).2 =
        cum + ((buildSegs a tl cum).1.map (fun s => s.len)).sum ∧
      ((buildSegs a tl cum).1.getLast?.elim ((buildSegs a tl cum).2 = cum)
        (fun s => s.cumEnd = (buildSegs a tl cum).2)) := by
  induction tl with
  | nil =>
    intro a cum
    simp [buildSegs]
  | cons b tl2 ih =>
    intro a cum
    simp only [buildSegs]
    split_ifs with hle
    · exact ih b cum
    · have hlen : (1e-6 : ℝ) < jsHypot (b.x - a.x) (b.y - a.y) :=
        lt_of_not_le hle
      obtain ⟨ih1, ih2, ih3, ih4, ih5⟩ :=
        ih b (cum + jsHypot (b.x - a.x) (b.y - a.y))
      refine ⟨?_, ?_, ?_, ?_, ?_⟩
      · intro s hs
        rcases List.mem_cons.mp hs with rfl | hs2
        · exact ⟨rfl, hlen⟩
        · exact ih1 s hs2
      · rw [List.chain'_cons']
        refine ⟨?_, ih2⟩
        intro t ht
        cases hh :
            (buildSegs b tl2 (cum + jsHypot (b.x - a.x) (b.y - a.y))).1.head? with
        | none => rw [hh] at ht; exact absurd ht (by simp)
        | some u =>
          rw [hh] at ht ih3
          simp only [Option.mem_some_iff] at ht
          subst ht
          exact ih3
      · exact rfl
      · rw [List.map_cons, List.sum_cons]
        rw [ih4]
        ring
      · cases hh :
            (buildSegs b tl2 (cum + jsHypot (b.x - a.x) (b.y - a.y))).1 with
        | nil =>
          rw [hh] at ih5
          simp only [List.getLast?_nil] at ih5
          simp only [hh, List.getLast?_singleton, Option.elim_some]
          rw [ih5]
        | cons u us =>
          rw [hh] at ih5
          rw [getLast?_cons_of_ne_nil _ _ (List.cons_ne_nil u us)]
          rw [List.getLast?_eq_getLast (u :: us) (List.cons_ne_nil u us)]
            at ih5 ⊢
          exact ih5

/-- C8: every stored playback segment satisfies cumEnd = cumStart + len and
has length strictly above the 1e-6 drop threshold; consecutive segments
are contiguous, the first segment starts at 0, and the segment lengths sum
exactly to totalLength. -/
theorem buildPreview_partition (cfg : MachineConfig) (text : List Char) :
    List.Forall (fun s => s.cumEnd = s.cumStart + s.len ∧ (1e-6 : ℝ) < s.len)
        (buildPreviewFromGCode cfg text).segments ∧
    List.Chain' (fun s t => t.cumStart = s.cumEnd)
        (buildPreviewFromGCode cfg text).segments ∧
    ((buildPreviewFromGCode cfg text).segments.head?.elim True
        (fun s => s.cumStart = 0)) ∧
    ((buildPreviewFromGCode cfg text).segments.map (fun s => s.len)).sum =
      (buildPreviewFromGCode cfg text).totalLength := by
  rw [buildPreviewFromGCode]
  cases hm : collectPreviewMoves cfg.scaleFactor (splitNL text) none none none with
  | nil => simp
  | cons m tl =>
    obtain ⟨h1, h2, h3, h4, h5⟩ := buildSegs_invariants tl m 0
    refine ⟨List.forall_iff_forall_mem.mpr h1, h2, h3, ?_⟩
    show (List.map (fun s => s.len) (buildSegs m tl 0).1).sum =
      (buildSegs m tl 0).2
    rw [h4]
    ring

theorem segs_cumEnd_le_last :
    ∀ (segs : List Segment) (last : Segment),
      (∀ s ∈ segs, s.cumEnd = s.cumStart + s.len ∧ (1e-6 : ℝ) < s.len) →
      List.Chain' (fun s t => t.cumStart = s.cumEnd) segs →
      segs.getLast? = some last →
      ∀ s ∈ segs, s.cumEnd ≤ last.cumEnd := by
  intro segs
  induction segs with
  | nil => intro last _ _ h; simp at h
  | cons a tl ih =>
    intro last hinv hchain hlast s hs
    cases tl with
    | nil =>
      simp only [List.getLast?_singleton, Option.some.injEq] at hlast
      rcases List.mem_singleton.mp hs with rfl
      rw [hlast]
    | cons b tl2 =>
      rw [getLast?_cons_of_ne_nil _ _ (List.cons_ne_nil b tl2)] at hlast
      have hab : b.cumStart = a.cumEnd := (List.chain'_cons.mp hchain).1
      have hchain2 := (List.chain'_cons.mp hchain).2
      have hinv2 : ∀ u ∈ b :: tl2,
          u.cumEnd = u.cumStart + u.len ∧ (1e-6 : ℝ) < u.len :=
        fun u hu => hinv u (List.mem_cons_of_mem _ hu)
      have hble : b.cumEnd ≤ last.cumEnd :=
        ih last hinv2 hchain2 hlast b (by simp)
      rcases List.mem_cons.mp hs with rfl | hs2
      · have hb := hinv2 b (by simp)
        have h1 : s.cumEnd = b.cumStart := hab.symm
        have h2 : b.cumStart < b.cumEnd := by
          rw [hb.1]
          have := hb.2
          linarith [hb.2]
        linarith
      · exact ih last hinv2 hchain2 hlast s hs2

theorem distToPointLoop_ge (d : ℝ) :
    ∀ (segs : List Segment) (last : Segment),
      (∀ s ∈ segs, s.cumEnd = s.cumStart + s.len ∧ (1e-6 : ℝ) < s.len) →
      List.Chain' (fun s t => t.cumStart = s.cumEnd) segs →
      segs.getLast? = some last →
      last.cumEnd ≤ d →
      distToPointLoop d segs =
        if d ≤ last.cumEnd then some (segPointAt last d) else none := by
  intro segs
  induction segs with
  | nil => intro last _ _ h _; simp at h
  | cons a tl ih =>
    intro last hinv hchain hlast hd
    cases tl with
    | nil =>
      simp only [List.getLast?_singleton, Option.some.injEq] at hlast
      subst hlast
      rw [distToPointLoop]
      split_ifs with h
      · rfl
      · rfl
    | cons b tl2 =>
      rw [getLast?_cons_of_ne_nil _ _ (List.cons_ne_nil b tl2)] at hlast
      have hab : b.cumStart = a.cumEnd := (List.chain'_cons.mp hchain).1
      have hchain2 := (List.chain'_cons.mp hchain).2
      have hinv2 : ∀ u ∈ b :: tl2,
          u.cumEnd = u.cumStart + u.len ∧ (1e-6 : ℝ) < u.len :=
        fun u hu => hinv u (List.mem_cons_of_mem _ hu)
      have hble : b.cumEnd ≤ last.cumEnd :=
        segs_cumEnd_le_last (b :: tl2) last hinv2 hchain2 hlast b (by simp)
      have hb := hinv2 b (by simp)
      have ha_lt : a.cumEnd < d := by
        have h2 : b.cumStart < b.cumEnd := by
          rw [hb.1]; linarith [hb.2]
        linarith [hab.symm.le]
      rw [distToPointLoop, if_neg (not_le.mpr ha_lt)]
      exact ih last hinv2 hchain2 hlast hd

theorem segPointAt_cumEnd (seg : Segment)
    (h1 : seg.cumEnd = seg.cumStart + seg.len) (h2 : 0 < seg.len) :
    segPointAt seg seg.cumEnd = segEndPoint seg := by
  rw [segPointAt, segEndPoint]
  have ht : (if 0 < seg.len then (seg.cumEnd - seg.cumStart) / seg.len else 0)
      = 1 := by
    rw [if_pos h2, h1]
    field_simp
  rw [ht]
  simp only [DistPt.mk.injEq, and_true, true_and]
  exact ⟨by ring, by ring⟩

/-- C9: querying a built path at or beyond totalLength returns the final
segment's end point with the final segment's stored angle; an empty
segment list yields the defined no-position result none. -/
theorem distToPoint_end_behavior (cfg : MachineConfig) (text : List Char)
    (d : ℝ) :
    distToPoint [] d = none ∧
    (∀ last, (buildPreviewFromGCode cfg text).segments.getLast? = some last →
      (buildPreviewFromGCode cfg text).totalLength ≤ d →
      distToPoint (buildPreviewFromGCode cfg text).segments d =
        some (segEndPoint last)) := by
  refine ⟨rfl, ?_⟩
  intro last hlast hd
  cases hm : collectPreviewMoves cfg.scaleFactor (splitNL text) none none none with
  | nil =>
    have hseg : (buildPreviewFromGCode cfg text).segments = [] := by
      rw [buildPreviewFromGCode, hm]
    rw [hseg] at hlast
    simp at hlast
  | cons m tl =>
    have hseg : (buildPreviewFromGCode cfg text).segments =
        (buildSegs m tl 0).1 := by
      rw [buildPreviewFromGCode, hm]
    have htot : (buildPreviewFromGCode cfg text).totalLength =
        (buildSegs m tl 0).2 := by
      rw [buildPreviewFromGCode, hm]
    rw [hseg] at hlast ⊢
    rw [htot] at hd
    obtain ⟨h1, h2, h3, h4, h5⟩ := buildSegs_invariants tl m 0
    rw [hlast, Option.elim_some] at h5
    have hdlast : last.cumEnd ≤ d := by rw [h5]; exact hd
    have hmem : last ∈ (buildSegs m tl 0).1 := by
      cases hsegs : (buildSegs m tl 0).1 with
      | nil => rw [hsegs] at hlast; simp at hlast
      | cons s tl3 =>
        rw [hsegs] at hlast
        rw [List.getLast?_eq_getLast (s :: tl3) (List.cons_ne_nil s tl3)]
          at hlast
        have hgl := Option.some.inj hlast
        rw [← hgl]
        exact List.getLast_mem _
    have hloop := distToPointLoop_ge d (buildSegs m tl 0).1 last h1 h2 hlast
      hdlast
    cases hsegs : (buildSegs m tl 0).1 with
    | nil => rw [hsegs] at hlast; simp at hlast
    | cons s tl3 =>
      rw [hsegs] at hloop hlast
      rcases le_or_lt d last.cumEnd with hle | hgt
      · have hde : d = last.cumEnd := le_antisymm hle hdlast
        have hinv_last := h1 last hmem
        have heq : segPointAt last d = segEndPoint last := by
          rw [hde]
          exact segPointAt_cumEnd last hinv_last.1
            (lt_trans (by norm_num) hinv_last.2)
        show (match distToPointLoop d (s :: tl3) with
          | some r => some r
          | none =>
            some (segEndPoint ((s :: tl3).getLast (List.cons_ne_nil s tl3)))) =
          some (segEndPoint last)
        rw [hloop, if_pos hle]
        show some (segPointAt last d) = some (segEndPoint last)
        rw [heq]
      · have hgl : (s :: tl3).getLast (List.cons_ne_nil s tl3) = last := by
          rw [List.getLast?_eq_getLast (s :: tl3) (List.cons_ne_nil s tl3)]
            at hlast
          exact Option.some.inj hlast
        show (match distToPointLoop d (s :: tl3) with
          | some r => some r
          | none =>
            some (segEndPoint ((s :: tl3).getLast (List.cons_ne_nil s tl3)))) =
          some (segEndPoint last)
        rw [hloop, if_neg (not_le.mpr hgt)]
        show some (segEndPoint ((s :: tl3).getLast (List.cons_ne_nil s tl3))) =
          some (segEndPoint last)
        rw [hgl]

theorem collectPreviewMoves_step (sf : ℚ) (raw : List Char)
    (rest : List (List Char)) (lx ly lc : Option ℚ) (xs ys : List Char)
    (hne : processedLine raw ≠ [])
    (htest : (testG01Space (processedLine raw) ||
      (processedLine raw).any isXChar ||
      (processedLine raw).any isYChar) = true)
    (hx : findFieldNum isXChar (processedLine raw) = some xs)
    (hy : findFieldNum isYChar (processedLine raw) = some ys)
    (hc : findFieldNum isCChar (processedLine raw) = none) :
    collectPreviewMoves sf (raw :: rest) lx ly lc =
      ⟨parseDecimal xs / sf, -(parseDecimal ys) / sf, lc⟩ ::
        collectPreviewMoves sf rest (some (parseDecimal xs))
          (some (parseDecimal ys)) lc := by
  rw [collectPreviewMoves]
  simp only [hne, if_false, htest, if_true, hx, hy, hc]

theorem parseUnsignedDec_all_digits (l : List Char)
    (h : l.takeWhile Char.isDigit = l) :
    parseUnsignedDec l = (natOfDigits l : ℚ) := by
  rw [parseUnsignedDec, h, List.drop_length]

theorem parseDecimal_cons_ne (c : Char) (cs : List Char) (h : c ≠ '-') :
    parseDecimal (c :: cs) = parseUnsignedDec (c :: cs) := by
  rw [parseDecimal.eq_def]
  split
  · rename_i rest heq
    injection heq with h1 h2
    exact absurd h1 h
  · rfl

theorem parseDecimal_neg_head (cs : List Char) :
    parseDecimal ('-' :: cs) = -parseUnsignedDec cs := by
  rw [parseDecimal]

theorem parseDecimal_all_digits (l : List Char)
    (h : l.takeWhile Char.isDigit = l) (hne : l ≠ []) :
    parseDecimal l = (natOfDigits l : ℚ) := by
  cases l with
  | nil => exact absurd rfl hne
  | cons c cs =>
    have hc : c ≠ '-' := by
      intro hc0
      have hd : Char.isDigit '-' = false := rfl
      rw [List.takeWhile_cons, hc0, hd] at h
      simp at h
    rw [parseDecimal_cons_ne c cs hc, parseUnsignedDec_all_digits _ h]

theorem jsHypot_3_4 : jsHypot 3 4 = 5 := by
  rw [jsHypot]
  have h : (((3 : ℚ) : ℝ) ^ 2 + ((4 : ℚ) : ℝ) ^ 2) = 25 := by
    push_cast
    norm_num
  rw [h, show (25 : ℝ) = 5 ^ 2 by norm_num,
    Real.sqrt_sq (by norm_num : (0 : ℝ) ≤ 5)]

theorem twoMove_preview :
    (buildPreviewFromGCode cfgScale1 twoMoveText).segments = [segW] ∧
      (buildPreviewFromGCode cfgScale1 twoMoveText).totalLength =
        0 + jsHypot 3 4 := by
  have hsplit : splitNL twoMoveText = ["G0 X0 Y0".data, "G1 X3 Y-4".data] := by
    decide
  have hstep1 := collectPreviewMoves_step cfgScale1.scaleFactor
    "G0 X0 Y0".data ["G1 X3 Y-4".data] none none none ['0'] ['0']
    (by decide) (by decide) (by decide) (by decide) (by decide)
  have hstep2 := collectPreviewMoves_step cfgScale1.scaleFactor
    "G1 X3 Y-4".data [] (some (parseDecimal ['0'])) (some (parseDecimal ['0']))
    none ['3'] ['-', '4']
    (by decide) (by decide) (by decide) (by decide) (by decide)
  have hp0 : parseDecimal ['0'] = 0 := by
    rw [parseDecimal_all_digits ['0'] (by decide) (by decide),
      show natOfDigits ['0'] = 0 from by decide]
    norm_num
  have hp3 : parseDecimal ['3'] = 3 := by
    rw [parseDecimal_all_digits ['3'] (by decide) (by decide),
      show natOfDigits ['3'] = 3 from by decide]
    norm_num
  have hp4 : parseDecimal ['-', '4'] = -4 := by
    rw [parseDecimal_neg_head, parseUnsignedDec_all_digits ['4'] (by decide),
      show natOfDigits ['4'] = 4 from by decide]
    norm_num
  have hmoves : collectPreviewMoves cfgScale1.scaleFactor
      (splitNL twoMoveText) none none none =
      [⟨0, 0, none⟩, ⟨3, 4, none⟩] := by
    rw [hsplit, hstep1, hstep2, hp0, hp3, hp4,
      show cfgScale1.scaleFactor = 1 from rfl]
    show _ :: _ :: ([] : List Move) = _
    norm_num
  have hb : buildSegs ⟨0, 0, none⟩ [⟨3, 4, none⟩] 0 =
      ([segW], 0 + jsHypot 3 4) := by
    have e1 : (3 : ℚ) - 0 = 3 := by norm_num
    have e2 : (4 : ℚ) - 0 = 4 := by norm_num
    simp only [buildSegs, e1, e2]
    rw [if_neg (by rw [jsHypot_3_4]; norm_num)]
    rfl
  constructor
  · rw [buildPreviewFromGCode, hmoves]
    show (buildSegs ⟨0, 0, none⟩ [⟨3, 4, none⟩] 0).1 = [segW]
    rw [hb]
  · rw [buildPreviewFromGCode, hmoves]
    show (buildSegs ⟨0, 0, none⟩ [⟨3, 4, none⟩] 0).2 = 0 + jsHypot 3 4
    rw [hb]

/-- Witness for C9: the concrete two-move path queried at its total length
5 returns the end point of its single segment. -/
theorem distToPoint_end_behavior_witness :
    distToPoint (buildPreviewFromGCode cfgScale1 twoMoveText).segments 5 =
      some (segEndPoint segW) := by
  obtain ⟨hseg, htot⟩ := twoMove_preview
  exact (distToPoint_end_behavior cfgScale1 twoMoveText 5).2 segW
    (by rw [hseg]; rfl)
    (by rw [htot, jsHypot_3_4]; norm_num)

theorem digitVal_digitChar (d : ℕ) (h : d < 10) :
    digitVal (digitChar d) = d := by
  interval_cases d <;> decide

theorem digitChar_isDigit (d : ℕ) (h : d < 10) :
    (digitChar d).isDigit = true := by
  interval_cases d <;> decide

theorem natOfDigits_from (init : ℕ) (l : List Char) :
    l.foldl (fun acc c => 10 * acc + digitVal c) init =
      init * 10 ^ l.length + natOfDigits l := by
  induction l generalizing init with
  | nil => simp [natOfDigits]
  | cons c cs ih =>
    rw [List.foldl_cons, ih (10 * init + digitVal c)]
    have h2 : natOfDigits (c :: cs) =
        digitVal c * 10 ^ cs.length + natOfDigits cs := by
      rw [natOfDigits, List.foldl_cons]
      rw [show cs.foldl (fun acc c => 10 * acc + digitVal c)
        (10 * 0 + digitVal c) = (10 * 0 + digitVal c) * 10 ^ cs.length +
        natOfDigits cs from ih _]
      norm_num
    rw [h2, List.length_cons, pow_succ]
    ring

theorem natDigitsAux_spec (fuel : ℕ) :
    ∀ (n : ℕ) (acc : List Char), n < 10 ^ (fuel + 1) →
      ∃ D, natDigitsAux (fuel + 1) n acc = D ++ acc ∧ D ≠ [] ∧
        (∀ c ∈ D, c.isDigit = true) ∧ natOfDigits D = n := by
  induction fuel with
  | zero =>
    intro n acc hn
    have h10 : n < 10 := by simpa using hn
    refine ⟨[digitChar n], ?_, by simp, ?_, ?_⟩
    · rw [natDigitsAux, if_pos h10]
      rfl
    · intro c hc
      rw [List.mem_singleton.mp hc]
      exact digitChar_isDigit n h10
    · rw [natOfDigits]
      simp [digitVal_digitChar n h10]
  | succ fuel ih =>
    intro n acc hn
    by_cases h10 : n < 10
    · refine ⟨[digitChar n], ?_, by simp, ?_, ?_⟩
      · rw [natDigitsAux, if_pos h10]
        rfl
      · intro c hc
        rw [List.mem_singleton.mp hc]
        exact digitChar_isDigit n h10
      · rw [natOfDigits]
        simp [digitVal_digitChar n h10]
    · have hrec : n / 10 < 10 ^ (fuel + 1) := by
        rw [Nat.div_lt_iff_lt_mul (by norm_num)]
        calc n < 10 ^ (fuel + 1 + 1) := hn
        _ = 10 ^ (fuel + 1) * 10 := by ring
      obtain ⟨D, hD, hDne, hDdig, hDval⟩ :=
        ih (n / 10) (digitChar (n % 10) :: acc) hrec
      refine ⟨D ++ [digitChar (n % 10)], ?_, by simp, ?_, ?_⟩
      · rw [natDigitsAux, if_neg h10, hD]
        simp
      · intro c hc
        rcases List.mem_append.mp hc with hc1 | hc2
        · exact hDdig c hc1
        · rw [List.mem_singleton.mp hc2]
          exact digitChar_isDigit _ (Nat.mod_lt n (by norm_num))
      · rw [natOfDigits, List.foldl_append]
        rw [show D.foldl (fun acc c => 10 * acc + digitVal c) 0 =
          natOfDigits D from rfl]
        rw [hDval, List.foldl_cons, List.foldl_nil,
          digitVal_digitChar _ (Nat.mod_lt n (by norm_num))]
        omega

theorem natDigits_spec (n : ℕ) :
    natDigits n ≠ [] ∧ (∀ c ∈ natDigits n, c.isDigit = true) ∧
      natOfDigits (natDigits n) = n := by
  have hn : n < 10 ^ (n + 1) := by
    calc n < 10 ^ n := Nat.lt_pow_self (by norm_num) n
    _ ≤ 10 ^ (n + 1) := Nat.pow_le_pow_right (by norm_num) (by omega)
  obtain ⟨D, hD, hDne, hDdig, hDval⟩ := natDigitsAux_spec n n [] hn
  rw [natDigits, hD, List.append_nil]
  exact ⟨hDne, hDdig, hDval⟩

theorem pad3_spec (f : ℕ) (h : f < 1000) :
    (∀ c ∈ pad3 f, c.isDigit = true) ∧ natOfDigits (pad3 f) = f ∧
      (pad3 f).length = 3 := by
  refine ⟨?_, ?_, rfl⟩
  · intro c hc
    rw [pad3] at hc
    simp only [List.mem_cons, List.not_mem_nil, or_false] at hc
    rcases hc with rfl | rfl | rfl <;>
      exact digitChar_isDigit _ (Nat.mod_lt _ (by norm_num))
  · rw [pad3, natOfDigits]
    simp only [List.foldl_cons, List.foldl_nil]
    rw [digitVal_digitChar _ (Nat.mod_lt _ (by norm_num)),
      digitVal_digitChar _ (Nat.mod_lt _ (by norm_num)),
      digitVal_digitChar _ (Nat.mod_lt _ (by norm_num))]
    omega

theorem formatNum_numChar {α : Type} [LinearOrderedField α] [FloorRing α]
    (q : α) : ∀ c ∈ formatNum q, numChar c := by
  intro c hc
  rw [formatNum] at hc
  rcases List.mem_append.mp hc with h1 | h1
  · split_ifs at h1 with hq
    · rcases List.mem_append.mp h1 with h2 | h2
      · rw [List.mem_singleton.mp h2]
        right; left; rfl
      · left
        exact (natDigits_spec _).2.1 c h2
    · rw [List.nil_append] at h1
      left
      exact (natDigits_spec _).2.1 c h1
  · rcases List.mem_cons.mp h1 with rfl | h3
    · right; right; rfl
    · left
      exact (pad3_spec _ (Nat.mod_lt _ (by norm_num))).1 c h3

theorem isDigit_char_facts (c : Char) (h : c.isDigit = true) :
    isXChar c = false ∧ isYChar c = false ∧ isGChar c = false ∧
      isCChar c = false ∧ c ≠ ';' ∧ c ≠ '\n' ∧ c ≠ '\r' ∧ c ≠ '(' ∧
      c.isWhitespace = false := by
  rw [Char.isDigit] at h
  simp only [Bool.and_eq_true, decide_eq_true_eq] at h
  obtain ⟨h1, h2⟩ := h
  refine ⟨?_, ?_, ?_, ?_, ?_, ?_, ?_, ?_, ?_⟩
  · rw [isXChar]
    simp only [Bool.or_eq_false_iff, beq_eq_false_iff_ne]
    constructor <;> intro h0 <;> rw [h0] at h1 h2 <;> simp at h1 h2 <;> omega
  · rw [isYChar]
    simp only [Bool.or_eq_false_iff, beq_eq_false_iff_ne]
    constructor <;> intro h0 <;> rw [h0] at h1 h2 <;> simp at h1 h2 <;> omega
  · rw [isGChar]
    simp only [Bool.or_eq_false_iff, beq_eq_false_iff_ne]
    constructor <;> intro h0 <;> rw [h0] at h1 h2 <;> simp at h1 h2 <;> omega
  · rw [isCChar]
    simp only [Bool.or_eq_false_iff, beq_eq_false_iff_ne]
    constructor <;> intro h0 <;> rw [h0] at h1 h2 <;> simp at h1 h2 <;> omega
  · intro h0; rw [h0] at h1 h2; simp at h1 h2
  · intro h0; rw [h0] at h1 h2; simp at h1 h2
  · intro h0; rw [h0] at h1 h2; simp at h1 h2
  · intro h0; rw [h0] at h1 h2; simp at h1 h2
  · have hne : c ≠ ' ' ∧ c ≠ '\t' ∧ c ≠ '\n' ∧ c ≠ '\x0d' := by
      refine ⟨?_, ?_, ?_, ?_⟩ <;> intro h0 <;> rw [h0] at h1 h2 <;>
        simp at h1 h2
    rw [Char.isWhitespace]
    simp [hne.1, hne.2.1, hne.2.2.1, hne.2.2.2]

theorem numChar_facts (c : Char) (h : numChar c) :
    isXChar c = false ∧ isYChar c = false ∧ isGChar c = false ∧
      isCChar c = false ∧ c ≠ ';' ∧ c ≠ '\n' ∧ c ≠ '\r' ∧ c ≠ '(' ∧
      c.isWhitespace = false := by
  rcases h with hd | rfl | rfl
  · exact isDigit_char_facts c hd
  · exact ⟨rfl, rfl, rfl, rfl, by decide, by decide, by decide, by decide, rfl⟩
  · exact ⟨rfl, rfl, rfl, rfl, by decide, by decide, by decide, by decide, rfl⟩

theorem testGNum_eq_false (l : List Char)
    (h : ∀ c ∈ l, isGChar c = false) : testGNum l = false := by
  induction l with
  | nil => rfl
  | cons c cs ih =>
    cases cs with
    | nil => rfl
    | cons c2 cs2 =>
      rw [testGNum]
      rw [h c (by simp), ih (fun u hu => h u (List.mem_cons_of_mem _ hu))]
      rfl

theorem testG01Space_eq_false (l : List Char)
    (h : ∀ c ∈ l, isGChar c = false) : testG01Space l = false := by
  induction l with
  | nil => rfl
  | cons c cs ih =>
    cases cs with
    | nil => rfl
    | cons c2 cs2 =>
      cases cs2 with
      | nil => rfl
      | cons c3 cs3 =>
        rw [testG01Space]
        rw [h c (by simp), ih (fun u hu => h u (List.mem_cons_of_mem _ hu))]
        rfl

theorem findFieldNum_append_skip (p : Char → Bool) (l1 l2 : List Char)
    (h : ∀ c ∈ l1, p c = false) :
    findFieldNum p (l1 ++ l2) = findFieldNum p l2 := by
  induction l1 with
  | nil => rfl
  | cons c cs ih =>
    rw [List.cons_append, findFieldNum, h c (by simp)]
    simp only [Bool.false_eq_true, if_false]
    exact ih (fun u hu => h u (List.mem_cons_of_mem _ hu))

theorem findFieldNum_none (p : Char → Bool) (l : List Char)
    (h : ∀ c ∈ l, p c = false) : findFieldNum p l = none := by
  have h2 := findFieldNum_append_skip p l [] h
  rw [List.append_nil] at h2
  rw [h2]
  rfl

theorem takeWhile_append_all (p : Char → Bool) (l1 l2 : List Char)
    (h : ∀ c ∈ l1, p c = true) :
    (l1 ++ l2).takeWhile p = l1 ++ l2.takeWhile p := by
  induction l1 with
  | nil => rfl
  | cons c cs ih =>
    rw [List.cons_append, List.takeWhile_cons, h c (by simp)]
    rw [ih (fun u hu => h u (List.mem_cons_of_mem _ hu))]
    rfl

theorem takeWhile_eq_nil_of_head (p : Char → Bool) (c : Char)
    (cs : List Char) (h : p c = false) : (c :: cs).takeWhile p = [] := by
  rw [List.takeWhile_cons, h]
  rfl

theorem dropWhile_append_all (p : Char → Bool) (l1 l2 : List Char)
    (h : ∀ c ∈ l1, p c = true) :
    (l1 ++ l2).dropWhile p = l2.dropWhile p := by
  induction l1 with
  | nil => rfl
  | cons c cs ih =>
    rw [List.cons_append, List.dropWhile_cons, h c (by simp)]
    simp only [if_true]
    exact ih (fun u hu => h u (List.mem_cons_of_mem _ hu))

theorem stripSemi_append (l1 l2 : List Char) (h : ∀ c ∈ l1, c ≠ ';') :
    stripSemi (l1 ++ l2) = l1 ++ stripSemi l2 := by
  rw [stripSemi, stripSemi]
  exact takeWhile_append_all _ l1 l2 (fun c hc => by
    simp only [decide_eq_true_eq]
    exact h c hc)

theorem stripSemi_semi (t : List Char) : stripSemi (';' :: t) = [] := by
  rw [stripSemi, List.takeWhile_cons]
  norm_num

theorem stripSemi_no_semi (l : List Char) (h : ∀ c ∈ l, c ≠ ';') :
    stripSemi l = l := by
  have h2 := stripSemi_append l [] h
  have h3 : stripSemi ([] : List Char) = [] := rfl
  rw [h3, List.append_nil] at h2
  exact h2

theorem removeParens_no_paren (l : List Char) (h : ∀ c ∈ l, c ≠ '(') :
    removeParens l = l := by
  rw [removeParens]
  have main : ∀ (fuel : ℕ) (l2 : List Char), (∀ c ∈ l2, c ≠ '(') →
      removeParensAux fuel l2 = l2 := by
    intro fuel
    induction fuel with
    | zero => intro l2 _; rfl
    | succ f ih =>
      intro l2 h2
      cases l2 with
      | nil => rfl
      | cons c cs =>
        rw [removeParensAux, if_neg (h2 c (by simp))]
        rw [ih cs (fun u hu => h2 u (List.mem_cons_of_mem _ hu))]
  exact main l.length l h

theorem jsTrim_core_tail (core tail : List Char)
    (hh : core.head?.elim False (fun c => c.isWhitespace = false))
    (hl : core.getLast?.elim False (fun c => c.isWhitespace = false))
    (ht : ∀ c ∈ tail, c.isWhitespace = true) :
    jsTrim (core ++ tail) = core := by
  cases core with
  | nil => simp at hh
  | cons c0 cs0 =>
    rw [jsTrim]
    have hfront : ((c0 :: cs0) ++ tail).dropWhile Char.isWhitespace =
        (c0 :: cs0) ++ tail := by
      rw [List.cons_append, List.dropWhile_cons]
      simp only [List.head?_cons, Option.elim_some] at hh
      rw [hh]
      rfl
    rw [hfront, List.reverse_append]
    rw [dropWhile_append_all _ tail.reverse _
      (fun u hu => ht u (List.mem_reverse.mp hu))]
    have hback : (c0 :: cs0).reverse.dropWhile Char.isWhitespace =
        (c0 :: cs0).reverse := by
      cases hrev : (c0 :: cs0).reverse with
      | nil => simp at hrev
      | cons r rs =>
        rw [List.dropWhile_cons]
        have hlast : (c0 :: cs0).getLast? = some r := by
          rw [List.getLast?_eq_head?_reverse, hrev]
          rfl
        rw [hlast, Option.elim_some] at hl
        rw [hl]
        rfl
    rw [hback, List.reverse_reverse]

theorem round3_bounds {α : Type} [LinearOrderedField α] [FloorRing α]
    (q : α) : ((round3 q : ℤ) : α) ≤ 1000 * q + 1 / 2 ∧
      1000 * q - 1 / 2 < ((round3 q : ℤ) : α) := by
  rw [round3]
  constructor
  · exact Int.floor_le _
  · have h := Int.sub_one_lt_floor (1000 * q + 1 / 2)
    linarith

/-- Rounding to thousandths moves the value by at most half a
thousandth. -/
theorem round3_err (q : ℚ) : |((round3 q : ℤ) : ℚ) / 1000 - q| ≤ 1 / 2000 := by
  obtain ⟨h1, h2⟩ := round3_bounds q
  rw [abs_le]
  constructor <;> linarith

theorem formatNum_nonneg_eq {α : Type} [LinearOrderedField α] [FloorRing α]
    (q : α) (h : ¬ q < 0) :
    formatNum q = natDigits ((round3 q).natAbs / 1000) ++
      '.' :: pad3 ((round3 q).natAbs % 1000) := by
  rw [formatNum, if_neg h, List.nil_append]

theorem formatNum_neg_eq {α : Type} [LinearOrderedField α] [FloorRing α]
    (q : α) (h : q < 0) :
    formatNum q = '-' :: (natDigits ((round3 q).natAbs / 1000) ++
      '.' :: pad3 ((round3 q).natAbs % 1000)) := by
  rw [formatNum, if_pos h]
  rfl

theorem takeWhile_digits_of_head_not (rest : List Char)
    (hrest : rest.head?.elim True (fun c => c.isDigit = false)) :
    rest.takeWhile Char.isDigit = [] := by
  cases rest with
  | nil => rfl
  | cons c cs =>
    simp only [List.head?_cons, Option.elim_some] at hrest
    exact takeWhile_eq_nil_of_head _ c cs hrest

theorem matchUnsigned_digits_dot (D P rest : List Char)
    (hD : ∀ c ∈ D, c.isDigit = true) (hP : ∀ c ∈ P, c.isDigit = true)
    (hPne : P ≠ [])
    (hrest : rest.head?.elim True (fun c => c.isDigit = false)) :
    matchUnsigned (D ++ '.' :: (P ++ rest)) = some (D ++ '.' :: P) := by
  have hd1 : (D ++ '.' :: (P ++ rest)).takeWhile Char.isDigit = D := by
    rw [takeWhile_append_all _ D _ hD,
      takeWhile_eq_nil_of_head _ '.' _ (by decide), List.append_nil]
  have hd2 : (P ++ rest).takeWhile Char.isDigit = P := by
    rw [takeWhile_append_all _ P _ hP,
      takeWhile_digits_of_head_not rest hrest, List.append_nil]
  simp only [matchUnsigned, hd1, List.drop_left, hd2, hPne]
  rw [if_pos hPne]

theorem parseUnsignedDec_digits_dot (D P : List Char)
    (hD : ∀ c ∈ D, c.isDigit = true) (hP : ∀ c ∈ P, c.isDigit = true) :
    parseUnsignedDec (D ++ '.' :: P) =
      (natOfDigits D : ℚ) + (natOfDigits P : ℚ) / 10 ^ P.length := by
  have hd1 : (D ++ '.' :: P).takeWhile Char.isDigit = D := by
    rw [takeWhile_append_all _ D _ hD,
      takeWhile_eq_nil_of_head _ '.' _ (by decide), List.append_nil]
  have hd2 : P.takeWhile Char.isDigit = P := by
    have h2 := takeWhile_append_all Char.isDigit P [] hP
    simpa using h2
  simp only [parseUnsignedDec, hd1, List.drop_left, hd2]

theorem matchNum_cons_ne (c : Char) (cs : List Char) (h : c ≠ '-') :
    matchNum (c :: cs) = matchUnsigned (c :: cs) := by
  rw [matchNum.eq_def]
  split
  · rename_i rest heq
    injection heq with h1 h2
    exact absurd h1 h
  · rfl

theorem natAbs_div_mod_cast (n : ℤ) (hn : 0 ≤ n) :
    ((n.natAbs / 1000 : ℕ) : ℚ) + ((n.natAbs % 1000 : ℕ) : ℚ) / 10 ^ (3 : ℕ)
      = (n : ℚ) / 1000 := by
  have hmod : 1000 * (n.natAbs / 1000) + n.natAbs % 1000 = n.natAbs :=
    Nat.div_add_mod _ _
  have hcast : ((n.natAbs / 1000 : ℕ) : ℚ) * 1000 +
      ((n.natAbs % 1000 : ℕ) : ℚ) = ((n.natAbs : ℕ) : ℚ) := by
    have h3 := congrArg (fun m : ℕ => (m : ℚ)) hmod
    push_cast at h3
    linarith [h3]
  have habs : ((n.natAbs : ℕ) : ℚ) = (n : ℚ) := by
    rw [Int.cast_natAbs]
    exact_mod_cast abs_of_nonneg hn
  rw [show ((10 : ℚ) ^ (3 : ℕ)) = 1000 by norm_num]
  field_simp
  linarith [hcast, habs]

theorem natAbs_div_mod_cast_neg (n : ℤ) (hn : n ≤ 0) :
    ((n.natAbs / 1000 : ℕ) : ℚ) + ((n.natAbs % 1000 : ℕ) : ℚ) / 10 ^ (3 : ℕ)
      = -((n : ℚ) / 1000) := by
  have hmod : 1000 * (n.natAbs / 1000) + n.natAbs % 1000 = n.natAbs :=
    Nat.div_add_mod _ _
  have hcast : ((n.natAbs / 1000 : ℕ) : ℚ) * 1000 +
      ((n.natAbs % 1000 : ℕ) : ℚ) = ((n.natAbs : ℕ) : ℚ) := by
    have h3 := congrArg (fun m : ℕ => (m : ℚ)) hmod
    push_cast at h3
    linarith [h3]
  have habs : ((n.natAbs : ℕ) : ℚ) = -(n : ℚ) := by
    rw [Int.cast_natAbs]
    exact_mod_cast abs_of_nonpos hn
  rw [show ((10 : ℚ) ^ (3 : ℕ)) = 1000 by norm_num]
  field_simp
  linarith [hcast, habs]

theorem round3_nonneg {α : Type} [LinearOrderedField α] [FloorRing α]
    (q : α) (h : ¬ q < 0) : 0 ≤ round3 q := by
  rw [round3]
  apply Int.floor_nonneg.mpr
  have := not_lt.mp h
  linarith

theorem round3_nonpos {α : Type} [LinearOrderedField α] [FloorRing α]
    (q : α) (h : q < 0) : round3 q ≤ 0 := by
  rw [round3]
  have h1 : (1000 : α) * q + 1 / 2 < 1 := by nlinarith
  have h2 : ⌊(1000 : α) * q + 1 / 2⌋ < 1 := by
    rw [Int.floor_lt]
    exact_mod_cast h1
  omega

/-- Parsing back a formatNum rendering yields exactly the rounded
thousandths. -/
theorem parseDecimal_formatNum {α : Type} [LinearOrderedField α]
    [FloorRing α] (q : α) :
    parseDecimal (formatNum q) = ((round3 q : ℤ) : ℚ) / 1000 := by
  by_cases hq : q < 0
  · rw [formatNum_neg_eq q hq, parseDecimal_neg_head,
      parseUnsignedDec_digits_dot _ _ (natDigits_spec _).2.1
        (pad3_spec _ (Nat.mod_lt _ (by norm_num))).1,
      (natDigits_spec _).2.2,
      (pad3_spec _ (Nat.mod_lt _ (by norm_num))).2.1,
      show (pad3 ((round3 q).natAbs % 1000)).length = 3 from rfl,
      natAbs_div_mod_cast_neg _ (round3_nonpos q hq)]
    ring
  · rw [formatNum_nonneg_eq q hq]
    have hhead : ∃ d D2, natDigits ((round3 q).natAbs / 1000) = d :: D2 := by
      cases hD : natDigits ((round3 q).natAbs / 1000) with
      | nil => exact absurd hD (natDigits_spec _).1
      | cons d D2 => exact ⟨d, D2, rfl⟩
    obtain ⟨d, D2, hD⟩ := hhead
    have hdd : d.isDigit = true := by
      apply (natDigits_spec ((round3 q).natAbs / 1000)).2.1
      rw [hD]
      simp
    have hdne : d ≠ '-' := by
      intro h0
      rw [h0] at hdd
      exact absurd hdd (by decide)
    rw [hD, List.cons_append, parseDecimal_cons_ne _ _ hdne,
      ← List.cons_append, ← hD,
      parseUnsignedDec_digits_dot _ _ (natDigits_spec _).2.1
        (pad3_spec _ (Nat.mod_lt _ (by norm_num))).1,
      (natDigits_spec _).2.2,
      (pad3_spec _ (Nat.mod_lt _ (by norm_num))).2.1,
      show (pad3 ((round3 q).natAbs % 1000)).length = 3 from rfl,
      natAbs_div_mod_cast _ (round3_nonneg q hq)]

theorem pad3_ne_nil (f : ℕ) : pad3 f ≠ [] := by
  rw [pad3]
  simp

/-- Matching the number regex against a formatNum rendering followed by a
non-digit captures exactly the rendering. -/
theorem matchNum_formatNum {α : Type} [LinearOrderedField α] [FloorRing α]
    (q : α) (rest : List Char)
    (hrest : rest.head?.elim True (fun c => c.isDigit = false)) :
    matchNum (formatNum q ++ rest) = some (formatNum q) := by
  by_cases hq : q < 0
  · rw [formatNum_neg_eq q hq, List.cons_append]
    show (matchUnsigned ((natDigits ((round3 q).natAbs / 1000) ++
        '.' :: pad3 ((round3 q).natAbs % 1000)) ++ rest)).map
      (fun s => '-' :: s) = _
    rw [List.append_assoc, List.cons_append,
      matchUnsigned_digits_dot _ _ rest (natDigits_spec _).2.1
        (pad3_spec _ (Nat.mod_lt _ (by norm_num))).1 (pad3_ne_nil _) hrest]
    rfl
  · rw [formatNum_nonneg_eq q hq]
    have hhead : ∃ d D2, natDigits ((round3 q).natAbs / 1000) = d :: D2 := by
      cases hD : natDigits ((round3 q).natAbs / 1000) with
      | nil => exact absurd hD (natDigits_spec _).1
      | cons d D2 => exact ⟨d, D2, rfl⟩
    obtain ⟨d, D2, hD⟩ := hhead
    have hdd : d.isDigit = true := by
      apply (natDigits_spec ((round3 q).natAbs / 1000)).2.1
      rw [hD]
      simp
    have hdne : d ≠ '-' := by
      intro h0
      rw [h0] at hdd
      exact absurd hdd (by decide)
    rw [hD, List.cons_append, List.cons_append, matchNum_cons_ne _ _ hdne,
      ← List.cons_append, ← List.cons_append, ← hD, List.append_assoc,
      List.cons_append,
      matchUnsigned_digits_dot _ _ rest (natDigits_spec _).2.1
        (pad3_spec _ (Nat.mod_lt _ (by norm_num))).1 (pad3_ne_nil _) hrest]

theorem joinNL_single (l : List Char) : joinNL [l] = l := by
  simp [joinNL, List.intercalate]

theorem joinNL_cons_cons (l m : List Char) (ls : List (List Char)) :
    joinNL (l :: m :: ls) = l ++ '\n' :: joinNL (m :: ls) := by
  rw [joinNL, joinNL, List.intercalate, List.intercalate,
    List.intersperse_cons_cons, List.flatten_cons, List.flatten_cons,
    List.singleton_append]

theorem mem_of_getLast?_eq (l : List Char) (a : Char)
    (h : l.getLast? = some a) : a ∈ l := by
  induction l with
  | nil => simp at h
  | cons b bs ih =>
    cases bs with
    | nil =>
      simp only [List.getLast?_singleton, Option.some.injEq] at h
      simp [h]
    | cons c cs =>
      rw [List.getLast?_cons_cons] at h
      exact List.mem_cons_of_mem _ (ih h)

theorem stripCR_eq_self (l : List Char) (h : '\r' ∉ l) : stripCR l = l := by
  rw [stripCR.eq_def]
  split
  · rename_i heq
    exact absurd (mem_of_getLast?_eq l _ heq) h
  · rfl

theorem splitNLAux_no_nl (l : List Char) (hl : '\n' ∉ l) :
    ∀ acc, splitNLAux acc l = [stripCR (acc.reverse ++ l)] := by
  induction l with
  | nil =>
    intro acc
    rw [splitNLAux, List.append_nil]
  | cons c cs ih =>
    intro acc
    have hc : ¬ c = '\n' := fun h0 => hl (h0 ▸ List.mem_cons_self c cs)
    rw [splitNLAux, if_neg hc,
      ih (fun h0 => hl (List.mem_cons_of_mem _ h0)) (c :: acc),
      List.reverse_cons, List.append_assoc, List.singleton_append]

theorem splitNLAux_mid (l rest : List Char) (hl : '\n' ∉ l) :
    ∀ acc, splitNLAux acc (l ++ '\n' :: rest) =
      stripCR (acc.reverse ++ l) :: splitNLAux [] rest := by
  induction l with
  | nil =>
    intro acc
    rw [List.nil_append, splitNLAux, if_pos rfl, List.append_nil]
  | cons c cs ih =>
    intro acc
    have hc : ¬ c = '\n' := fun h0 => hl (h0 ▸ List.mem_cons_self c cs)
    rw [List.cons_append, splitNLAux, if_neg hc,
      ih (fun h0 => hl (List.mem_cons_of_mem _ h0)) (c :: acc),
      List.reverse_cons, List.append_assoc, List.singleton_append]

/-- Splitting on newlines undoes joining with newlines, for nonempty line
lists free of embedded newlines and carriage returns. -/
theorem splitNL_joinNL (ls : List (List Char)) (hne : ls ≠ [])
    (h : ∀ l ∈ ls, '\n' ∉ l ∧ '\r' ∉ l) : splitNL (joinNL ls) = ls := by
  induction ls with
  | nil => exact absurd rfl hne
  | cons l ls2 ih =>
    cases ls2 with
    | nil =>
      rw [joinNL_single, splitNL, splitNLAux_no_nl l (h l (by simp)).1 [],
        List.reverse_nil, List.nil_append,
        stripCR_eq_self l (h l (by simp)).2]
    | cons m ls3 =>
      rw [joinNL_cons_cons, splitNL, splitNLAux_mid l _ (h l (by simp)).1 [],
        List.reverse_nil, List.nil_append,
        stripCR_eq_self l (h l (by simp)).2]
      have ih2 := ih (by simp)
        (fun u hu => h u (List.mem_cons_of_mem _ hu))
      rw [splitNL] at ih2
      rw [ih2]

theorem ws_char_facts (c : Char) (h : c.isWhitespace = true) :
    c ≠ ';' ∧ c ≠ '(' := by
  rw [Char.isWhitespace] at h
  simp only [Bool.or_eq_true, decide_eq_true_eq] at h
  rcases h with ((rfl | rfl) | rfl) | rfl <;> exact ⟨by decide, by decide⟩

/-- A comment-free line whose core has non-whitespace ends and no
semicolon or parenthesis is left unchanged by comment stripping and
trimming. -/
theorem processedLine_core_plain (core : List Char)
    (hcs : ∀ c ∈ core, c ≠ ';') (hcp : ∀ c ∈ core, c ≠ '(')
    (hh : core.head?.elim False (fun c => c.isWhitespace = false))
    (hl : core.getLast?.elim False (fun c => c.isWhitespace = false)) :
    processedLine core = core := by
  rw [processedLine, stripSemi_no_semi core hcs,
    removeParens_no_paren core hcp]
  have h2 := jsTrim_core_tail core [] hh hl (by simp)
  rw [List.append_nil] at h2
  exact h2

/-- A line of the form core, whitespace, semicolon comment processes to
its core. -/
theorem processedLine_core_comment (core ws comment : List Char)
    (hcs : ∀ c ∈ core, c ≠ ';') (hcp : ∀ c ∈ core, c ≠ '(')
    (hh : core.head?.elim False (fun c => c.isWhitespace = false))
    (hl : core.getLast?.elim False (fun c => c.isWhitespace = false))
    (hws : ∀ c ∈ ws, c.isWhitespace = true) :
    processedLine (core ++ (ws ++ ';' :: comment)) = core := by
  rw [processedLine,
    stripSemi_append core _ hcs,
    stripSemi_append ws _ (fun c hc => (ws_char_facts c (hws c hc)).1),
    stripSemi_semi, List.append_nil,
    removeParens_no_paren _ (by
      intro c hc
      rcases List.mem_append.mp hc with h1 | h1
      · exact hcp c h1
      · exact (ws_char_facts c (hws c h1)).2)]
  exact jsTrim_core_tail core ws hh hl hws

/-- A line starting with a semicolon processes to the empty line. -/
theorem processedLine_semi_head (l : List Char) :
    processedLine (';' :: l) = [] := by
  rw [processedLine, stripSemi_semi]
  rfl

theorem parseAux_step_empty (sf : ℚ) (raw : List Char)
    (rest : List (List Char)) (lx ly : Option ℚ)
    (h : processedLine raw = []) :
    parseGCodeAux sf (raw :: rest) lx ly = parseGCodeAux sf rest lx ly := by
  rw [parseGCodeAux]
  split_ifs with h1 h2 <;> first | rfl | exact absurd h h1

theorem parseAux_step_skip (sf : ℚ) (raw : List Char)
    (rest : List (List Char)) (lx ly : Option ℚ)
    (h : (testGNum (processedLine raw) ||
      (processedLine raw).any isXChar ||
      (processedLine raw).any isYChar) = false) :
    parseGCodeAux sf (raw :: rest) lx ly = parseGCodeAux sf rest lx ly := by
  rw [parseGCodeAux]
  split_ifs with h1 h2 <;>
    first
    | rfl
    | (rw [h] at h2
       exact absurd h2 (by decide))

theorem parseAux_step_motion_nofield_none (sf : ℚ) (raw : List Char)
    (rest : List (List Char)) (ly : Option ℚ)
    (h1 : processedLine raw ≠ [])
    (h2 : (testGNum (processedLine raw) ||
      (processedLine raw).any isXChar ||
      (processedLine raw).any isYChar) = true)
    (hx : findFieldNum isXChar (processedLine raw) = none)
    (hy : findFieldNum isYChar (processedLine raw) = none) :
    parseGCodeAux sf (raw :: rest) none ly =
      parseGCodeAux sf rest none ly := by
  rw [parseGCodeAux]
  split_ifs with ha hb <;>
    first
    | exact absurd ha h1
    | rw [hx, hy]
    | (rw [h2] at hb
       exact absurd rfl hb)

theorem parseAux_step_motion_nofield_some (sf : ℚ) (raw : List Char)
    (rest : List (List Char)) (x y : ℚ)
    (h1 : processedLine raw ≠ [])
    (h2 : (testGNum (processedLine raw) ||
      (processedLine raw).any isXChar ||
      (processedLine raw).any isYChar) = true)
    (hx : findFieldNum isXChar (processedLine raw) = none)
    (hy : findFieldNum isYChar (processedLine raw) = none) :
    parseGCodeAux sf (raw :: rest) (some x) (some y) =
      ⟨x / sf, -y / sf⟩ :: parseGCodeAux sf rest (some x) (some y) := by
  rw [parseGCodeAux]
  split_ifs with ha hb <;>
    first
    | exact absurd ha h1
    | rw [hx, hy]
    | (rw [h2] at hb
       exact absurd rfl hb)

theorem parseAux_step_motion_xy (sf : ℚ) (raw : List Char)
    (rest : List (List Char)) (lx ly : Option ℚ) (xs ys : List Char)
    (h1 : processedLine raw ≠ [])
    (h2 : (testGNum (processedLine raw) ||
      (processedLine raw).any isXChar ||
      (processedLine raw).any isYChar) = true)
    (hx : findFieldNum isXChar (processedLine raw) = some xs)
    (hy : findFieldNum isYChar (processedLine raw) = some ys) :
    parseGCodeAux sf (raw :: rest) lx ly =
      ⟨parseDecimal xs / sf, -(parseDecimal ys) / sf⟩ ::
        parseGCodeAux sf rest (some (parseDecimal xs))
          (some (parseDecimal ys)) := by
  rw [parseGCodeAux]
  split_ifs with ha hb <;>
    first
    | exact absurd ha h1
    | rw [hx, hy]
    | (rw [h2] at hb
       exact absurd rfl hb)

theorem findFieldNum_found (p : Char → Bool) (c : Char) (rest s : List Char)
    (hc : p c = true) (hm : matchNum rest = some s) :
    findFieldNum p (c :: rest) = some s := by
  rw [findFieldNum, if_pos hc, hm]

theorem matchNum_formatNum_nil {α : Type} [LinearOrderedField α]
    [FloorRing α] (q : α) : matchNum (formatNum q) = some (formatNum q) := by
  have h := matchNum_formatNum q [] (by simp)
  rw [List.append_nil] at h
  exact h

theorem testGNum_G (c2 : Char) (l : List Char) (h : c2.isDigit = true) :
    testGNum ('G' :: c2 :: l) = true := by
  rw [testGNum, show isGChar 'G' = true from rfl, h]
  rfl

theorem cond_true_of_testGNum (l : List Char) (h : testGNum l = true) :
    (testGNum l || l.any isXChar || l.any isYChar) = true := by
  rw [h]
  rfl

theorem cond_false_of_chars (l : List Char)
    (hg : ∀ c ∈ l, isGChar c = false) (hx : ∀ c ∈ l, isXChar c = false)
    (hy : ∀ c ∈ l, isYChar c = false) :
    (testGNum l || l.any isXChar || l.any isYChar) = false := by
  have h1 : l.any isXChar = false := by
    rw [List.any_eq_false]
    intro c hc
    rw [hx c hc]
    simp
  have h2 : l.any isYChar = false := by
    rw [List.any_eq_false]
    intro c hc
    rw [hy c hc]
    simp
  rw [testGNum_eq_false l hg, h1, h2]
  rfl

theorem formatNum_ne_nil {α : Type} [LinearOrderedField α] [FloorRing α]
    (q : α) : formatNum q ≠ [] := by
  by_cases hq : q < 0
  · rw [formatNum_neg_eq q hq]
    exact List.cons_ne_nil _ _
  · rw [formatNum_nonneg_eq q hq]
    intro h0
    rcases List.append_eq_nil.mp h0 with ⟨-, h2⟩
    exact List.cons_ne_nil _ _ h2

theorem formatNum_getLast? {α : Type} [LinearOrderedField α] [FloorRing α]
    (q : α) : (formatNum q).getLast? =
      some (digitChar ((round3 q).natAbs % 1000 % 10)) := by
  have hpad : ('.' :: pad3 ((round3 q).natAbs % 1000)).getLast? =
      some (digitChar ((round3 q).natAbs % 1000 % 10)) := by
    rw [pad3]
    rfl
  by_cases hq : q < 0
  · rw [formatNum_neg_eq q hq,
      getLast?_cons_of_ne_nil _ _ (by
        intro h0
        rcases List.append_eq_nil.mp h0 with ⟨-, h2⟩
        exact List.cons_ne_nil _ _ h2),
      List.getLast?_append_of_ne_nil _ (List.cons_ne_nil _ _), hpad]
  · rw [formatNum_nonneg_eq q hq,
      List.getLast?_append_of_ne_nil _ (List.cons_ne_nil _ _), hpad]

theorem formatNum_getLast_not_ws {α : Type} [LinearOrderedField α]
    [FloorRing α] (q : α) :
    (formatNum q).getLast?.elim False (fun c => c.isWhitespace = false) := by
  rw [formatNum_getLast?]
  exact (isDigit_char_facts _
    (digitChar_isDigit _ (Nat.mod_lt _ (by norm_num)))).2.2.2.2.2.2.2.2

theorem formatNum_head_not_ws {α : Type} [LinearOrderedField α]
    [FloorRing α] (q : α) :
    (formatNum q).head?.elim False (fun c => c.isWhitespace = false) := by
  by_cases hq : q < 0
  · rw [formatNum_neg_eq q hq]
    exact (by decide : ('-').isWhitespace = false)
  · rw [formatNum_nonneg_eq q hq]
    cases hD : natDigits ((round3 q).natAbs / 1000) with
    | nil => exact absurd hD (natDigits_spec _).1
    | cons d D2 =>
      rw [List.cons_append, List.head?_cons]
      exact (isDigit_char_facts d
        ((natDigits_spec _).2.1 d (by rw [hD]; simp))).2.2.2.2.2.2.2.2

theorem formatNum_not_nl {α : Type} [LinearOrderedField α] [FloorRing α]
    (q : α) : '\n' ∉ formatNum q := fun h0 =>
  (numChar_facts _ (formatNum_numChar q _ h0)).2.2.2.2.2.1 rfl

theorem formatNum_not_cr {α : Type} [LinearOrderedField α] [FloorRing α]
    (q : α) : '\r' ∉ formatNum q := fun h0 =>
  (numChar_facts _ (formatNum_numChar q _ h0)).2.2.2.2.2.2.1 rfl

theorem formatNum_char_facts (q : ℚ) : ∀ c ∈ formatNum q,
    c ≠ ';' ∧ c ≠ '(' ∧ isXChar c = false ∧ isYChar c = false ∧
      isGChar c = false := by
  intro c hc
  have h := numChar_facts c (formatNum_numChar q c hc)
  exact ⟨h.2.2.2.2.1, h.2.2.2.2.2.2.2.1, h.1, h.2.1, h.2.2.1⟩

theorem g0z_chars : ∀ c ∈ ("G0 Z".data : List Char),
    c ≠ ';' ∧ c ≠ '(' ∧ isXChar c = false ∧ isYChar c = false := by
  decide

theorem g1z_chars : ∀ c ∈ ("G1 Z".data : List Char),
    c ≠ ';' ∧ c ≠ '(' ∧ isXChar c = false ∧ isYChar c = false := by
  decide

theorem sF_chars : ∀ c ∈ (" F".data : List Char),
    c ≠ ';' ∧ c ≠ '(' ∧ isXChar c = false ∧ isYChar c = false := by
  decide

theorem g0x_chars : ∀ c ∈ ("G0 X".data : List Char),
    c ≠ ';' ∧ c ≠ '(' := by
  decide

theorem g1x_chars : ∀ c ∈ ("G1 X".data : List Char),
    c ≠ ';' ∧ c ≠ '(' := by
  decide

theorem sY_chars : ∀ c ∈ (" Y".data : List Char),
    c ≠ ';' ∧ c ≠ '(' := by
  decide

/-- Facts about the safe-height / retract line G0 Z[h] ; [comment]. -/
theorem lineZ_facts (g : ℚ) (C : List Char) :
    processedLine ("G0 Z".data ++ formatNum g ++ (' ' :: ';' :: C)) =
        "G0 Z".data ++ formatNum g ∧
      "G0 Z".data ++ formatNum g ≠ [] ∧
      (testGNum ("G0 Z".data ++ formatNum g) ||
        ("G0 Z".data ++ formatNum g).any isXChar ||
        ("G0 Z".data ++ formatNum g).any isYChar) = true ∧
      findFieldNum isXChar ("G0 Z".data ++ formatNum g) = none ∧
      findFieldNum isYChar ("G0 Z".data ++ formatNum g) = none := by
  have hsemi : ∀ c ∈ "G0 Z".data ++ formatNum g, c ≠ ';' := by
    intro c hc
    rcases List.mem_append.mp hc with h1 | h1
    · exact (g0z_chars c h1).1
    · exact (formatNum_char_facts g c h1).1
  have hparen : ∀ c ∈ "G0 Z".data ++ formatNum g, c ≠ '(' := by
    intro c hc
    rcases List.mem_append.mp hc with h1 | h1
    · exact (g0z_chars c h1).2.1
    · exact (formatNum_char_facts g c h1).2.1
  have hh : ("G0 Z".data ++ formatNum g).head?.elim False
      (fun c => c.isWhitespace = false) :=
    (by decide : ('G').isWhitespace = false)
  have hl : ("G0 Z".data ++ formatNum g).getLast?.elim False
      (fun c => c.isWhitespace = false) := by
    rw [List.getLast?_append_of_ne_nil _ (formatNum_ne_nil g)]
    exact formatNum_getLast_not_ws g
  refine ⟨?_, ?_, ?_, ?_, ?_⟩
  · exact processedLine_core_comment _ [' '] C hsemi hparen hh hl (by decide)
  · intro h0
    exact absurd (List.append_eq_nil.mp h0).1 (by decide)
  · exact cond_true_of_testGNum _ (testGNum_G '0' _ (by decide))
  · refine findFieldNum_none _ _ ?_
    intro c hc
    rcases List.mem_append.mp hc with h1 | h1
    · exact (g0z_chars c h1).2.2.1
    · exact (formatNum_char_facts g c h1).2.2.1
  · refine findFieldNum_none _ _ ?_
    intro c hc
    rcases List.mem_append.mp hc with h1 | h1
    · exact (g0z_chars c h1).2.2.2
    · exact (formatNum_char_facts g c h1).2.2.2.1

/-- Facts about the plunge line G1 Z[d] F[f] ; [comment]. -/
theorem linePlunge_facts (d f : ℚ) (C : List Char) :
    processedLine ("G1 Z".data ++ formatNum d ++ " F".data ++ formatNum f ++
        (' ' :: ';' :: C)) =
        "G1 Z".data ++ formatNum d ++ " F".data ++ formatNum f ∧
      "G1 Z".data ++ formatNum d ++ " F".data ++ formatNum f ≠ [] ∧
      (testGNum ("G1 Z".data ++ formatNum d ++ " F".data ++ formatNum f) ||
        ("G1 Z".data ++ formatNum d ++ " F".data ++ formatNum f).any isXChar ||
        ("G1 Z".data ++ formatNum d ++ " F".data ++ formatNum f).any isYChar)
          = true ∧
      findFieldNum isXChar
        ("G1 Z".data ++ formatNum d ++ " F".data ++ formatNum f) = none ∧
      findFieldNum isYChar
        ("G1 Z".data ++ formatNum d ++ " F".data ++ formatNum f) = none := by
  have hmem : ∀ c ∈ "G1 Z".data ++ formatNum d ++ " F".data ++ formatNum f,
      c ≠ ';' ∧ c ≠ '(' ∧ isXChar c = false ∧ isYChar c = false := by
    intro c hc
    rcases List.mem_append.mp hc with h1 | h1
    · rcases List.mem_append.mp h1 with h2 | h2
      · rcases List.mem_append.mp h2 with h3 | h3
        · exact g1z_chars c h3
        · have h := formatNum_char_facts d c h3
          exact ⟨h.1, h.2.1, h.2.2.1, h.2.2.2.1⟩
      · exact sF_chars c h2
    · have h := formatNum_char_facts f c h1
      exact ⟨h.1, h.2.1, h.2.2.1, h.2.2.2.1⟩
  have hh : ("G1 Z".data ++ formatNum d ++ " F".data ++
      formatNum f).head?.elim False (fun c => c.isWhitespace = false) :=
    (by decide : ('G').isWhitespace = false)
  have hl : ("G1 Z".data ++ formatNum d ++ " F".data ++
      formatNum f).getLast?.elim False (fun c => c.isWhitespace = false) := by
    rw [List.getLast?_append_of_ne_nil _ (formatNum_ne_nil f)]
    exact formatNum_getLast_not_ws f
  refine ⟨?_, ?_, ?_, ?_, ?_⟩
  · exact processedLine_core_comment _ [' '] C (fun c hc => (hmem c hc).1)
      (fun c hc => (hmem c hc).2.1) hh hl (by decide)
  · intro h0
    rcases List.append_eq_nil.mp h0 with ⟨h1, -⟩
    rcases List.append_eq_nil.mp h1 with ⟨h2, -⟩
    exact absurd (List.append_eq_nil.mp h2).1 (by decide)
  · exact cond_true_of_testGNum _ (testGNum_G '1' _ (by decide))
  · exact findFieldNum_none _ _ (fun c hc => (hmem c hc).2.2.1)
  · exact findFieldNum_none _ _ (fun c hc => (hmem c hc).2.2.2)

/-- Facts about the first positioning line G0 X[a] Y[b] (no comment). -/
theorem lineXY0_facts (a b : ℚ) :
    processedLine ("G0 X".data ++ formatNum a ++ " Y".data ++ formatNum b) =
        "G0 X".data ++ formatNum a ++ " Y".data ++ formatNum b ∧
      "G0 X".data ++ formatNum a ++ " Y".data ++ formatNum b ≠ [] ∧
      (testGNum ("G0 X".data ++ formatNum a ++ " Y".data ++ formatNum b) ||
        ("G0 X".data ++ formatNum a ++ " Y".data ++ formatNum b).any isXChar ||
        ("G0 X".data ++ formatNum a ++ " Y".data ++ formatNum b).any isYChar)
          = true ∧
      findFieldNum isXChar
        ("G0 X".data ++ formatNum a ++ " Y".data ++ formatNum b) =
          some (formatNum a) ∧
      findFieldNum isYChar
        ("G0 X".data ++ formatNum a ++ " Y".data ++ formatNum b) =
          some (formatNum b) := by
  have hmem : ∀ c ∈ "G0 X".data ++ formatNum a ++ " Y".data ++ formatNum b,
      c ≠ ';' ∧ c ≠ '(' := by
    intro c hc
    rcases List.mem_append.mp hc with h1 | h1
    · rcases List.mem_append.mp h1 with h2 | h2
      · rcases List.mem_append.mp h2 with h3 | h3
        · exact g0x_chars c h3
        · have h := formatNum_char_facts a c h3
          exact ⟨h.1, h.2.1⟩
      · exact sY_chars c h2
    · have h := formatNum_char_facts b c h1
      exact ⟨h.1, h.2.1⟩
  have hh : ("G0 X".data ++ formatNum a ++ " Y".data ++
      formatNum b).head?.elim False (fun c => c.isWhitespace = false) :=
    (by decide : ('G').isWhitespace = false)
  have hl : ("G0 X".data ++ formatNum a ++ " Y".data ++
      formatNum b).getLast?.elim False (fun c => c.isWhitespace = false) := by
    rw [List.getLast?_append_of_ne_nil _ (formatNum_ne_nil b)]
    exact formatNum_getLast_not_ws b
  have ex : "G0 X".data ++ formatNum a ++ " Y".data ++ formatNum b =
      ['G', '0', ' '] ++ ('X' :: (formatNum a ++ (' ' :: 'Y' :: formatNum b)))
      := by
    simp only [List.append_assoc]
    rfl
  have ey : "G0 X".data ++ formatNum a ++ " Y".data ++ formatNum b =
      ['G', '0', ' ', 'X'] ++ (formatNum a ++ ([' '] ++
        ('Y' :: formatNum b))) := by
    simp only [List.append_assoc]
    rfl
  refine ⟨?_, ?_, ?_, ?_, ?_⟩
  · exact processedLine_core_plain _ (fun c hc => (hmem c hc).1)
      (fun c hc => (hmem c hc).2) hh hl
  · intro h0
    rcases List.append_eq_nil.mp h0 with ⟨h1, -⟩
    rcases List.append_eq_nil.mp h1 with ⟨h2, -⟩
    exact absurd (List.append_eq_nil.mp h2).1 (by decide)
  · exact cond_true_of_testGNum _ (testGNum_G '0' _ (by decide))
  · rw [ex, findFieldNum_append_skip _ _ _ (by decide)]
    refine findFieldNum_found _ _ _ _ (by decide) ?_
    refine matchNum_formatNum a _ ?_
    simp only [List.head?_cons, Option.elim_some]
    decide
  · rw [ey, findFieldNum_append_skip _ _ _ (by decide),
      findFieldNum_append_skip _ _ _
        (fun c hc => (formatNum_char_facts a c hc).2.2.2.1),
      findFieldNum_append_skip _ _ _ (by decide)]
    exact findFieldNum_found _ _ _ _ (by decide) (matchNum_formatNum_nil b)

/-- Facts about a cutting-move line G1 X[a] Y[b] F[f] (no comment). -/
theorem lineG1_facts (cfg : MachineConfig) (p : Pt) :
    processedLine (g1Line cfg p) = g1Line cfg p ∧
      g1Line cfg p ≠ [] ∧
      (testGNum (g1Line cfg p) || (g1Line cfg p).any isXChar ||
        (g1Line cfg p).any isYChar) = true ∧
      findFieldNum isXChar (g1Line cfg p) =
        some (formatNum (p.x * cfg.scaleFactor)) ∧
      findFieldNum isYChar (g1Line cfg p) =
        some (formatNum (-p.y * cfg.scaleFactor)) := by
  simp only [g1Line]
  have hmem : ∀ c ∈ "G1 X".data ++ formatNum (p.x * cfg.scaleFactor) ++
      " Y".data ++ formatNum (-p.y * cfg.scaleFactor) ++ " F".data ++
      formatNum cfg.feedRate, c ≠ ';' ∧ c ≠ '(' := by
    intro c hc
    rcases List.mem_append.mp hc with h1 | h1
    · rcases List.mem_append.mp h1 with h2 | h2
      · rcases List.mem_append.mp h2 with h3 | h3
        · rcases List.mem_append.mp h3 with h4 | h4
          · rcases List.mem_append.mp h4 with h5 | h5
            · exact g1x_chars c h5
            · have h := formatNum_char_facts (p.x * cfg.scaleFactor) c h5
              exact ⟨h.1, h.2.1⟩
          · exact sY_chars c h4
        · have h := formatNum_char_facts (-p.y * cfg.scaleFactor) c h3
          exact ⟨h.1, h.2.1⟩
      · exact ⟨(sF_chars c h2).1, (sF_chars c h2).2.1⟩
    · have h := formatNum_char_facts cfg.feedRate c h1
      exact ⟨h.1, h.2.1⟩
  have hh : ("G1 X".data ++ formatNum (p.x * cfg.scaleFactor) ++ " Y".data ++
      formatNum (-p.y * cfg.scaleFactor) ++ " F".data ++
      formatNum cfg.feedRate).head?.elim False
        (fun c => c.isWhitespace = false) :=
    (by decide : ('G').isWhitespace = false)
  have hl : ("G1 X".data ++ formatNum (p.x * cfg.scaleFactor) ++ " Y".data ++
      formatNum (-p.y * cfg.scaleFactor) ++ " F".data ++
      formatNum cfg.feedRate).getLast?.elim False
        (fun c => c.isWhitespace = false) := by
    rw [List.getLast?_append_of_ne_nil _ (formatNum_ne_nil cfg.feedRate)]
    exact formatNum_getLast_not_ws cfg.feedRate
  have ex : "G1 X".data ++ formatNum (p.x * cfg.scaleFactor) ++ " Y".data ++
      formatNum (-p.y * cfg.scaleFactor) ++ " F".data ++
      formatNum cfg.feedRate =
      ['G', '1', ' '] ++ ('X' :: (formatNum (p.x * cfg.scaleFactor) ++
        (' ' :: 'Y' :: (formatNum (-p.y * cfg.scaleFactor) ++
          (' ' :: 'F' :: formatNum cfg.feedRate))))) := by
    simp only [List.append_assoc]
    rfl
  have ey : "G1 X".data ++ formatNum (p.x * cfg.scaleFactor) ++ " Y".data ++
      formatNum (-p.y * cfg.scaleFactor) ++ " F".data ++
      formatNum cfg.feedRate =
      ['G', '1', ' ', 'X'] ++ (formatNum (p.x * cfg.scaleFactor) ++
        ([' '] ++ ('Y' :: (formatNum (-p.y * cfg.scaleFactor) ++
          (' ' :: 'F' :: formatNum cfg.feedRate))))) := by
    simp only [List.append_assoc]
    rfl
  refine ⟨?_, ?_, ?_, ?_, ?_⟩
  · exact processedLine_core_plain _ (fun c hc => (hmem c hc).1)
      (fun c hc => (hmem c hc).2) hh hl
  · intro h0
    rcases List.append_eq_nil.mp h0 with ⟨h1, -⟩
    rcases List.append_eq_nil.mp h1 with ⟨h2, -⟩
    rcases List.append_eq_nil.mp h2 with ⟨h3, -⟩
    rcases List.append_eq_nil.mp h3 with ⟨h4, -⟩
    exact absurd (List.append_eq_nil.mp h4).1 (by decide)
  · exact cond_true_of_testGNum _ (testGNum_G '1' _ (by decide))
  · rw [ex, findFieldNum_append_skip _ _ _ (by decide)]
    refine findFieldNum_found _ _ _ _ (by decide) ?_
    refine matchNum_formatNum (p.x * cfg.scaleFactor) _ ?_
    simp only [List.head?_cons, Option.elim_some]
    decide
  · rw [ey, findFieldNum_append_skip _ _ _ (by decide),
      findFieldNum_append_skip _ _ _
        (fun c hc =>
          (formatNum_char_facts (p.x * cfg.scaleFactor) c hc).2.2.2.1),
      findFieldNum_append_skip _ _ _ (by decide)]
    refine findFieldNum_found _ _ _ _ (by decide) ?_
    refine matchNum_formatNum (-p.y * cfg.scaleFactor) _ ?_
    simp only [List.head?_cons, Option.elim_some]
    decide

/-- Facts about the rapid-feed header line F[r] ; [comment]: it is not a
motion line and carries no X or Y field. -/
theorem lineF_facts (r : ℚ) (C : List Char) :
    processedLine ('F' :: (formatNum r ++ (' ' :: ';' :: C))) =
        'F' :: formatNum r ∧
      (testGNum ('F' :: formatNum r) ||
        ('F' :: formatNum r).any isXChar ||
        ('F' :: formatNum r).any isYChar) = false := by
  have hmem : ∀ c ∈ ('F' :: formatNum r),
      c ≠ ';' ∧ c ≠ '(' ∧ isXChar c = false ∧ isYChar c = false ∧
        isGChar c = false := by
    intro c hc
    rcases List.mem_cons.mp hc with rfl | h1
    · exact ⟨by decide, by decide, by decide, by decide, by decide⟩
    · exact formatNum_char_facts r c h1
  constructor
  · exact processedLine_core_comment ('F' :: formatNum r) [' '] C
      (fun c hc => (hmem c hc).1) (fun c hc => (hmem c hc).2.1)
      (by decide : ('F').isWhitespace = false)
      (by
        rw [getLast?_cons_of_ne_nil _ _ (formatNum_ne_nil r)]
        exact formatNum_getLast_not_ws r)
      (by decide)
  · exact cond_false_of_chars _ (fun c hc => (hmem c hc).2.2.2.2)
      (fun c hc => (hmem c hc).2.2.1) (fun c hc => (hmem c hc).2.2.2.1)

/-- Facts about the unit header line G20/G21 ; Unit: ... . -/
theorem lineUnit_facts (u : UnitKind) :
    processedLine (unitCode u ++ "   ; Unit: ".data ++ unitName u) =
        unitCode u ∧
      unitCode u ≠ [] ∧
      (testGNum (unitCode u) || (unitCode u).any isXChar ||
        (unitCode u).any isYChar) = true ∧
      findFieldNum isXChar (unitCode u) = none ∧
      findFieldNum isYChar (unitCode u) = none := by
  cases u <;> exact ⟨by decide, by decide, by decide, by decide, by decide⟩

/-- The generated line list for a nonempty polyline, written out as one
cons chain. -/
theorem genLines_cons (cfg : MachineConfig) (ts : List Char) (p0 : Pt)
    (tl : List Pt) :
    genLines cfg ts (p0 :: tl) =
      "; TangentCNC G-code".data ::
      ("; Generated: ".data ++ ts) ::
      ("; Units: ".data ++ unitName cfg.unit) ::
      ("; Scale: ".data ++ ratRepr cfg.scaleFactor ++
        " (canvas pixels to ".data ++ unitName cfg.unit ++ ")".data) ::
      "G90    ; Absolute positioning".data ::
      (unitCode cfg.unit ++ "   ; Unit: ".data ++ unitName cfg.unit) ::
      "G17    ; XY plane".data ::
      ('F' :: (formatNum cfg.rapidRate ++ " ; Rapid feed rate".data)) ::
      ("G0 Z".data ++ formatNum cfg.safeHeight ++ " ; Safe height".data) ::
      ("G0 X".data ++ formatNum (p0.x * cfg.scaleFactor) ++ " Y".data ++
        formatNum (-p0.y * cfg.scaleFactor)) ::
      ("G1 Z".data ++ formatNum cfg.cutDepth ++ " F".data ++
        formatNum cfg.feedRate ++ " ; Plunge to cut depth".data) ::
      ((tl.map (g1Line cfg) ++
        ["G0 Z".data ++ formatNum cfg.safeHeight ++ " ; Retract".data]) ++
        ["M2     ; Program end".data]) := by
  rfl

theorem ratRepr_chars (q : ℚ) : ∀ c ∈ ratRepr q, c ≠ '\n' ∧ c ≠ '\r' := by
  intro c hc
  rw [ratRepr] at hc
  rcases List.mem_append.mp hc with h1 | h1
  · rcases List.mem_append.mp h1 with h2 | h2
    · split_ifs at h2
      · rw [List.mem_singleton.mp h2]
        exact ⟨by decide, by decide⟩
      · exact absurd h2 (by simp)
    · have h := isDigit_char_facts c ((natDigits_spec _).2.1 c h2)
      exact ⟨h.2.2.2.2.2.1, h.2.2.2.2.2.2.1⟩
  · split_ifs at h1
    · exact absurd h1 (by simp)
    · rcases List.mem_cons.mp h1 with rfl | h2
      · exact ⟨by decide, by decide⟩
      · have h := isDigit_char_facts c ((natDigits_spec _).2.1 c h2)
        exact ⟨h.2.2.2.2.2.1, h.2.2.2.2.2.2.1⟩

theorem formatNum_nl_cr (q : ℚ) : '\n' ∉ formatNum q ∧ '\r' ∉ formatNum q :=
  ⟨formatNum_not_nl q, formatNum_not_cr q⟩

theorem unitName_chars (u : UnitKind) :
    '\n' ∉ unitName u ∧ '\r' ∉ unitName u := by
  cases u <;> exact ⟨by decide, by decide⟩

theorem not_nl_cr_append (l1 l2 : List Char)
    (h1 : '\n' ∉ l1 ∧ '\r' ∉ l1) (h2 : '\n' ∉ l2 ∧ '\r' ∉ l2) :
    '\n' ∉ l1 ++ l2 ∧ '\r' ∉ l1 ++ l2 := by
  constructor
  · intro h0
    rcases List.mem_append.mp h0 with h3 | h3
    · exact h1.1 h3
    · exact h2.1 h3
  · intro h0
    rcases List.mem_append.mp h0 with h3 | h3
    · exact h1.2 h3
    · exact h2.2 h3

/-- No generated line contains an embedded newline or carriage return,
provided the timestamp contains none. -/
theorem genLines_chars (cfg : MachineConfig) (ts : List Char) (p0 : Pt)
    (tl : List Pt) (hts1 : '\n' ∉ ts) (hts2 : '\r' ∉ ts) :
    ∀ l ∈ genLines cfg ts (p0 :: tl), '\n' ∉ l ∧ '\r' ∉ l := by
  intro l hl
  rw [genLines_cons] at hl
  rcases List.mem_cons.mp hl with rfl | hl
  · exact ⟨by decide, by decide⟩
  rcases List.mem_cons.mp hl with rfl | hl
  · exact not_nl_cr_append _ _ ⟨by decide, by decide⟩ ⟨hts1, hts2⟩
  rcases List.mem_cons.mp hl with rfl | hl
  · exact not_nl_cr_append _ _ ⟨by decide, by decide⟩ (unitName_chars _)
  rcases List.mem_cons.mp hl with rfl | hl
  · refine not_nl_cr_append _ _ (not_nl_cr_append _ _ (not_nl_cr_append _ _
      (not_nl_cr_append _ _ ⟨by decide, by decide⟩ ?_)
        ⟨by decide, by decide⟩) (unitName_chars _)) ⟨by decide, by decide⟩
    constructor
    · intro h0
      exact (ratRepr_chars _ _ h0).1 rfl
    · intro h0
      exact (ratRepr_chars _ _ h0).2 rfl
  rcases List.mem_cons.mp hl with rfl | hl
  · exact ⟨by decide, by decide⟩
  rcases List.mem_cons.mp hl with rfl | hl
  · refine not_nl_cr_append _ _ (not_nl_cr_append _ _ ?_
      ⟨by decide, by decide⟩) (unitName_chars _)
    cases cfg.unit <;> exact ⟨by decide, by decide⟩
  rcases List.mem_cons.mp hl with rfl | hl
  · exact ⟨by decide, by decide⟩
  rcases List.mem_cons.mp hl with rfl | hl
  · constructor
    · intro h0
      rcases List.mem_cons.mp h0 with h1 | h1
      · exact absurd h1 (by decide)
      · exact (not_nl_cr_append _ _ (formatNum_nl_cr _)
          ⟨by decide, by decide⟩).1 h1
    · intro h0
      rcases List.mem_cons.mp h0 with h1 | h1
      · exact absurd h1 (by decide)
      · exact (not_nl_cr_append _ _ (formatNum_nl_cr _)
          ⟨by decide, by decide⟩).2 h1
  rcases List.mem_cons.mp hl with rfl | hl
  · exact not_nl_cr_append _ _ (not_nl_cr_append _ _ ⟨by decide, by decide⟩
      (formatNum_nl_cr _)) ⟨by decide, by decide⟩
  rcases List.mem_cons.mp hl with rfl | hl
  · exact not_nl_cr_append _ _ (not_nl_cr_append _ _ (not_nl_cr_append _ _
      ⟨by decide, by decide⟩ (formatNum_nl_cr _)) ⟨by decide, by decide⟩)
      (formatNum_nl_cr _)
  rcases List.mem_cons.mp hl with rfl | hl
  · exact not_nl_cr_append _ _ (not_nl_cr_append _ _ (not_nl_cr_append _ _
      (not_nl_cr_append _ _ ⟨by decide, by decide⟩ (formatNum_nl_cr _))
      ⟨by decide, by decide⟩) (formatNum_nl_cr _)) ⟨by decide, by decide⟩
  rcases List.mem_append.mp hl with hl2 | hl2
  · rcases List.mem_append.mp hl2 with hl3 | hl3
    · obtain ⟨p, -, rfl⟩ := List.mem_map.mp hl3
      rw [g1Line]
      exact not_nl_cr_append _ _ (not_nl_cr_append _ _ (not_nl_cr_append _ _
        (not_nl_cr_append _ _ (not_nl_cr_append _ _ ⟨by decide, by decide⟩
        (formatNum_nl_cr _)) ⟨by decide, by decide⟩) (formatNum_nl_cr _))
        ⟨by decide, by decide⟩) (formatNum_nl_cr _)
    · rw [List.mem_singleton.mp hl3]
      exact not_nl_cr_append _ _ (not_nl_cr_append _ _
        ⟨by decide, by decide⟩ (formatNum_nl_cr _)) ⟨by decide, by decide⟩
  · rw [List.mem_singleton.mp hl2]
    exact ⟨by decide, by decide⟩

theorem pdPush_eq_rtPt (cfg : MachineConfig) (p : Pt) :
    (⟨parseDecimal (formatNum (p.x * cfg.scaleFactor)) / cfg.scaleFactor,
      -(parseDecimal (formatNum (-p.y * cfg.scaleFactor))) /
        cfg.scaleFactor⟩ : Pt) = rtPt cfg p := by
  rw [rtPt, parseDecimal_formatNum, parseDecimal_formatNum]

theorem getLastD_map (f : Pt → ℚ) (l : List Pt) :
    ∀ a, (l.map f).getLastD (f a) = f (l.getLastD a) := by
  induction l with
  | nil => intro a; rfl
  | cons b l2 ih =>
    intro a
    rw [List.map_cons, List.getLastD_cons, List.getLastD_cons]
    exact ih b

/-- Parsing the block of cutting-move lines: each line emits one sample
and updates the modal X and Y state. -/
theorem parseAux_g1_block (cfg : MachineConfig) (tl : List Pt)
    (after : List (List Char)) :
    ∀ x y : ℚ, parseGCodeAux cfg.scaleFactor (tl.map (g1Line cfg) ++ after)
        (some x) (some y) =
      tl.map (rtPt cfg) ++ parseGCodeAux cfg.scaleFactor after
        (some ((tl.map (pdX cfg)).getLastD x))
        (some ((tl.map (pdY cfg)).getLastD y)) := by
  induction tl with
  | nil => intro x y; rfl
  | cons p tl2 ih =>
    intro x y
    obtain ⟨hg1, hg2, hg3, hg4, hg5⟩ := lineG1_facts cfg p
    rw [List.map_cons, List.cons_append,
      parseAux_step_motion_xy cfg.scaleFactor (g1Line cfg p) _ _ _ _ _
        (by rw [hg1]; exact hg2) (by rw [hg1]; exact hg3)
        (by rw [hg1]; exact hg4) (by rw [hg1]; exact hg5),
      ih (parseDecimal (formatNum (p.x * cfg.scaleFactor)))
        (parseDecimal (formatNum (-p.y * cfg.scaleFactor))),
      pdPush_eq_rtPt cfg p, List.map_cons, List.cons_append,
      List.map_cons, List.getLastD_cons, List.map_cons, List.getLastD_cons]
    rfl

/-- Full parse of a generated program for a nonempty sampled polyline:
the first point is emitted three times in total (positioning line, plunge
line, and — for a one-point polyline — the retract), every further point
once, and the retract line re-emits the last point. -/
theorem parseGCode_genLines (cfg : MachineConfig) (ts : List Char)
    (p0 : Pt) (tl : List Pt) (hsf : cfg.scaleFactor ≠ 0)
    (hts1 : '\n' ∉ ts) (hts2 : '\r' ∉ ts) :
    parseGCode (some cfg.scaleFactor) (joinNL (genLines cfg ts (p0 :: tl)))
      = rtPt cfg p0 :: rtPt cfg p0 :: (tl.map (rtPt cfg) ++
        [rtPt cfg (tl.getLastD p0)]) := by
  obtain ⟨hz1, hz2, hz3, hz4, hz5⟩ := lineZ_facts cfg.safeHeight
    " Safe height".data
  obtain ⟨hr1, hr2, hr3, hr4, hr5⟩ := lineZ_facts cfg.safeHeight
    " Retract".data
  obtain ⟨hp1, hp2, hp3, hp4, hp5⟩ := linePlunge_facts cfg.cutDepth
    cfg.feedRate " Plunge to cut depth".data
  obtain ⟨hx1, hx2, hx3, hx4, hx5⟩ := lineXY0_facts (p0.x * cfg.scaleFactor)
    (-p0.y * cfg.scaleFactor)
  obtain ⟨hu1, hu2, hu3, hu4, hu5⟩ := lineUnit_facts cfg.unit
  obtain ⟨hf1, hf2⟩ := lineF_facts cfg.rapidRate " Rapid feed rate".data
  rw [parseGCode,
    show scaleDivisor (some cfg.scaleFactor) = cfg.scaleFactor from by
      rw [scaleDivisor, if_neg hsf],
    splitNL_joinNL _ (by rw [genLines_cons]; exact List.cons_ne_nil _ _)
      (genLines_chars cfg ts p0 tl hts1 hts2),
    genLines_cons,
    show (" ; Safe height".data : List Char) =
      ' ' :: ';' :: " Safe height".data from rfl,
    show (" ; Retract".data : List Char) =
      ' ' :: ';' :: " Retract".data from rfl,
    show (" ; Plunge to cut depth".data : List Char) =
      ' ' :: ';' :: " Plunge to cut depth".data from rfl,
    show (" ; Rapid feed rate".data : List Char) =
      ' ' :: ';' :: " Rapid feed rate".data from rfl,
    parseAux_step_empty _ _ _ _ _
      (show processedLine ("; TangentCNC G-code".data) = [] from
        processedLine_semi_head _),
    parseAux_step_empty _ _ _ _ _
      (show processedLine ("; Generated: ".data ++ ts) = [] from
        processedLine_semi_head _),
    parseAux_step_empty _ _ _ _ _
      (show processedLine ("; Units: ".data ++ unitName cfg.unit) = [] from
        processedLine_semi_head _),
    parseAux_step_empty _ _ _ _ _
      (show processedLine ("; Scale: ".data ++ ratRepr cfg.scaleFactor ++
          " (canvas pixels to ".data ++ unitName cfg.unit ++ ")".data) = []
        from processedLine_semi_head _),
    parseAux_step_motion_nofield_none _ _ _ _ (by decide) (by decide)
      (by decide) (by decide),
    parseAux_step_motion_nofield_none _ _ _ _ (by rw [hu1]; exact hu2)
      (by rw [hu1]; exact hu3) (by rw [hu1]; exact hu4)
      (by rw [hu1]; exact hu5),
    parseAux_step_motion_nofield_none _ _ _ _ (by decide) (by decide)
      (by decide) (by decide),
    parseAux_step_skip _ _ _ _ _ (by rw [hf1]; exact hf2),
    parseAux_step_motion_nofield_none _ _ _ _ (by rw [hz1]; exact hz2)
      (by rw [hz1]; exact hz3) (by rw [hz1]; exact hz4)
      (by rw [hz1]; exact hz5),
    parseAux_step_motion_xy _ _ _ _ _ _ _ (by rw [hx1]; exact hx2)
      (by rw [hx1]; exact hx3) (by rw [hx1]; exact hx4)
      (by rw [hx1]; exact hx5),
    parseAux_step_motion_nofield_some _ _ _ _ _ (by rw [hp1]; exact hp2)
      (by rw [hp1]; exact hp3) (by rw [hp1]; exact hp4)
      (by rw [hp1]; exact hp5),
    List.append_assoc,
    show (["G0 Z".data ++ formatNum cfg.safeHeight ++
        (' ' :: ';' :: " Retract".data)] ++ ["M2     ; Program end".data] :
        List (List Char)) =
      [("G0 Z".data ++ formatNum cfg.safeHeight ++
        (' ' :: ';' :: " Retract".data)), "M2     ; Program end".data]
      from rfl,
    parseAux_g1_block cfg tl _ _ _,
    parseAux_step_motion_nofield_some _ _ _ _ _ (by rw [hr1]; exact hr2)
      (by rw [hr1]; exact hr3) (by rw [hr1]; exact hr4)
      (by rw [hr1]; exact hr5),
    parseAux_step_skip _ _ _ _ _ (by decide),
    show parseGCodeAux cfg.scaleFactor [] (some ((tl.map (pdX cfg)).getLastD
        (parseDecimal (formatNum (p0.x * cfg.scaleFactor)))))
        (some ((tl.map (pdY cfg)).getLastD
          (parseDecimal (formatNum (-p0.y * cfg.scaleFactor))))) = []
      from rfl,
    pdPush_eq_rtPt cfg p0]
  rw [show ((tl.map (pdX cfg)).getLastD
      (parseDecimal (formatNum (p0.x * cfg.scaleFactor)))) =
        pdX cfg (tl.getLastD p0) from getLastD_map (pdX cfg) tl p0,
    show ((tl.map (pdY cfg)).getLastD
      (parseDecimal (formatNum (-p0.y * cfg.scaleFactor)))) =
        pdY cfg (tl.getLastD p0) from getLastD_map (pdY cfg) tl p0]
  rw [show (⟨pdX cfg (tl.getLastD p0) / cfg.scaleFactor,
      -pdY cfg (tl.getLastD p0) / cfg.scaleFactor⟩ : Pt) =
        rtPt cfg (tl.getLastD p0) from pdPush_eq_rtPt cfg (tl.getLastD p0)]

/-- C1 (amended): parsing the generated positional program with the same
scale factor reproduces the sampled polyline only up to (a) per-coordinate
quantisation of at most 1/2000 in machine units, i.e. 1/2000 divided by
the scale factor in canvas units — not a fixed 0.0005 — and (b) a
duplicated first sample (the plunge line re-emits it) and a duplicated
last sample (the retract line re-emits it): the parsed list is
p0, p0, p1, ..., pn, pn after rounding. -/
theorem parse_roundtrip_rounded (cfg : MachineConfig) (ts : List Char)
    (pts : List Pt) (r : ℕ) (p0 : Pt) (tl : List Pt)
    (hsf : cfg.scaleFactor ≠ 0) (hts1 : '\n' ∉ ts) (hts2 : '\r' ∉ ts)
    (hpoly : samplePolylinePoints pts r = p0 :: tl) :
    parseGCode (some cfg.scaleFactor) (generateGCodeString cfg ts pts r) =
      rtPt cfg p0 :: rtPt cfg p0 :: (tl.map (rtPt cfg) ++
        [rtPt cfg (tl.getLastD p0)]) ∧
    ∀ p : Pt, |(rtPt cfg p).x - p.x| ≤ 1 / 2000 / |cfg.scaleFactor| ∧
      |(rtPt cfg p).y - p.y| ≤ 1 / 2000 / |cfg.scaleFactor| := by
  constructor
  · rw [generateGCodeString, hpoly]
    exact parseGCode_genLines cfg ts p0 tl hsf hts1 hts2
  · intro p
    have hs : (0 : ℚ) < |cfg.scaleFactor| := abs_pos.mpr hsf
    constructor
    · have h1 : (rtPt cfg p).x - p.x =
          (((round3 (p.x * cfg.scaleFactor) : ℤ) : ℚ) / 1000 -
            p.x * cfg.scaleFactor) / cfg.scaleFactor := by
        rw [rtPt]
        field_simp
        ring
      rw [h1, abs_div]
      have h2 := round3_err (p.x * cfg.scaleFactor)
      gcongr
    · have h1 : (rtPt cfg p).y - p.y =
          -((((round3 (-p.y * cfg.scaleFactor) : ℤ) : ℚ) / 1000 -
            (-p.y * cfg.scaleFactor)) / cfg.scaleFactor) := by
        rw [rtPt]
        field_simp
        ring
      rw [h1, abs_neg, abs_div]
      have h2 := round3_err (-p.y * cfg.scaleFactor)
      gcongr

/-- Witness for C1 (amended) at the identity scale factor and the
one-point polyline (0,0): the program parses back to that point three
times (positioning, plunge, retract). -/
theorem parse_roundtrip_rounded_witness :
    cfgScale1.scaleFactor ≠ 0 ∧ '\n' ∉ ([] : List Char) ∧
      '\r' ∉ ([] : List Char) ∧
      samplePolylinePoints [(⟨0, 0⟩ : Pt)] 1 = [⟨0, 0⟩] ∧
      parseGCode (some cfgScale1.scaleFactor)
          (generateGCodeString cfgScale1 [] [⟨0, 0⟩] 1) =
        rtPt cfgScale1 ⟨0, 0⟩ :: rtPt cfgScale1 ⟨0, 0⟩ ::
          (([] : List Pt).map (rtPt cfgScale1) ++
            [rtPt cfgScale1 (([] : List Pt).getLastD ⟨0, 0⟩)]) :=
  ⟨by norm_num [cfgScale1], by simp, by simp, rfl,
    (parse_roundtrip_rounded cfgScale1 [] [⟨0, 0⟩] 1 ⟨0, 0⟩ []
      (by norm_num [cfgScale1]) (by simp) (by simp) rfl).1⟩

/-- C1 counterexample to the literal claim: (a) at scale factor 1 the
one-point polyline (0,0) parses back to three samples, not one, so the
sequences differ; (b) at the app's default scale factor 1/10 the
one-point polyline (1/250, 0) parses back with first-coordinate error
1/250 = 0.004 > 0.0005. -/
theorem parse_roundtrip_counterexample :
    (parseGCode (some cfgScale1.scaleFactor)
        (generateGCodeString cfgScale1 [] [⟨0, 0⟩] 1)).length ≠
      (samplePolylinePoints [(⟨0, 0⟩ : Pt)] 1).length ∧
    ¬ |((parseGCode (some cfgTenth.scaleFactor)
          (generateGCodeString cfgTenth [] [⟨1/250, 0⟩] 1)).headD
            ⟨0, 0⟩).x -
        ((samplePolylinePoints [(⟨1/250, 0⟩ : Pt)] 1).headD ⟨0, 0⟩).x| ≤
      5 / 10000 := by
  have hs1 : samplePolylinePoints [(⟨0, 0⟩ : Pt)] 1 = [⟨0, 0⟩] := rfl
  have hs2 : samplePolylinePoints [(⟨1/250, 0⟩ : Pt)] 1 = [⟨1/250, 0⟩] := rfl
  constructor
  · rw [generateGCodeString, hs1,
      parseGCode_genLines cfgScale1 [] ⟨0, 0⟩ []
        (by norm_num [cfgScale1]) (by simp) (by simp)]
    simp
  · rw [generateGCodeString, hs2,
      parseGCode_genLines cfgTenth [] ⟨1/250, 0⟩ []
        (by norm_num [cfgTenth]) (by simp) (by simp)]
    have hr : round3 (((⟨1/250, 0⟩ : Pt)).x * cfgTenth.scaleFactor) = 0 := by
      rw [show ((⟨1/250, 0⟩ : Pt)).x * cfgTenth.scaleFactor = (1 : ℚ)/2500
        from by norm_num [cfgTenth]]
      rw [round3, show (1000 : ℚ) * (1/2500) + 1/2 = 9/10 from by norm_num]
      exact Int.floor_eq_iff.mpr (by norm_num)
    simp only [List.headD_cons, rtPt, hr]
    norm_num
    rw [abs_of_pos (show (0 : ℚ) < 1/250 from by norm_num)]
    norm_num

theorem jsTrimStripSemi_semi (l : List Char) :
    jsTrim (stripSemi (';' :: l)) = [] := by
  rw [stripSemi_semi]
  rfl

theorem collectBase_step_empty (raw : List Char) (rest : List (List Char))
    (lx ly : Option ℚ) (h : jsTrim (stripSemi raw) = []) :
    collectBaseMoves (raw :: rest) lx ly = collectBaseMoves rest lx ly := by
  rw [collectBaseMoves]
  split_ifs with h1 <;> first | rfl | exact absurd h h1

theorem collectBase_step_skip_nn (raw : List Char)
    (rest : List (List Char))
    (h1 : jsTrim (stripSemi raw) ≠ [])
    (hx : findFieldNum isXChar (jsTrim (stripSemi raw)) = none)
    (hy : findFieldNum isYChar (jsTrim (stripSemi raw)) = none) :
    collectBaseMoves (raw :: rest) none none =
      collectBaseMoves rest none none := by
  rw [collectBaseMoves]
  split_ifs with h0
  · exact absurd h0 h1
  · rw [hx, hy]

theorem collectBase_step_push_ss (raw : List Char)
    (rest : List (List Char)) (x y : ℚ)
    (h1 : jsTrim (stripSemi raw) ≠ [])
    (hx : findFieldNum isXChar (jsTrim (stripSemi raw)) = none)
    (hy : findFieldNum isYChar (jsTrim (stripSemi raw)) = none) :
    collectBaseMoves (raw :: rest) (some x) (some y) =
      (x, y) :: collectBaseMoves rest (some x) (some y) := by
  rw [collectBaseMoves]
  split_ifs with h0
  · exact absurd h0 h1
  · rw [hx, hy]

theorem collectBase_step_xy (raw : List Char) (rest : List (List Char))
    (xs ys : List Char) (lx ly : Option ℚ)
    (h1 : jsTrim (stripSemi raw) ≠ [])
    (hx : findFieldNum isXChar (jsTrim (stripSemi raw)) = some xs)
    (hy : findFieldNum isYChar (jsTrim (stripSemi raw)) = some ys) :
    collectBaseMoves (raw :: rest) lx ly =
      (parseDecimal xs, parseDecimal ys) ::
        collectBaseMoves rest (some (parseDecimal xs))
          (some (parseDecimal ys)) := by
  rw [collectBaseMoves]
  split_ifs with h0
  · exact absurd h0 h1
  · rw [hx, hy]

theorem fromBase_step_empty (cfg : MachineConfig)
    (moves : List (ℚ × ℚ)) (raw : List Char) (rest : List (List Char))
    (lx ly : Option ℚ) (i : ℕ) (prev : Option ℝ)
    (h : jsTrim (stripSemi raw) = []) :
    fromBaseCAux cfg moves (raw :: rest) lx ly i prev =
      fromBaseCAux cfg moves rest lx ly i prev := by
  rw [fromBaseCAux]
  split_ifs with h1 h2 <;> first | rfl | exact absurd h h1

theorem fromBase_step_filter (cfg : MachineConfig)
    (moves : List (ℚ × ℚ)) (raw : List Char) (rest : List (List Char))
    (lx ly : Option ℚ) (i : ℕ) (prev : Option ℝ)
    (h : (testG01Space (jsTrim (stripSemi raw)) ||
      (jsTrim (stripSemi raw)).any isXChar ||
      (jsTrim (stripSemi raw)).any isYChar) = false) :
    fromBaseCAux cfg moves (raw :: rest) lx ly i prev =
      fromBaseCAux cfg moves rest lx ly i prev := by
  rw [fromBaseCAux]
  split_ifs with h1 h2 h3 <;> first | rfl | exact absurd h h2

theorem fromBase_step_nofield_nn (cfg : MachineConfig)
    (moves : List (ℚ × ℚ)) (raw : List Char) (rest : List (List Char))
    (ly : Option ℚ) (i : ℕ) (prev : Option ℝ)
    (h1 : jsTrim (stripSemi raw) ≠ [])
    (h2 : (testG01Space (jsTrim (stripSemi raw)) ||
      (jsTrim (stripSemi raw)).any isXChar ||
      (jsTrim (stripSemi raw)).any isYChar) = true)
    (hx : findFieldNum isXChar (jsTrim (stripSemi raw)) = none)
    (hy : findFieldNum isYChar (jsTrim (stripSemi raw)) = none) :
    fromBaseCAux cfg moves (raw :: rest) none ly i prev =
      fromBaseCAux cfg moves rest none ly i prev := by
  rw [fromBaseCAux]
  split_ifs with ha hb h3
  · rfl
  · rfl
  · rw [hx, hy]
  · rw [hx, hy]

theorem fromBase_step_nofield_ss (cfg : MachineConfig)
    (moves : List (ℚ × ℚ)) (raw : List Char) (rest : List (List Char))
    (x y : ℚ) (i : ℕ) (prev : Option ℝ)
    (h1 : jsTrim (stripSemi raw) ≠ [])
    (h2 : (testG01Space (jsTrim (stripSemi raw)) ||
      (jsTrim (stripSemi raw)).any isXChar ||
      (jsTrim (stripSemi raw)).any isYChar) = true)
    (hx : findFieldNum isXChar (jsTrim (stripSemi raw)) = none)
    (hy : findFieldNum isYChar (jsTrim (stripSemi raw)) = none)
    (hidx : i < moves.length) :
    fromBaseCAux cfg moves (raw :: rest) (some x) (some y) i prev =
      normalizeAngle cfg (baseAngle moves i) prev ::
        fromBaseCAux cfg moves rest (some x) (some y) (i + 1)
          (some (normalizeAngle cfg (baseAngle moves i) prev)) := by
  rw [fromBaseCAux]
  split_ifs with ha hb
  · exact absurd ha h1
  · rw [h2] at hb
    exact absurd hb (by decide)
  · rw [hx, hy]

theorem fromBase_step_xy (cfg : MachineConfig) (moves : List (ℚ × ℚ))
    (raw : List Char) (rest : List (List Char)) (xs ys : List Char)
    (lx ly : Option ℚ) (i : ℕ) (prev : Option ℝ)
    (h1 : jsTrim (stripSemi raw) ≠ [])
    (h2 : (testG01Space (jsTrim (stripSemi raw)) ||
      (jsTrim (stripSemi raw)).any isXChar ||
      (jsTrim (stripSemi raw)).any isYChar) = true)
    (hx : findFieldNum isXChar (jsTrim (stripSemi raw)) = some xs)
    (hy : findFieldNum isYChar (jsTrim (stripSemi raw)) = some ys)
    (hidx : i < moves.length) :
    fromBaseCAux cfg moves (raw :: rest) lx ly i prev =
      normalizeAngle cfg (baseAngle moves i) prev ::
        fromBaseCAux cfg moves rest (some (parseDecimal xs))
          (some (parseDecimal ys)) (i + 1)
          (some (normalizeAngle cfg (baseAngle moves i) prev)) := by
  rw [fromBaseCAux]
  split_ifs with ha hb
  · exact absurd ha h1
  · rw [h2] at hb
    exact absurd hb (by decide)
  · rw [hx, hy]

theorem jsRem_small {α : Type} [LinearOrderedField α] [FloorRing α]
    (a b : α) (hb : 0 < b) (h1 : 0 ≤ a) (h2 : a < b) : jsRem a b = a := by
  have h0 : ⌊a / b⌋ = 0 := by
    rw [Int.floor_eq_iff]
    constructor
    · push_cast
      exact div_nonneg h1 hb.le
    · push_cast
      have h3 : a / b < 1 := (div_lt_one hb).mpr h2
      linarith
  rw [jsRem, jsTrunc, if_pos (div_nonneg h1 hb.le), h0]
  push_cast
  ring

theorem jsRem_mid {α : Type} [LinearOrderedField α] [FloorRing α]
    (a b : α) (hb : 0 < b) (h1 : b ≤ a) (h2 : a < 2 * b) :
    jsRem a b = a - b := by
  have hdiv : 0 ≤ a / b := div_nonneg (le_trans hb.le h1) hb.le
  have h0 : ⌊a / b⌋ = 1 := by
    rw [Int.floor_eq_iff]
    constructor
    · push_cast
      rw [le_div_iff₀ hb]
      linarith
    · push_cast
      rw [div_lt_iff₀ hb]
      linarith
  rw [jsRem, jsTrunc, if_pos hdiv, h0]
  push_cast
  ring

theorem jsRem_neg_small {α : Type} [LinearOrderedField α] [FloorRing α]
    (a b : α) (hb : 0 < b) (h1 : -b < a) (h2 : a < 0) : jsRem a b = a := by
  have hdiv : a / b < 0 := div_neg_of_neg_of_pos h2 hb
  have h0 : ⌊-(a / b)⌋ = 0 := by
    rw [Int.floor_eq_iff]
    constructor
    · push_cast
      linarith
    · push_cast
      have h3 : -a / b < 1 := (div_lt_one hb).mpr (by linarith)
      rw [neg_div] at h3
      linarith
  rw [jsRem, jsTrunc, if_neg (not_le.mpr hdiv), h0]
  push_cast
  ring

theorem jsAtan2_zero_pos (y : ℝ) (hy : 0 < y) :
    jsAtan2 y 0 = Real.pi / 2 := by
  rw [jsAtan2, if_neg (lt_irrefl 0),
    if_neg (fun h => lt_irrefl (0 : ℝ) h.1),
    if_neg (fun h => lt_irrefl (0 : ℝ) h.1), if_pos ⟨rfl, hy⟩]

theorem jsAtan2_zero_neg (y : ℝ) (hy : y < 0) :
    jsAtan2 y 0 = -(Real.pi / 2) := by
  rw [jsAtan2, if_neg (lt_irrefl 0),
    if_neg (fun h => lt_irrefl (0 : ℝ) h.1),
    if_neg (fun h => lt_irrefl (0 : ℝ) h.1),
    if_neg (fun h => absurd h.2 (not_lt.mpr hy.le)), if_pos ⟨rfl, hy⟩]

theorem jsHypot_zero : jsHypot 0 0 = 0 := by
  rw [jsHypot]
  norm_num

theorem jsHypot_0_neg10 : jsHypot 0 (-10) = 10 := by
  rw [jsHypot]
  have h : (((0 : ℚ) : ℝ) ^ 2 + (((-10 : ℚ)) : ℝ) ^ 2) = 100 := by
    push_cast
    norm_num
  rw [h, show (100 : ℝ) = 10 ^ 2 by norm_num,
    Real.sqrt_sq (by norm_num : (0 : ℝ) ≤ 10)]

theorem angleDeg_0_neg10 : angleDeg 0 (-10) = 90 := by
  rw [angleDeg,
    show (-(((-10 : ℚ)) : ℝ)) = (10 : ℝ) from by push_cast; norm_num,
    show (((0 : ℚ)) : ℝ) = (0 : ℝ) from by push_cast; rfl,
    jsAtan2_zero_pos 10 (by norm_num),
    show Real.pi / 2 * 180 / Real.pi = 90 from by
      field_simp
      ring,
    jsRem_small (90 : ℝ) 360 (by norm_num) (by norm_num) (by norm_num),
    show (90 : ℝ) + 360 = 450 from by norm_num,
    jsRem_mid (450 : ℝ) 360 (by norm_num) (by norm_num) (by norm_num)]
  norm_num

theorem angleDeg_0_100 : angleDeg 0 100 = 270 := by
  rw [angleDeg,
    show (-(((100 : ℚ)) : ℝ)) = (-100 : ℝ) from by push_cast; norm_num,
    show (((0 : ℚ)) : ℝ) = (0 : ℝ) from by push_cast; rfl,
    jsAtan2_zero_neg (-100) (by norm_num),
    show -(Real.pi / 2) * 180 / Real.pi = -90 from by
      field_simp
      ring,
    jsRem_neg_small (-90 : ℝ) 360 (by norm_num) (by norm_num) (by norm_num),
    show (-90 : ℝ) + 360 = 270 from by norm_num,
    jsRem_small (270 : ℝ) 360 (by norm_num) (by norm_num) (by norm_num)]

theorem normalizeAngle_fold_none (cfg : MachineConfig)
    (hoff : cfg.angleOffset = 0)
    (hmode : cfg.angleMode = AngleMode.neg180to180) (a : ℝ) :
    normalizeAngle cfg a none = foldUp (foldDown a) := by
  rw [normalizeAngle, hoff, hmode]
  simp only [Rat.cast_zero, add_zero]

theorem normalizeAngle_fold_some (cfg : MachineConfig)
    (hoff : cfg.angleOffset = 0)
    (hmode : cfg.angleMode = AngleMode.neg180to180) (a prev : ℝ)
    (hd1 : foldUp (foldDown a) - prev ≤ 180)
    (hd2 : -180 ≤ foldUp (foldDown a) - prev) :
    normalizeAngle cfg a (some prev) = foldUp (foldDown a) := by
  rw [normalizeAngle, hoff, hmode]
  simp only [Rat.cast_zero, add_zero]
  split_ifs with h1 h2 h3
  · exact absurd h2 (not_lt.mpr hd1)
  · exact absurd h3 (not_lt.mpr hd2)
  · rfl
  · rfl

theorem foldDown_270 : foldDown (270 : ℝ) = -90 := by
  rw [foldDown.eq_def, if_pos (by norm_num : (180 : ℝ) < 270),
    show (270 : ℝ) - 360 = -90 from by norm_num]
  exact foldDown_eq_self _ (by norm_num)

theorem fold_zero : foldUp (foldDown (0 : ℝ)) = 0 := by
  rw [foldDown_eq_self _ (by norm_num), foldUp_eq_self _ (by norm_num)]

theorem fold_90 : foldUp (foldDown (90 : ℝ)) = 90 := by
  rw [foldDown_eq_self _ (by norm_num), foldUp_eq_self _ (by norm_num)]

theorem fold_270 : foldUp (foldDown (270 : ℝ)) = -90 := by
  rw [foldDown_270, foldUp_eq_self _ (by norm_num)]

theorem formatNum_val_0 : formatNum (0 : ℚ) = "0.000".data := by
  rw [formatNum_nonneg_eq _ (by norm_num),
    show round3 ((0 : ℚ)) = 0 from by
      rw [round3]
      exact Int.floor_eq_iff.mpr (by norm_num)]
  decide

theorem formatNum_val_300 : formatNum (300 : ℚ) = "300.000".data := by
  rw [formatNum_nonneg_eq _ (by norm_num),
    show round3 ((300 : ℚ)) = 300000 from by
      rw [round3]
      exact Int.floor_eq_iff.mpr (by norm_num)]
  decide

theorem formatNum_val_5 : formatNum (5 : ℚ) = "5.000".data := by
  rw [formatNum_nonneg_eq _ (by norm_num),
    show round3 ((5 : ℚ)) = 5000 from by
      rw [round3]
      exact Int.floor_eq_iff.mpr (by norm_num)]
  decide

theorem formatNum_val_1000 : formatNum (1000 : ℚ) = "1000.000".data := by
  rw [formatNum_nonneg_eq _ (by norm_num),
    show round3 ((1000 : ℚ)) = 1000000 from by
      rw [round3]
      exact Int.floor_eq_iff.mpr (by norm_num)]
  decide

theorem formatNum_val_m1 : formatNum (-1 : ℚ) = "-1.000".data := by
  rw [formatNum_neg_eq _ (by norm_num),
    show round3 ((-1 : ℚ)) = -1000 from by
      rw [round3]
      exact Int.floor_eq_iff.mpr (by norm_num)]
  decide

theorem formatNum_val_m10 : formatNum (-10 : ℚ) = "-10.000".data := by
  rw [formatNum_neg_eq _ (by norm_num),
    show round3 ((-10 : ℚ)) = -10000 from by
      rw [round3]
      exact Int.floor_eq_iff.mpr (by norm_num)]
  decide

theorem parseDecimal_val_0 : parseDecimal "0.000".data = 0 := by
  have h1 : parseDecimal "0.000".data = parseUnsignedDec "0.000".data :=
    parseDecimal_cons_ne '0' ".000".data (by decide)
  have h2 : parseUnsignedDec "0.000".data =
      (natOfDigits ['0'] : ℚ) + (natOfDigits ['0', '0', '0'] : ℚ) /
        10 ^ (['0', '0', '0'] : List Char).length :=
    parseUnsignedDec_digits_dot ['0'] ['0', '0', '0'] (by decide) (by decide)
  rw [h1, h2, show natOfDigits ['0'] = 0 from rfl,
    show natOfDigits ['0', '0', '0'] = 0 from rfl]
  norm_num

theorem parseDecimal_val_m10 : parseDecimal "-10.000".data = -10 := by
  have h1 : parseDecimal "-10.000".data = -parseUnsignedDec "10.000".data :=
    parseDecimal_neg_head "10.000".data
  have h2 : parseUnsignedDec "10.000".data =
      (natOfDigits ['1', '0'] : ℚ) + (natOfDigits ['0', '0', '0'] : ℚ) /
        10 ^ (['0', '0', '0'] : List Char).length :=
    parseUnsignedDec_digits_dot ['1', '0'] ['0', '0', '0'] (by decide)
      (by decide)
  rw [h1, h2, show natOfDigits ['1', '0'] = 10 from rfl,
    show natOfDigits ['0', '0', '0'] = 0 from rfl]
  norm_num

/-- The two-point polyline at resolution 1 samples to exactly its two
control points. -/
theorem sample_two_001 :
    samplePolylinePoints [(⟨0, 0⟩ : Pt), ⟨0, 100⟩] 1 = [⟨0, 0⟩, ⟨0, 100⟩]
    := by
  rw [samplePolylinePoints,
    sampleSweep_eq_map _ _ (by norm_num) (1 / ((1 : ℕ) : ℚ)),
    nSteps_unit 1 (by norm_num) (by norm_num),
    show List.range 1 = [0] from rfl, List.map_cons, List.map_nil]
  congr 1
  congr 1
  apply Pt.ext <;> norm_num

/-- The C values emitted by the base-program path on the positional
program of the vertical two-point polyline: 0 on the positioning line
(the duplicated first collected move gives a zero direction vector), 0 on
the plunge line, 90 on the cutting move (the parsed machine Y is flipped
a second time by angleDeg), 0 on the retract. -/
theorem fromBase_cvalues_demo :
    fromBaseCValues cfgTenth
        (generateGCodeString cfgTenth [] [(⟨0, 0⟩ : Pt), ⟨0, 100⟩] 1) =
      [0, 0, 90, 0] := by
  have hlines : splitNL
      (generateGCodeString cfgTenth [] [(⟨0, 0⟩ : Pt), ⟨0, 100⟩] 1) =
      ["; TangentCNC G-code".data,
       "; Generated: ".data,
       "; Units: ".data ++ "mm".data,
       "; Scale: ".data ++ ratRepr cfgTenth.scaleFactor ++
         " (canvas pixels to ".data ++ "mm".data ++ ")".data,
       "G90    ; Absolute positioning".data,
       "G21".data ++ "   ; Unit: ".data ++ "mm".data,
       "G17    ; XY plane".data,
       'F' :: ("1000.000".data ++ " ; Rapid feed rate".data),
       "G0 Z".data ++ "5.000".data ++ " ; Safe height".data,
       "G0 X".data ++ "0.000".data ++ " Y".data ++ "0.000".data,
       "G1 Z".data ++ "-1.000".data ++ " F".data ++ "300.000".data ++
         " ; Plunge to cut depth".data,
       "G1 X".data ++ "0.000".data ++ " Y".data ++ "-10.000".data ++
         " F".data ++ "300.000".data,
       "G0 Z".data ++ "5.000".data ++ " ; Retract".data,
       "M2     ; Program end".data] := by
    rw [generateGCodeString, sample_two_001,
      splitNL_joinNL _ (by rw [genLines_cons]; exact List.cons_ne_nil _ _)
        (genLines_chars cfgTenth [] ⟨0, 0⟩ [⟨0, 100⟩] (by simp) (by simp)),
      genLines_cons, List.map_cons, List.map_nil, g1Line,
      show unitCode cfgTenth.unit = "G21".data from rfl,
      show unitName cfgTenth.unit = "mm".data from rfl,
      show cfgTenth.rapidRate = (1000 : ℚ) from rfl,
      show cfgTenth.safeHeight = (5 : ℚ) from rfl,
      show cfgTenth.cutDepth = (-1 : ℚ) from rfl,
      show cfgTenth.feedRate = (300 : ℚ) from rfl,
      show ((⟨0, 0⟩ : Pt)).x * cfgTenth.scaleFactor = (0 : ℚ) from by
        norm_num [cfgTenth],
      show -((⟨0, 0⟩ : Pt)).y * cfgTenth.scaleFactor = (0 : ℚ) from by
        norm_num [cfgTenth],
      show -((⟨0, 100⟩ : Pt)).y * cfgTenth.scaleFactor = (-10 : ℚ) from by
        norm_num [cfgTenth],
      formatNum_val_0, formatNum_val_300, formatNum_val_5,
      formatNum_val_m1, formatNum_val_1000, formatNum_val_m10,
      List.append_nil]
    rfl
  have f1 : jsTrim (stripSemi ("; TangentCNC G-code".data)) = [] := by
    decide
  have f2 : jsTrim (stripSemi ("; Generated: ".data)) = [] := by decide
  have f3 : jsTrim (stripSemi ("; Units: ".data ++ "mm".data)) = [] := by
    decide
  have f4 : jsTrim (stripSemi ("; Scale: ".data ++
      ratRepr cfgTenth.scaleFactor ++ " (canvas pixels to ".data ++
      "mm".data ++ ")".data)) = [] := jsTrimStripSemi_semi _
  have f5 : jsTrim (stripSemi ("G90    ; Absolute positioning".data)) ≠ []
      ∧ findFieldNum isXChar
        (jsTrim (stripSemi ("G90    ; Absolute positioning".data))) = none
      ∧ findFieldNum isYChar
        (jsTrim (stripSemi ("G90    ; Absolute positioning".data))) = none
      ∧ (testG01Space
          (jsTrim (stripSemi ("G90    ; Absolute positioning".data))) ||
        (jsTrim (stripSemi ("G90    ; Absolute positioning".data))).any
          isXChar ||
        (jsTrim (stripSemi ("G90    ; Absolute positioning".data))).any
          isYChar) = false := by
    refine ⟨by decide, by decide, by decide, by decide⟩
  have f6 : jsTrim (stripSemi ("G21".data ++ "   ; Unit: ".data ++
        "mm".data)) ≠ []
      ∧ findFieldNum isXChar (jsTrim (stripSemi ("G21".data ++
        "   ; Unit: ".data ++ "mm".data))) = none
      ∧ findFieldNum isYChar (jsTrim (stripSemi ("G21".data ++
        "   ; Unit: ".data ++ "mm".data))) = none
      ∧ (testG01Space (jsTrim (stripSemi ("G21".data ++
          "   ; Unit: ".data ++ "mm".data))) ||
        (jsTrim (stripSemi ("G21".data ++ "   ; Unit: ".data ++
          "mm".data))).any isXChar ||
        (jsTrim (stripSemi ("G21".data ++ "   ; Unit: ".data ++
          "mm".data))).any isYChar) = false := by
    refine ⟨by decide, by decide, by decide, by decide⟩
  have f7 : jsTrim (stripSemi ("G17    ; XY plane".data)) ≠ []
      ∧ findFieldNum isXChar
        (jsTrim (stripSemi ("G17    ; XY plane".data))) = none
      ∧ findFieldNum isYChar
        (jsTrim (stripSemi ("G17    ; XY plane".data))) = none
      ∧ (testG01Space (jsTrim (stripSemi ("G17    ; XY plane".data))) ||
        (jsTrim (stripSemi ("G17    ; XY plane".data))).any isXChar ||
        (jsTrim (stripSemi ("G17    ; XY plane".data))).any isYChar)
          = false := by
    refine ⟨by decide, by decide, by decide, by decide⟩
  have f8 : jsTrim (stripSemi ('F' :: ("1000.000".data ++
        " ; Rapid feed rate".data))) ≠ []
      ∧ findFieldNum isXChar (jsTrim (stripSemi ('F' :: ("1000.000".data ++
        " ; Rapid feed rate".data)))) = none
      ∧ findFieldNum isYChar (jsTrim (stripSemi ('F' :: ("1000.000".data ++
        " ; Rapid feed rate".data)))) = none
      ∧ (testG01Space (jsTrim (stripSemi ('F' :: ("1000.000".data ++
          " ; Rapid feed rate".data)))) ||
        (jsTrim (stripSemi ('F' :: ("1000.000".data ++
          " ; Rapid feed rate".data)))).any isXChar ||
        (jsTrim (stripSemi ('F' :: ("1000.000".data ++
          " ; Rapid feed rate".data)))).any isYChar) = false := by
    refine ⟨by decide, by decide, by decide, by decide⟩
  have f9 : jsTrim (stripSemi ("G0 Z".data ++ "5.000".data ++
        " ; Safe height".data)) ≠ []
      ∧ findFieldNum isXChar (jsTrim (stripSemi ("G0 Z".data ++
        "5.000".data ++ " ; Safe height".data))) = none
      ∧ findFieldNum isYChar (jsTrim (stripSemi ("G0 Z".data ++
        "5.000".data ++ " ; Safe height".data))) = none
      ∧ (testG01Space (jsTrim (stripSemi ("G0 Z".data ++ "5.000".data ++
          " ; Safe height".data))) ||
        (jsTrim (stripSemi ("G0 Z".data ++ "5.000".data ++
          " ; Safe height".data))).any isXChar ||
        (jsTrim (stripSemi ("G0 Z".data ++ "5.000".data ++
          " ; Safe height".data))).any isYChar) = true := by
    refine ⟨by decide, by decide, by decide, by decide⟩
  have f10 : jsTrim (stripSemi ("G0 X".data ++ "0.000".data ++
        " Y".data ++ "0.000".data)) ≠ []
      ∧ findFieldNum isXChar (jsTrim (stripSemi ("G0 X".data ++
        "0.000".data ++ " Y".data ++ "0.000".data))) = some "0.000".data
      ∧ findFieldNum isYChar (jsTrim (stripSemi ("G0 X".data ++
        "0.000".data ++ " Y".data ++ "0.000".data))) = some "0.000".data
      ∧ (testG01Space (jsTrim (stripSemi ("G0 X".data ++ "0.000".data ++
          " Y".data ++ "0.000".data))) ||
        (jsTrim (stripSemi ("G0 X".data ++ "0.000".data ++ " Y".data ++
          "0.000".data))).any isXChar ||
        (jsTrim (stripSemi ("G0 X".data ++ "0.000".data ++ " Y".data ++
          "0.000".data))).any isYChar) = true := by
    refine ⟨by decide, by decide, by decide, by decide⟩
  have f11 : jsTrim (stripSemi ("G1 Z".data ++ "-1.000".data ++
        " F".data ++ "300.000".data ++ " ; Plunge to cut depth".data))
        ≠ []
      ∧ findFieldNum isXChar (jsTrim (stripSemi ("G1 Z".data ++
        "-1.000".data ++ " F".data ++ "300.000".data ++
        " ; Plunge to cut depth".data))) = none
      ∧ findFieldNum isYChar (jsTrim (stripSemi ("G1 Z".data ++
        "-1.000".data ++ " F".data ++ "300.000".data ++
        " ; Plunge to cut depth".data))) = none
      ∧ (testG01Space (jsTrim (stripSemi ("G1 Z".data ++ "-1.000".data ++
          " F".data ++ "300.000".data ++
          " ; Plunge to cut depth".data))) ||
        (jsTrim (stripSemi ("G1 Z".data ++ "-1.000".data ++ " F".data ++
          "300.000".data ++ " ; Plunge to cut depth".data))).any
            isXChar ||
        (jsTrim (stripSemi ("G1 Z".data ++ "-1.000".data ++ " F".data ++
          "300.000".data ++ " ; Plunge to cut depth".data))).any
            isYChar) = true := by
    refine ⟨by decide, by decide, by decide, by decide⟩
  have f12 : jsTrim (stripSemi ("G1 X".data ++ "0.000".data ++
        " Y".data ++ "-10.000".data ++ " F".data ++ "300.000".data)) ≠ []
      ∧ findFieldNum isXChar (jsTrim (stripSemi ("G1 X".data ++
        "0.000".data ++ " Y".data ++ "-10.000".data ++ " F".data ++
        "300.000".data))) = some "0.000".data
      ∧ findFieldNum isYChar (jsTrim (stripSemi ("G1 X".data ++
        "0.000".data ++ " Y".data ++ "-10.000".data ++ " F".data ++
        "300.000".data))) = some "-10.000".data
      ∧ (testG01Space (jsTrim (stripSemi ("G1 X".data ++ "0.000".data ++
          " Y".data ++ "-10.000".data ++ " F".data ++
          "300.000".data))) ||
        (jsTrim (stripSemi ("G1 X".data ++ "0.000".data ++ " Y".data ++
          "-10.000".data ++ " F".data ++ "300.000".data))).any isXChar ||
        (jsTrim (stripSemi ("G1 X".data ++ "0.000".data ++ " Y".data ++
          "-10.000".data ++ " F".data ++ "300.000".data))).any isYChar)
            = true := by
    refine ⟨by decide, by decide, by decide, by decide⟩
  have f13 : jsTrim (stripSemi ("G0 Z".data ++ "5.000".data ++
        " ; Retract".data)) ≠ []
      ∧ findFieldNum isXChar (jsTrim (stripSemi ("G0 Z".data ++
        "5.000".data ++ " ; Retract".data))) = none
      ∧ findFieldNum isYChar (jsTrim (stripSemi ("G0 Z".data ++
        "5.000".data ++ " ; Retract".data))) = none
      ∧ (testG01Space (jsTrim (stripSemi ("G0 Z".data ++ "5.000".data ++
          " ; Retract".data))) ||
        (jsTrim (stripSemi ("G0 Z".data ++ "5.000".data ++
          " ; Retract".data))).any isXChar ||
        (jsTrim (stripSemi ("G0 Z".data ++ "5.000".data ++
          " ; Retract".data))).any isYChar) = true := by
    refine ⟨by decide, by decide, by decide, by decide⟩
  have f14 : jsTrim (stripSemi ("M2     ; Program end".data)) ≠ []
      ∧ findFieldNum isXChar
        (jsTrim (stripSemi ("M2     ; Program end".data))) = none
      ∧ findFieldNum isYChar
        (jsTrim (stripSemi ("M2     ; Program end".data))) = none
      ∧ (testG01Space (jsTrim (stripSemi ("M2     ; Program end".data))) ||
        (jsTrim (stripSemi ("M2     ; Program end".data))).any isXChar ||
        (jsTrim (stripSemi ("M2     ; Program end".data))).any isYChar)
          = false := by
    refine ⟨by decide, by decide, by decide, by decide⟩
  have hmoves : collectBaseMoves
      ["; TangentCNC G-code".data,
       "; Generated: ".data,
       "; Units: ".data ++ "mm".data,
       "; Scale: ".data ++ ratRepr cfgTenth.scaleFactor ++
         " (canvas pixels to ".data ++ "mm".data ++ ")".data,
       "G90    ; Absolute positioning".data,
       "G21".data ++ "   ; Unit: ".data ++ "mm".data,
       "G17    ; XY plane".data,
       'F' :: ("1000.000".data ++ " ; Rapid feed rate".data),
       "G0 Z".data ++ "5.000".data ++ " ; Safe height".data,
       "G0 X".data ++ "0.000".data ++ " Y".data ++ "0.000".data,
       "G1 Z".data ++ "-1.000".data ++ " F".data ++ "300.000".data ++
         " ; Plunge to cut depth".data,
       "G1 X".data ++ "0.000".data ++ " Y".data ++ "-10.000".data ++
         " F".data ++ "300.000".data,
       "G0 Z".data ++ "5.000".data ++ " ; Retract".data,
       "M2     ; Program end".data] none none =
      [((0 : ℚ), (0 : ℚ)), ((0 : ℚ), (0 : ℚ)), ((0 : ℚ), (-10 : ℚ)),
        ((0 : ℚ), (-10 : ℚ)), ((0 : ℚ), (-10 : ℚ))] := by
    rw [collectBase_step_empty _ _ _ _ f1,
      collectBase_step_empty _ _ _ _ f2,
      collectBase_step_empty _ _ _ _ f3,
      collectBase_step_empty _ _ _ _ f4,
      collectBase_step_skip_nn _ _ f5.1 f5.2.1 f5.2.2.1,
      collectBase_step_skip_nn _ _ f6.1 f6.2.1 f6.2.2.1,
      collectBase_step_skip_nn _ _ f7.1 f7.2.1 f7.2.2.1,
      collectBase_step_skip_nn _ _ f8.1 f8.2.1 f8.2.2.1,
      collectBase_step_skip_nn _ _ f9.1 f9.2.1 f9.2.2.1,
      collectBase_step_xy _ _ "0.000".data "0.000".data _ _
        f10.1 f10.2.1 f10.2.2.1,
      collectBase_step_push_ss _ _ _ _ f11.1 f11.2.1 f11.2.2.1,
      collectBase_step_xy _ _ "0.000".data "-10.000".data _ _
        f12.1 f12.2.1 f12.2.2.1,
      collectBase_step_push_ss _ _ _ _ f13.1 f13.2.1 f13.2.2.1,
      collectBase_step_push_ss _ _ _ _ f14.1 f14.2.1 f14.2.2.1,
      show ∀ lx ly, collectBaseMoves [] lx ly = [] from fun _ _ => rfl,
      parseDecimal_val_0, parseDecimal_val_m10]
  have hb0 : baseAngle [((0 : ℚ), (0 : ℚ)), ((0 : ℚ), (0 : ℚ)),
      ((0 : ℚ), (-10 : ℚ)), ((0 : ℚ), (-10 : ℚ)), ((0 : ℚ), (-10 : ℚ))] 0
      = 0 := by
    rw [baseAngle, if_neg (by norm_num : ¬ (0 : ℕ) < 0),
      if_pos (by decide : 1 < ([((0 : ℚ), (0 : ℚ)), ((0 : ℚ), (0 : ℚ)),
        ((0 : ℚ), (-10 : ℚ)), ((0 : ℚ), (-10 : ℚ)),
        ((0 : ℚ), (-10 : ℚ))] : List (ℚ × ℚ)).length),
      show (([((0 : ℚ), (0 : ℚ)), ((0 : ℚ), (0 : ℚ)),
        ((0 : ℚ), (-10 : ℚ)), ((0 : ℚ), (-10 : ℚ)),
        ((0 : ℚ), (-10 : ℚ))] : List (ℚ × ℚ)).getD 1 (0, 0)).1 -
        (([((0 : ℚ), (0 : ℚ)), ((0 : ℚ), (0 : ℚ)), ((0 : ℚ), (-10 : ℚ)),
          ((0 : ℚ), (-10 : ℚ)), ((0 : ℚ), (-10 : ℚ))] :
          List (ℚ × ℚ)).getD 0 (0, 0)).1 = (0 : ℚ) from by
        show (0 : ℚ) - (0 : ℚ) = 0
        norm_num,
      show (([((0 : ℚ), (0 : ℚ)), ((0 : ℚ), (0 : ℚ)),
        ((0 : ℚ), (-10 : ℚ)), ((0 : ℚ), (-10 : ℚ)),
        ((0 : ℚ), (-10 : ℚ))] : List (ℚ × ℚ)).getD 1 (0, 0)).2 -
        (([((0 : ℚ), (0 : ℚ)), ((0 : ℚ), (0 : ℚ)), ((0 : ℚ), (-10 : ℚ)),
          ((0 : ℚ), (-10 : ℚ)), ((0 : ℚ), (-10 : ℚ))] :
          List (ℚ × ℚ)).getD 0 (0, 0)).2 = (0 : ℚ) from by
        show (0 : ℚ) - (0 : ℚ) = 0
        norm_num,
      jsHypot_zero, if_neg (by norm_num : ¬ (1e-6 : ℝ) < 0)]
  have hb1 : baseAngle [((0 : ℚ), (0 : ℚ)), ((0 : ℚ), (0 : ℚ)),
      ((0 : ℚ), (-10 : ℚ)), ((0 : ℚ), (-10 : ℚ)), ((0 : ℚ), (-10 : ℚ))] 1
      = 0 := by
    rw [baseAngle, if_pos (by norm_num : 0 < 1),
      show (([((0 : ℚ), (0 : ℚ)), ((0 : ℚ), (0 : ℚ)),
        ((0 : ℚ), (-10 : ℚ)), ((0 : ℚ), (-10 : ℚ)),
        ((0 : ℚ), (-10 : ℚ))] : List (ℚ × ℚ)).getD 1 (0, 0)).1 -
        (([((0 : ℚ), (0 : ℚ)), ((0 : ℚ), (0 : ℚ)), ((0 : ℚ), (-10 : ℚ)),
          ((0 : ℚ), (-10 : ℚ)), ((0 : ℚ), (-10 : ℚ))] :
          List (ℚ × ℚ)).getD (1 - 1) (0, 0)).1 = (0 : ℚ) from by
        show (0 : ℚ) - (0 : ℚ) = 0
        norm_num,
      show (([((0 : ℚ), (0 : ℚ)), ((0 : ℚ), (0 : ℚ)),
        ((0 : ℚ), (-10 : ℚ)), ((0 : ℚ), (-10 : ℚ)),
        ((0 : ℚ), (-10 : ℚ))] : List (ℚ × ℚ)).getD 1 (0, 0)).2 -
        (([((0 : ℚ), (0 : ℚ)), ((0 : ℚ), (0 : ℚ)), ((0 : ℚ), (-10 : ℚ)),
          ((0 : ℚ), (-10 : ℚ)), ((0 : ℚ), (-10 : ℚ))] :
          List (ℚ × ℚ)).getD (1 - 1) (0, 0)).2 = (0 : ℚ) from by
        show (0 : ℚ) - (0 : ℚ) = 0
        norm_num,
      jsHypot_zero, if_neg (by norm_num : ¬ (1e-6 : ℝ) < 0)]
  have hb2 : baseAngle [((0 : ℚ), (0 : ℚ)), ((0 : ℚ), (0 : ℚ)),
      ((0 : ℚ), (-10 : ℚ)), ((0 : ℚ), (-10 : ℚ)), ((0 : ℚ), (-10 : ℚ))] 2
      = 90 := by
    rw [baseAngle, if_pos (by norm_num : 0 < 2),
      show (([((0 : ℚ), (0 : ℚ)), ((0 : ℚ), (0 : ℚ)),
        ((0 : ℚ), (-10 : ℚ)), ((0 : ℚ), (-10 : ℚ)),
        ((0 : ℚ), (-10 : ℚ))] : List (ℚ × ℚ)).getD 2 (0, 0)).1 -
        (([((0 : ℚ), (0 : ℚ)), ((0 : ℚ), (0 : ℚ)), ((0 : ℚ), (-10 : ℚ)),
          ((0 : ℚ), (-10 : ℚ)), ((0 : ℚ), (-10 : ℚ))] :
          List (ℚ × ℚ)).getD (2 - 1) (0, 0)).1 = (0 : ℚ) from by
        show (0 : ℚ) - (0 : ℚ) = 0
        norm_num,
      show (([((0 : ℚ), (0 : ℚ)), ((0 : ℚ), (0 : ℚ)),
        ((0 : ℚ), (-10 : ℚ)), ((0 : ℚ), (-10 : ℚ)),
        ((0 : ℚ), (-10 : ℚ))] : List (ℚ × ℚ)).getD 2 (0, 0)).2 -
        (([((0 : ℚ), (0 : ℚ)), ((0 : ℚ), (0 : ℚ)), ((0 : ℚ), (-10 : ℚ)),
          ((0 : ℚ), (-10 : ℚ)), ((0 : ℚ), (-10 : ℚ))] :
          List (ℚ × ℚ)).getD (2 - 1) (0, 0)).2 = (-10 : ℚ) from by
        show (-10 : ℚ) - (0 : ℚ) = -10
        norm_num,
      jsHypot_0_neg10, if_pos (by norm_num : (1e-6 : ℝ) < 10),
      angleDeg_0_neg10]
  have hb3 : baseAngle [((0 : ℚ), (0 : ℚ)), ((0 : ℚ), (0 : ℚ)),
      ((0 : ℚ), (-10 : ℚ)), ((0 : ℚ), (-10 : ℚ)), ((0 : ℚ), (-10 : ℚ))] 3
      = 0 := by
    rw [baseAngle, if_pos (by norm_num : 0 < 3),
      show (([((0 : ℚ), (0 : ℚ)), ((0 : ℚ), (0 : ℚ)),
        ((0 : ℚ), (-10 : ℚ)), ((0 : ℚ), (-10 : ℚ)),
        ((0 : ℚ), (-10 : ℚ))] : List (ℚ × ℚ)).getD 3 (0, 0)).1 -
        (([((0 : ℚ), (0 : ℚ)), ((0 : ℚ), (0 : ℚ)), ((0 : ℚ), (-10 : ℚ)),
          ((0 : ℚ), (-10 : ℚ)), ((0 : ℚ), (-10 : ℚ))] :
          List (ℚ × ℚ)).getD (3 - 1) (0, 0)).1 = (0 : ℚ) from by
        show (0 : ℚ) - (0 : ℚ) = 0
        norm_num,
      show (([((0 : ℚ), (0 : ℚ)), ((0 : ℚ), (0 : ℚ)),
        ((0 : ℚ), (-10 : ℚ)), ((0 : ℚ), (-10 : ℚ)),
        ((0 : ℚ), (-10 : ℚ))] : List (ℚ × ℚ)).getD 3 (0, 0)).2 -
        (([((0 : ℚ), (0 : ℚ)), ((0 : ℚ), (0 : ℚ)), ((0 : ℚ), (-10 : ℚ)),
          ((0 : ℚ), (-10 : ℚ)), ((0 : ℚ), (-10 : ℚ))] :
          List (ℚ × ℚ)).getD (3 - 1) (0, 0)).2 = (0 : ℚ) from by
        show (-10 : ℚ) - (-10 : ℚ) = 0
        norm_num,
      jsHypot_zero, if_neg (by norm_num : ¬ (1e-6 : ℝ) < 0)]
  have hA0 : normalizeAngle cfgTenth (0 : ℝ) none = 0 := by
    rw [normalizeAngle_fold_none cfgTenth rfl rfl, fold_zero]
  have hA1 : normalizeAngle cfgTenth (0 : ℝ) (some 0) = 0 := by
    rw [normalizeAngle_fold_some cfgTenth rfl rfl 0 0
      (by rw [fold_zero]; norm_num) (by rw [fold_zero]; norm_num),
      fold_zero]
  have hA2 : normalizeAngle cfgTenth (90 : ℝ) (some 0) = 90 := by
    rw [normalizeAngle_fold_some cfgTenth rfl rfl 90 0
      (by rw [fold_90]; norm_num) (by rw [fold_90]; norm_num), fold_90]
  have hA3 : normalizeAngle cfgTenth (0 : ℝ) (some 90) = 0 := by
    rw [normalizeAngle_fold_some cfgTenth rfl rfl 0 90
      (by rw [fold_zero]; norm_num) (by rw [fold_zero]; norm_num),
      fold_zero]
  rw [fromBaseCValues, hlines, hmoves,
    fromBase_step_empty _ _ _ _ _ _ _ _ f1,
    fromBase_step_empty _ _ _ _ _ _ _ _ f2,
    fromBase_step_empty _ _ _ _ _ _ _ _ f3,
    fromBase_step_empty _ _ _ _ _ _ _ _ f4,
    fromBase_step_filter _ _ _ _ _ _ _ _ f5.2.2.2,
    fromBase_step_filter _ _ _ _ _ _ _ _ f6.2.2.2,
    fromBase_step_filter _ _ _ _ _ _ _ _ f7.2.2.2,
    fromBase_step_filter _ _ _ _ _ _ _ _ f8.2.2.2,
    fromBase_step_nofield_nn _ _ _ _ _ _ _ f9.1 f9.2.2.2 f9.2.1 f9.2.2.1,
    fromBase_step_xy _ _ _ _ "0.000".data "0.000".data _ _ 0 none
      f10.1 f10.2.2.2 f10.2.1 f10.2.2.1 (by decide),
    fromBase_step_nofield_ss _ _ _ _ _ _ 1 _
      f11.1 f11.2.2.2 f11.2.1 f11.2.2.1 (by decide),
    fromBase_step_xy _ _ _ _ "0.000".data "-10.000".data _ _ 2 _
      f12.1 f12.2.2.2 f12.2.1 f12.2.2.1 (by decide),
    fromBase_step_nofield_ss _ _ _ _ _ _ 3 _
      f13.1 f13.2.2.2 f13.2.1 f13.2.2.1 (by decide),
    fromBase_step_filter _ _ _ _ _ _ _ _ f14.2.2.2,
    show ∀ (lx ly : Option ℚ) (i : ℕ) (prev : Option ℝ),
      fromBaseCAux cfgTenth [((0 : ℚ), (0 : ℚ)), ((0 : ℚ), (0 : ℚ)),
        ((0 : ℚ), (-10 : ℚ)), ((0 : ℚ), (-10 : ℚ)),
        ((0 : ℚ), (-10 : ℚ))] [] lx ly i prev = []
      from fun _ _ _ _ => rfl,
    hb0, hA0, hb1, hA1, hb2, hA2, hb3, hA3]

/-- The C values emitted by the point path for the same polyline: the
heading of the vertical segment is atan2(-100, 0) in degrees, folded to
270 and normalized to -90, on both the positioning line and the single
cutting move. -/
theorem fromPoints_cvalues_demo :
    fromPointsCValues cfgTenth [(⟨0, 0⟩ : Pt), ⟨0, 100⟩] 1 = [-90, -90]
    := by
  have hd : angleDeg ((⟨0, 100⟩ : Pt).x - (⟨0, 0⟩ : Pt).x)
      ((⟨0, 100⟩ : Pt).y - (⟨0, 0⟩ : Pt).y) = 270 := by
    rw [show ((⟨0, 100⟩ : Pt).x - (⟨0, 0⟩ : Pt).x) = (0 : ℚ) from by
        norm_num,
      show ((⟨0, 100⟩ : Pt).y - (⟨0, 0⟩ : Pt).y) = (100 : ℚ) from by
        norm_num,
      angleDeg_0_100]
  have hnone : normalizeAngle cfgTenth (270 : ℝ) none = -90 := by
    rw [normalizeAngle_fold_none cfgTenth rfl rfl, fold_270]
  have hsome : normalizeAngle cfgTenth (270 : ℝ) (some (-90)) = -90 := by
    rw [normalizeAngle_fold_some cfgTenth rfl rfl 270 (-90)
      (by rw [fold_270]; norm_num) (by rw [fold_270]; norm_num), fold_270]
  rw [fromPointsCValues, sample_two_001]
  show normalizeAngle cfgTenth
      (angleDeg ((⟨0, 100⟩ : Pt).x - (⟨0, 0⟩ : Pt).x)
        ((⟨0, 100⟩ : Pt).y - (⟨0, 0⟩ : Pt).y)) none ::
    fromPointsCLoop cfgTenth [⟨0, 0⟩, ⟨0, 100⟩]
      (normalizeAngle cfgTenth
        (angleDeg ((⟨0, 100⟩ : Pt).x - (⟨0, 0⟩ : Pt).x)
          ((⟨0, 100⟩ : Pt).y - (⟨0, 0⟩ : Pt).y)) none) = [-90, -90]
  rw [hd, hnone, fromPointsCLoop, hd, hsome,
    show fromPointsCLoop cfgTenth [(⟨0, 100⟩ : Pt)] (-90) = [] from rfl]

/-- C2: the two oriented generators do not agree.  On the two-point
vertical polyline with the default settings, the base-program path emits
the C values 0, 0, 90, 0 (four values: the duplicated collected moves
make the first two headings 0, and parsing the already-flipped machine Y
flips the heading sign again), while the direct point path emits -90, -90
(two values). -/
theorem oriented_generators_diverge :
    fromBaseCValues cfgTenth
        (generateGCodeString cfgTenth [] [(⟨0, 0⟩ : Pt), ⟨0, 100⟩] 1) =
      [0, 0, 90, 0] ∧
    fromPointsCValues cfgTenth [(⟨0, 0⟩ : Pt), ⟨0, 100⟩] 1 = [-90, -90] ∧
    fromBaseCValues cfgTenth
        (generateGCodeString cfgTenth [] [(⟨0, 0⟩ : Pt), ⟨0, 100⟩] 1) ≠
      fromPointsCValues cfgTenth [(⟨0, 0⟩ : Pt), ⟨0, 100⟩] 1 := by
  refine ⟨fromBase_cvalues_demo, fromPoints_cvalues_demo, ?_⟩
  rw [fromBase_cvalues_demo, fromPoints_cvalues_demo]
  intro h0
  have h1 := congrArg List.length h0
  simp at h1

end TangentCNC
